import Mathlib

/-!
# cemu: a shallow embedding of the RV64 emulator core

The development embeds the C sources of the emulator (`dram.c`, `mmu.c`,
`bus.c`, `csr.c`, `cpu.c`, `opcode.h`, `loader.c`, `celf.c`) as Lean functions
and proves properties of them.

Conventions of the embedding.

* `u8`, `u32`, `u64` and `size_t` values are natural numbers; every C
  operation that can wrap is followed by an explicit reduction modulo
  `2^8`, `2^32` or `2^64` (`size_t` is 64 bits wide).  Signed values
  (`int8_t` .. `int64_t`) are integers in the range of their type.
* Integer conversions, `+`, `-`, `*` wrap (two's complement), `>>` on a signed
  operand is arithmetic.
* What ends a C function other than by returning is a `Fault`: a call of
  `exit(0)`, the use of the value of a function that returned without one,
  an array access outside the array, a division by zero, a shift by at least
  the width of the shifted operand.
* Output (`printf`, `log_info`, ...) is not modelled.
-/

namespace Cemu

/-! ## Outcomes -/

/-- Ways in which a call ends without returning normally. -/
inductive Fault where
  /-- The program called `exit(0)`. -/
  | exit_0 : Fault
  /-- The value of a non-void function that executed `return;` was used. -/
  | missing_return : Fault
  /-- An array was indexed outside its extent. -/
  | out_of_bounds : Fault
  /-- Division or remainder by zero. -/
  | division_by_zero : Fault
  /-- Shift by a negative count or by at least the width of the left operand. -/
  | shift_count : Fault
deriving DecidableEq, Repr

/-! ## Fixed-width integers -/

/-- Conversion of a signed value to `u64`. -/
def to_u64 (x : Int) : Nat := (x % 2 ^ 64).toNat

/-- Conversion of a signed value to `u32`. -/
def to_u32 (x : Int) : Nat := (x % 2 ^ 32).toNat

/-- Conversion `(int8_t) x` of an unsigned value. -/
def to_i8 (x : Nat) : Int :=
  if x % 2 ^ 8 < 2 ^ 7 then ((x % 2 ^ 8 : Nat) : Int) else ((x % 2 ^ 8 : Nat) : Int) - 2 ^ 8

/-- Conversion `(int16_t) x` of an unsigned value. -/
def to_i16 (x : Nat) : Int :=
  if x % 2 ^ 16 < 2 ^ 15 then ((x % 2 ^ 16 : Nat) : Int) else ((x % 2 ^ 16 : Nat) : Int) - 2 ^ 16

/-- Conversion `(int32_t) x` of an unsigned value. -/
def to_i32 (x : Nat) : Int :=
  if x % 2 ^ 32 < 2 ^ 31 then ((x % 2 ^ 32 : Nat) : Int) else ((x % 2 ^ 32 : Nat) : Int) - 2 ^ 32

/-- Conversion `(int64_t) x` of an unsigned value. -/
def to_i64 (x : Nat) : Int :=
  if x % 2 ^ 64 < 2 ^ 63 then ((x % 2 ^ 64 : Nat) : Int) else ((x % 2 ^ 64 : Nat) : Int) - 2 ^ 64

/-- Addition of two `u64` values. -/
def add64 (a b : Nat) : Nat := (a + b) % 2 ^ 64

/-- Subtraction of two `u64` values. -/
def sub64 (a b : Nat) : Nat := (a + (2 ^ 64 - b % 2 ^ 64)) % 2 ^ 64

/-- Left shift of a `u64` value by a count below 64. -/
def shl64 (a n : Nat) : Nat := (a <<< n) % 2 ^ 64

/-! ## DRAM (`dram.h`, `dram.c`) -/

/-- The macro `DRAM_SIZE`: 1 MiB. -/
abbrev DRAM_SIZE : Nat := 1024 * 1024 * 1

/-- The macro `DRAM_BASE`. -/
abbrev DRAM_BASE : Nat := 0x80000000

/-- The struct `DRAM`.  `mem_addr` is the host address of the buffer obtained
from `malloc(DRAM_SIZE)` and `mem i` is the byte at index `i` of that buffer,
meaningful for `i < DRAM_SIZE`; `alloc_addr` is a host address as well. -/
structure DRAM where
  mem_addr : Nat
  mem : Nat → Nat
  alloc_size : Nat
  alloc_addr : Nat

/-- Read of `dram->mem_addr[i]`. -/
def mem_get (d : DRAM) (i : Nat) : Except Fault Nat :=
  if i < DRAM_SIZE then .ok (d.mem i) else .error .out_of_bounds

/-- Assignment `dram->mem_addr[i] = b` of a `u8` value. -/
def mem_set (d : DRAM) (i b : Nat) : Except Fault DRAM :=
  if i < DRAM_SIZE then .ok { d with mem := fun j => if j = i then b else d.mem j }
  else .error .out_of_bounds

/-- The function `dram_load_8`. -/
def dram_load_8 (d : DRAM) (addr : Nat) : Except Fault Nat :=
  mem_get d (sub64 addr DRAM_BASE)

/-- The function `dram_load_16`. -/
def dram_load_16 (d : DRAM) (addr : Nat) : Except Fault Nat := do
  let b0 ← mem_get d (sub64 addr DRAM_BASE)
  let b1 ← mem_get d (add64 (sub64 addr DRAM_BASE) 1)
  pure (b0 ||| shl64 b1 8)

/-- The function `dram_load_32`: every byte after the first is read at index `+ 1`. -/
def dram_load_32 (d : DRAM) (addr : Nat) : Except Fault Nat := do
  let b0 ← mem_get d (sub64 addr DRAM_BASE)
  let b1 ← mem_get d (add64 (sub64 addr DRAM_BASE) 1)
  let b2 ← mem_get d (add64 (sub64 addr DRAM_BASE) 1)
  let b3 ← mem_get d (add64 (sub64 addr DRAM_BASE) 1)
  pure (b0 ||| shl64 b1 8 ||| shl64 b2 16 ||| shl64 b3 24)

/-- The function `dram_load_64`: every byte after the first is read at index `+ 1`. -/
def dram_load_64 (d : DRAM) (addr : Nat) : Except Fault Nat := do
  let b0 ← mem_get d (sub64 addr DRAM_BASE)
  let b1 ← mem_get d (add64 (sub64 addr DRAM_BASE) 1)
  let b2 ← mem_get d (add64 (sub64 addr DRAM_BASE) 1)
  let b3 ← mem_get d (add64 (sub64 addr DRAM_BASE) 1)
  let b4 ← mem_get d (add64 (sub64 addr DRAM_BASE) 1)
  let b5 ← mem_get d (add64 (sub64 addr DRAM_BASE) 1)
  let b6 ← mem_get d (add64 (sub64 addr DRAM_BASE) 1)
  let b7 ← mem_get d (add64 (sub64 addr DRAM_BASE) 1)
  pure (b0 ||| shl64 b1 8 ||| shl64 b2 16 ||| shl64 b3 24
    ||| shl64 b4 32 ||| shl64 b5 40 ||| shl64 b6 48 ||| shl64 b7 56)

/-- The function `dram_store_8`. -/
def dram_store_8 (d : DRAM) (addr value : Nat) : Except Fault DRAM :=
  mem_set d (sub64 addr DRAM_BASE) ((value &&& 0xff) % 2 ^ 8)

/-- The function `dram_store_16`. -/
def dram_store_16 (d : DRAM) (addr value : Nat) : Except Fault DRAM := do
  let d ← mem_set d (sub64 addr DRAM_BASE) ((value &&& 0xff) % 2 ^ 8)
  mem_set d (add64 (sub64 addr DRAM_BASE) 1) (((value >>> 8) &&& 0xff) % 2 ^ 8)

/-- The function `dram_store_32`. -/
def dram_store_32 (d : DRAM) (addr value : Nat) : Except Fault DRAM := do
  let d ← mem_set d (sub64 addr DRAM_BASE) ((value &&& 0xff) % 2 ^ 8)
  let d ← mem_set d (add64 (sub64 addr DRAM_BASE) 1) (((value >>> 8) &&& 0xff) % 2 ^ 8)
  let d ← mem_set d (add64 (sub64 addr DRAM_BASE) 2) (((value >>> 16) &&& 0xff) % 2 ^ 8)
  mem_set d (add64 (sub64 addr DRAM_BASE) 3) (((value >>> 24) &&& 0xff) % 2 ^ 8)

/-- The function `dram_store_64`. -/
def dram_store_64 (d : DRAM) (addr value : Nat) : Except Fault DRAM := do
  let d ← mem_set d (sub64 addr DRAM_BASE) ((value &&& 0xff) % 2 ^ 8)
  let d ← mem_set d (add64 (sub64 addr DRAM_BASE) 1) (((value >>> 8) &&& 0xff) % 2 ^ 8)
  let d ← mem_set d (add64 (sub64 addr DRAM_BASE) 2) (((value >>> 16) &&& 0xff) % 2 ^ 8)
  let d ← mem_set d (add64 (sub64 addr DRAM_BASE) 3) (((value >>> 24) &&& 0xff) % 2 ^ 8)
  let d ← mem_set d (add64 (sub64 addr DRAM_BASE) 4) (((value >>> 32) &&& 0xff) % 2 ^ 8)
  let d ← mem_set d (add64 (sub64 addr DRAM_BASE) 5) (((value >>> 40) &&& 0xff) % 2 ^ 8)
  let d ← mem_set d (add64 (sub64 addr DRAM_BASE) 6) (((value >>> 48) &&& 0xff) % 2 ^ 8)
  mem_set d (add64 (sub64 addr DRAM_BASE) 7) (((value >>> 56) &&& 0xff) % 2 ^ 8)

/-- The function `dram_write_data`; `size` is the width in bits.  A write that
fails the range check is reported and leaves the DRAM as it is. -/
def dram_write_data (d : DRAM) (offset size value : Nat) : Except Fault DRAM :=
  if (offset + size) % 2 ^ 64 > d.alloc_size then .ok d
  else
    let addr := add64 DRAM_BASE offset
    if size = 8 then dram_store_8 d addr value
    else if size = 16 then dram_store_16 d addr value
    else if size = 32 then dram_store_32 d addr value
    else if size = 64 then dram_store_64 d addr value
    else .ok d

/-- The function `dram_load_data`; `size` is the width in bits.  A load that
fails the range check executes `return;` without a value. -/
def dram_load_data (d : DRAM) (offset size : Nat) : Except Fault Nat :=
  if (offset + size) % 2 ^ 64 > d.alloc_size then .error .missing_return
  else
    let addr := add64 DRAM_BASE offset
    if size = 8 then dram_load_8 d addr
    else if size = 16 then dram_load_16 d addr
    else if size = 32 then dram_load_32 d addr
    else if size = 64 then dram_load_64 d addr
    else .ok 1

/-! ## MMU and bus (`mmu.c`, `bus.c`) -/

/-- The function `mmu_get_offset`. -/
def mmu_get_offset (_base_memory_addr guest_physics_addr : Nat) : Nat :=
  sub64 guest_physics_addr DRAM_BASE

/-- The struct `BUS`. -/
structure BUS where
  dram : DRAM

/-- The function `bus_load`. -/
def bus_load (bus : BUS) (addr size : Nat) : Except Fault Nat :=
  dram_load_data bus.dram (mmu_get_offset bus.dram.mem_addr addr) size

/-- The function `bus_store`. -/
def bus_store (bus : BUS) (addr size value : Nat) : Except Fault BUS := do
  let d ← dram_write_data bus.dram (mmu_get_offset bus.dram.mem_addr addr) size value
  pure { bus with dram := d }

/-! ## Checked C operators -/

/-- The operator `a << n` on a `u64` left operand. -/
def shl_u64 (a : Nat) (n : Int) : Except Fault Nat :=
  if 0 ≤ n ∧ n < 64 then .ok ((a <<< n.toNat) % 2 ^ 64) else .error .shift_count

/-- The operator `a >> n` on a `u64` left operand. -/
def shr_u64 (a : Nat) (n : Int) : Except Fault Nat :=
  if 0 ≤ n ∧ n < 64 then .ok (a >>> n.toNat) else .error .shift_count

/-- The operator `a >> n` on an `int32_t` left operand (promoted to `int`). -/
def sar_i32 (a : Int) (n : Int) : Except Fault Int :=
  if 0 ≤ n ∧ n < 32 then .ok (a >>> n.toNat) else .error .shift_count

/-- The operator `a / b` on `u64` operands. -/
def div_u64 (a b : Nat) : Except Fault Nat :=
  if b = 0 then .error .division_by_zero else .ok (a / b)

/-- The operator `a % b` on `u64` operands. -/
def rem_u64 (a b : Nat) : Except Fault Nat :=
  if b = 0 then .error .division_by_zero else .ok (a % b)

/-! ## CPU state (`cpu.h`) and CSR access (`csr.c`) -/

/-- The struct `CPU`: `regs i` for `i < 32`, `csr i` for an index inside the
array `csr`. -/
structure CPU where
  regs : Nat → Nat
  pc : Nat
  csr : Nat → Nat
  bus : BUS

/-- The number of elements in the declaration `u64 csr[4069]`. -/
abbrev CSR_COUNT : Nat := 4069

/-- Assignment `cpu->regs[i] = v`. -/
def set_reg (cpu : CPU) (i v : Nat) : CPU :=
  { cpu with regs := fun j => if j = i then v else cpu.regs j }

/-- Read of `cpu->csr[i]`. -/
def csr_get (cpu : CPU) (i : Nat) : Except Fault Nat :=
  if i < CSR_COUNT then .ok (cpu.csr i) else .error .out_of_bounds

/-- The function `csr_read`: the entry converted to `uint32_t`. -/
def csr_read (cpu : CPU) (csr : Nat) : Except Fault Nat := do
  let v ← csr_get cpu csr
  pure (v % 2 ^ 32)

/-- The function `csr_write`. -/
def csr_write (cpu : CPU) (csr value : Nat) : Except Fault CPU :=
  if csr < CSR_COUNT then
    .ok { cpu with csr := fun j => if j = csr then value else cpu.csr j }
  else .error .out_of_bounds

/-- The function `cpu_load`. -/
def cpu_load (cpu : CPU) (addr size : Nat) : Except Fault Nat :=
  bus_load cpu.bus addr size

/-- The function `cpu_store`. -/
def cpu_store (cpu : CPU) (addr size value : Nat) : Except Fault CPU := do
  let b ← bus_store cpu.bus addr size value
  pure { cpu with bus := b }

/-! ## Decoder (`cpu.c`) -/

/-- The function `rd`. -/
def rd (inst : Nat) : Nat := (inst >>> 7) &&& 0x1f

/-- The function `rs1`. -/
def rs1 (inst : Nat) : Nat := (inst >>> 15) &&& 0x1f

/-- The function `rs2`. -/
def rs2 (inst : Nat) : Nat := (inst >>> 20) &&& 0x1f

/-- The function `imm_I`. -/
def imm_I (inst : Nat) : Nat :=
  to_u64 (to_i32 (inst &&& 0xfff00000) >>> 20)

/-- The function `imm_S`. -/
def imm_S (inst : Nat) : Nat :=
  to_u64 (to_i32 (inst &&& 0xfe000000) >>> 20) ||| ((inst >>> 7) &&& 0x1f)

/-- The function `imm_B`. -/
def imm_B (inst : Nat) : Nat :=
  to_u64 (to_i32 (inst &&& 0x80000000) >>> 19)
    ||| (((inst &&& 0x80) <<< 4) % 2 ^ 32)
    ||| ((inst >>> 20) &&& 0x7e0)
    ||| ((inst >>> 7) &&& 0x1e)

/-- The function `imm_U`, with the mask `0xfffff999` of the source. -/
def imm_U (inst : Nat) : Nat :=
  to_u64 (to_i32 (inst &&& 0xfffff999))

/-- The function `imm_J`. -/
def imm_J (inst : Nat) : Nat :=
  to_u64 (to_i32 (inst &&& 0x80000000) >>> 11)
    ||| (inst &&& 0xff000)
    ||| ((inst >>> 9) &&& 0x800)
    ||| ((inst >>> 20) &&& 0x7fe)

/-- The function `shamt`. -/
def shamt (inst : Nat) : Nat := (imm_I inst &&& 0x1f) % 2 ^ 32

/-- The function `csr` of the decoder. -/
def csr (inst : Nat) : Nat := (inst &&& 0xfff00000) >>> 20

/-- The macro `ADDR_MISALIGNED`. -/
def ADDR_MISALIGNED (addr : Nat) : Nat := addr &&& 0x3

/-! ## Instruction handlers (`cpu.c`)

Every handler is run by `cpu_execute` after `pc` has been advanced by 4. -/

/-- The function `exec_LUI`. -/
def exec_LUI (cpu : CPU) (inst : Nat) : Except Fault CPU :=
  .ok (set_reg cpu (rd inst) (to_u64 (to_i32 (inst &&& 0xfffff000))))

/-- The function `exec_AUIPC`. -/
def exec_AUIPC (cpu : CPU) (inst : Nat) : Except Fault CPU :=
  let imm := imm_U inst
  .ok (set_reg cpu (rd inst) (to_u64 ((to_i64 cpu.pc + to_i64 imm) - 4)))

/-- The function `exec_JAL`. -/
def exec_JAL (cpu : CPU) (inst : Nat) : Except Fault CPU :=
  let imm := imm_J inst
  let cpu := set_reg cpu (rd inst) cpu.pc
  let cpu := { cpu with pc := sub64 (add64 cpu.pc (to_u64 (to_i64 imm))) 4 }
  if ADDR_MISALIGNED cpu.pc ≠ 0 then .error .exit_0 else .ok cpu

/-- The function `exec_JALR`; the mask is the constant `0xfffffffe` of the source. -/
def exec_JALR (cpu : CPU) (inst : Nat) : Except Fault CPU :=
  let imm := imm_I inst
  let tmp := cpu.pc
  let cpu := { cpu with pc := add64 (cpu.regs (rs1 inst)) (to_u64 (to_i64 imm)) &&& 0xfffffffe }
  let cpu := set_reg cpu (rd inst) tmp
  if ADDR_MISALIGNED cpu.pc ≠ 0 then .error .exit_0 else .ok cpu

/-- The function `exec_BEQ`. -/
def exec_BEQ (cpu : CPU) (inst : Nat) : Except Fault CPU :=
  let imm := imm_B inst
  if to_i64 (cpu.regs (rs1 inst)) = to_i64 (cpu.regs (rs2 inst)) then
    .ok { cpu with pc := sub64 (add64 cpu.pc (to_u64 (to_i64 imm))) 4 }
  else .ok cpu

/-- The function `exec_BNE`. -/
def exec_BNE (cpu : CPU) (inst : Nat) : Except Fault CPU :=
  let imm := imm_B inst
  if to_i64 (cpu.regs (rs1 inst)) ≠ to_i64 (cpu.regs (rs2 inst)) then
    .ok { cpu with pc := sub64 (add64 cpu.pc (to_u64 (to_i64 imm))) 4 }
  else .ok cpu

/-- The function `exec_BLT`. -/
def exec_BLT (cpu : CPU) (inst : Nat) : Except Fault CPU :=
  let imm := imm_B inst
  if to_i64 (cpu.regs (rs1 inst)) < to_i64 (cpu.regs (rs2 inst)) then
    .ok { cpu with pc := sub64 (add64 cpu.pc (to_u64 (to_i64 imm))) 4 }
  else .ok cpu

/-- The function `exec_BGE`. -/
def exec_BGE (cpu : CPU) (inst : Nat) : Except Fault CPU :=
  let imm := imm_B inst
  if to_i64 (cpu.regs (rs1 inst)) ≥ to_i64 (cpu.regs (rs2 inst)) then
    .ok { cpu with pc := sub64 (add64 cpu.pc (to_u64 (to_i64 imm))) 4 }
  else .ok cpu

/-- The function `exec_BLTU`. -/
def exec_BLTU (cpu : CPU) (inst : Nat) : Except Fault CPU :=
  let imm := imm_B inst
  if cpu.regs (rs1 inst) < cpu.regs (rs2 inst) then
    .ok { cpu with pc := sub64 (add64 cpu.pc (to_u64 (to_i64 imm))) 4 }
  else .ok cpu

/-- The function `exec_BGEU`. -/
def exec_BGEU (cpu : CPU) (inst : Nat) : Except Fault CPU :=
  let imm := imm_B inst
  if cpu.regs (rs1 inst) ≥ cpu.regs (rs2 inst) then
    .ok { cpu with pc := to_u64 (to_i64 cpu.pc + to_i64 imm - 4) }
  else .ok cpu

/-- The function `exec_LB`. -/
def exec_LB (cpu : CPU) (inst : Nat) : Except Fault CPU := do
  let imm := imm_I inst
  let addr := add64 (cpu.regs (rs1 inst)) (to_u64 (to_i64 imm))
  let v ← cpu_load cpu addr 8
  pure (set_reg cpu (rd inst) (to_u64 (to_i8 v)))

/-- The function `exec_LH`. -/
def exec_LH (cpu : CPU) (inst : Nat) : Except Fault CPU := do
  let imm := imm_I inst
  let addr := add64 (cpu.regs (rs1 inst)) (to_u64 (to_i64 imm))
  let v ← cpu_load cpu addr 16
  pure (set_reg cpu (rd inst) (to_u64 (to_i16 v)))

/-- The function `exec_LW`. -/
def exec_LW (cpu : CPU) (inst : Nat) : Except Fault CPU := do
  let imm := imm_I inst
  let addr := add64 (cpu.regs (rs1 inst)) (to_u64 (to_i64 imm))
  let v ← cpu_load cpu addr 32
  pure (set_reg cpu (rd inst) (to_u64 (to_i32 v)))

/-- The function `exec_LD`. -/
def exec_LD (cpu : CPU) (inst : Nat) : Except Fault CPU := do
  let imm := imm_I inst
  let addr := add64 (cpu.regs (rs1 inst)) (to_u64 (to_i64 imm))
  let v ← cpu_load cpu addr 64
  pure (set_reg cpu (rd inst) (to_u64 (to_i64 v)))

/-- The function `exec_LBU`. -/
def exec_LBU (cpu : CPU) (inst : Nat) : Except Fault CPU := do
  let imm := imm_I inst
  let addr := add64 (cpu.regs (rs1 inst)) (to_u64 (to_i64 imm))
  let v ← cpu_load cpu addr 8
  pure (set_reg cpu (rd inst) v)

/-- The function `exec_LHU`. -/
def exec_LHU (cpu : CPU) (inst : Nat) : Except Fault CPU := do
  let imm := imm_I inst
  let addr := add64 (cpu.regs (rs1 inst)) (to_u64 (to_i64 imm))
  let v ← cpu_load cpu addr 16
  pure (set_reg cpu (rd inst) v)

/-- The function `exec_LWU`. -/
def exec_LWU (cpu : CPU) (inst : Nat) : Except Fault CPU := do
  let imm := imm_I inst
  let addr := add64 (cpu.regs (rs1 inst)) (to_u64 (to_i64 imm))
  let v ← cpu_load cpu addr 32
  pure (set_reg cpu (rd inst) v)

/-- The function `exec_SB`. -/
def exec_SB (cpu : CPU) (inst : Nat) : Except Fault CPU :=
  let imm := imm_S inst
  let addr := add64 (cpu.regs (rs1 inst)) (to_u64 (to_i64 imm))
  cpu_store cpu addr 8 (cpu.regs (rs2 inst))

/-- The function `exec_SH`. -/
def exec_SH (cpu : CPU) (inst : Nat) : Except Fault CPU :=
  let imm := imm_S inst
  let addr := add64 (cpu.regs (rs1 inst)) (to_u64 (to_i64 imm))
  cpu_store cpu addr 16 (cpu.regs (rs2 inst))

/-- The function `exec_SW`. -/
def exec_SW (cpu : CPU) (inst : Nat) : Except Fault CPU :=
  let imm := imm_S inst
  let addr := add64 (cpu.regs (rs1 inst)) (to_u64 (to_i64 imm))
  cpu_store cpu addr 32 (cpu.regs (rs2 inst))

/-- The function `exec_SD`. -/
def exec_SD (cpu : CPU) (inst : Nat) : Except Fault CPU :=
  let imm := imm_S inst
  let addr := add64 (cpu.regs (rs1 inst)) (to_u64 (to_i64 imm))
  cpu_store cpu addr 64 (cpu.regs (rs2 inst))

/-- The function `exec_ADDI`. -/
def exec_ADDI (cpu : CPU) (inst : Nat) : Except Fault CPU :=
  let imm := imm_I inst
  .ok (set_reg cpu (rd inst) (add64 (cpu.regs (rs1 inst)) (to_u64 (to_i64 imm))))

/-- The function `exec_SLLI`. -/
def exec_SLLI (cpu : CPU) (inst : Nat) : Except Fault CPU := do
  let v ← shl_u64 (cpu.regs (rs1 inst)) (shamt inst)
  pure (set_reg cpu (rd inst) v)

/-- The function `exec_SLTI`: the comparison is made in `u64`. -/
def exec_SLTI (cpu : CPU) (inst : Nat) : Except Fault CPU :=
  let imm := imm_I inst
  .ok (set_reg cpu (rd inst) (if cpu.regs (rs1 inst) < to_u64 (to_i64 imm) then 1 else 0))

/-- The function `exec_SLTIU`. -/
def exec_SLTIU (cpu : CPU) (inst : Nat) : Except Fault CPU :=
  let imm := imm_I inst
  .ok (set_reg cpu (rd inst) (if cpu.regs (rs1 inst) < imm then 1 else 0))

/-- The function `exec_XORI`. -/
def exec_XORI (cpu : CPU) (inst : Nat) : Except Fault CPU :=
  let imm := imm_I inst
  .ok (set_reg cpu (rd inst) (cpu.regs (rs1 inst) ^^^ imm))

/-- The function `exec_SRLI`: the count is the whole I-immediate. -/
def exec_SRLI (cpu : CPU) (inst : Nat) : Except Fault CPU := do
  let imm := imm_I inst
  let v ← shr_u64 (cpu.regs (rs1 inst)) imm
  pure (set_reg cpu (rd inst) v)

/-- The function `exec_SRAI`: an `int32_t` shifted by the whole I-immediate. -/
def exec_SRAI (cpu : CPU) (inst : Nat) : Except Fault CPU := do
  let imm := imm_I inst
  let v ← sar_i32 (to_i32 (cpu.regs (rs1 inst))) imm
  pure (set_reg cpu (rd inst) (to_u64 v))

/-- The function `exec_ORI`. -/
def exec_ORI (cpu : CPU) (inst : Nat) : Except Fault CPU :=
  let imm := imm_I inst
  .ok (set_reg cpu (rd inst) (cpu.regs (rs1 inst) ||| imm))

/-- The function `exec_ANDI`. -/
def exec_ANDI (cpu : CPU) (inst : Nat) : Except Fault CPU :=
  let imm := imm_I inst
  .ok (set_reg cpu (rd inst) (cpu.regs (rs1 inst) &&& imm))

/-- The function `exec_ADD`. -/
def exec_ADD (cpu : CPU) (inst : Nat) : Except Fault CPU :=
  .ok (set_reg cpu (rd inst)
    (to_u64 (to_i64 (cpu.regs (rs1 inst)) + to_i64 (cpu.regs (rs2 inst)))))

/-- The function `exec_SUB`. -/
def exec_SUB (cpu : CPU) (inst : Nat) : Except Fault CPU :=
  .ok (set_reg cpu (rd inst)
    (to_u64 (to_i64 (cpu.regs (rs1 inst)) - to_i64 (cpu.regs (rs2 inst)))))

/-- The function `exec_SLL`: the count is `(int64_t) regs[rs2]`. -/
def exec_SLL (cpu : CPU) (inst : Nat) : Except Fault CPU := do
  let v ← shl_u64 (cpu.regs (rs1 inst)) (to_i64 (cpu.regs (rs2 inst)))
  pure (set_reg cpu (rd inst) v)

/-- The function `exec_SLT`: the comparison is made in `u64`. -/
def exec_SLT (cpu : CPU) (inst : Nat) : Except Fault CPU :=
  .ok (set_reg cpu (rd inst)
    (if cpu.regs (rs1 inst) < to_u64 (to_i64 (cpu.regs (rs2 inst))) then 1 else 0))

/-- The function `exec_SLTU`. -/
def exec_SLTU (cpu : CPU) (inst : Nat) : Except Fault CPU :=
  .ok (set_reg cpu (rd inst) (if cpu.regs (rs1 inst) < cpu.regs (rs2 inst) then 1 else 0))

/-- The function `exec_XOR`. -/
def exec_XOR (cpu : CPU) (inst : Nat) : Except Fault CPU :=
  .ok (set_reg cpu (rd inst) (cpu.regs (rs1 inst) ^^^ cpu.regs (rs2 inst)))

/-- The function `exec_SRL`: the count is the whole of `regs[rs2]`. -/
def exec_SRL (cpu : CPU) (inst : Nat) : Except Fault CPU := do
  let v ← shr_u64 (cpu.regs (rs1 inst)) (cpu.regs (rs2 inst))
  pure (set_reg cpu (rd inst) v)

/-- The function `exec_SRA`: an `int32_t` shifted by `(int64_t) regs[rs2]`. -/
def exec_SRA (cpu : CPU) (inst : Nat) : Except Fault CPU := do
  let v ← sar_i32 (to_i32 (cpu.regs (rs1 inst))) (to_i64 (cpu.regs (rs2 inst)))
  pure (set_reg cpu (rd inst) (to_u64 v))

/-- The function `exec_OR`. -/
def exec_OR (cpu : CPU) (inst : Nat) : Except Fault CPU :=
  .ok (set_reg cpu (rd inst) (cpu.regs (rs1 inst) ||| cpu.regs (rs2 inst)))

/-- The function `exec_AND`. -/
def exec_AND (cpu : CPU) (inst : Nat) : Except Fault CPU :=
  .ok (set_reg cpu (rd inst) (cpu.regs (rs1 inst) &&& cpu.regs (rs2 inst)))

/-- The function `exec_FENCE`. -/
def exec_FENCE (cpu : CPU) (_inst : Nat) : Except Fault CPU := .ok cpu

/-- The function `exec_ECALL`. -/
def exec_ECALL (cpu : CPU) (_inst : Nat) : Except Fault CPU := .ok cpu

/-- The function `exec_EBREAK`. -/
def exec_EBREAK (cpu : CPU) (_inst : Nat) : Except Fault CPU := .ok cpu

/-- The function `exec_ECALLBREAK`. -/
def exec_ECALLBREAK (cpu : CPU) (inst : Nat) : Except Fault CPU := do
  let cpu ← if imm_I inst = 0x0 then exec_ECALL cpu inst else pure cpu
  let cpu ← if imm_I inst = 0x1 then exec_EBREAK cpu inst else pure cpu
  pure cpu

/-- The function `exec_ADDIW`. -/
def exec_ADDIW (cpu : CPU) (inst : Nat) : Except Fault CPU :=
  let imm := imm_I inst
  .ok (set_reg cpu (rd inst) (add64 (cpu.regs (rs1 inst)) (to_u64 (to_i64 imm))))

/-- The function `exec_SLLIW`. -/
def exec_SLLIW (cpu : CPU) (inst : Nat) : Except Fault CPU := do
  let v ← shl_u64 (cpu.regs (rs1 inst)) (shamt inst)
  pure (set_reg cpu (rd inst) (to_u64 (to_i32 v)))

/-- The function `exec_SRLIW`. -/
def exec_SRLIW (cpu : CPU) (inst : Nat) : Except Fault CPU := do
  let v ← shr_u64 (cpu.regs (rs1 inst)) (shamt inst)
  pure (set_reg cpu (rd inst) (to_u64 (to_i32 v)))

/-- The function `exec_SRAIW`. -/
def exec_SRAIW (cpu : CPU) (inst : Nat) : Except Fault CPU := do
  let imm := imm_I inst
  let v ← shr_u64 (cpu.regs (rs1 inst)) (to_u64 (to_i32 imm))
  pure (set_reg cpu (rd inst) (to_u64 (to_i32 v)))

/-- The function `exec_ADDW`. -/
def exec_ADDW (cpu : CPU) (inst : Nat) : Except Fault CPU :=
  .ok (set_reg cpu (rd inst)
    (to_u64 (to_i32 (add64 (cpu.regs (rs1 inst)) (to_u64 (to_i64 (cpu.regs (rs2 inst))))))))

/-- The function `exec_MULW`. -/
def exec_MULW (cpu : CPU) (inst : Nat) : Except Fault CPU :=
  .ok (set_reg cpu (rd inst)
    (to_u64 (to_i32 ((cpu.regs (rs1 inst) * to_u64 (to_i64 (cpu.regs (rs2 inst)))) % 2 ^ 64))))

/-- The function `exec_SUBW`. -/
def exec_SUBW (cpu : CPU) (inst : Nat) : Except Fault CPU :=
  .ok (set_reg cpu (rd inst)
    (to_u64 (to_i32 (sub64 (cpu.regs (rs1 inst)) (to_u64 (to_i64 (cpu.regs (rs2 inst))))))))

/-- The function `exec_DIVW`: a division in `u64`. -/
def exec_DIVW (cpu : CPU) (inst : Nat) : Except Fault CPU := do
  let v ← div_u64 (cpu.regs (rs1 inst)) (to_u64 (to_i64 (cpu.regs (rs2 inst))))
  pure (set_reg cpu (rd inst) (to_u64 (to_i32 v)))

/-- The function `exec_SLLW`. -/
def exec_SLLW (cpu : CPU) (inst : Nat) : Except Fault CPU := do
  let v ← shl_u64 (cpu.regs (rs1 inst)) (cpu.regs (rs2 inst))
  pure (set_reg cpu (rd inst) (to_u64 (to_i32 v)))

/-- The function `exec_SRLW`. -/
def exec_SRLW (cpu : CPU) (inst : Nat) : Except Fault CPU := do
  let v ← shr_u64 (cpu.regs (rs1 inst)) (cpu.regs (rs2 inst))
  pure (set_reg cpu (rd inst) (to_u64 (to_i32 v)))

/-- The function `exec_DIVUW`. -/
def exec_DIVUW (cpu : CPU) (inst : Nat) : Except Fault CPU := do
  let v ← div_u64 (cpu.regs (rs1 inst)) (to_u64 (to_i64 (cpu.regs (rs2 inst))))
  pure (set_reg cpu (rd inst) v)

/-- The function `exec_SRAW`. -/
def exec_SRAW (cpu : CPU) (inst : Nat) : Except Fault CPU := do
  let v ← shr_u64 (cpu.regs (rs1 inst)) (to_u64 (to_i32 (cpu.regs (rs2 inst))))
  pure (set_reg cpu (rd inst) (to_u64 (to_i32 v)))

/-- The function `exec_REMW`. -/
def exec_REMW (cpu : CPU) (inst : Nat) : Except Fault CPU := do
  let v ← rem_u64 (cpu.regs (rs1 inst)) (to_u64 (to_i64 (cpu.regs (rs2 inst))))
  pure (set_reg cpu (rd inst) (to_u64 (to_i32 v)))

/-- The function `exec_REMUW`. -/
def exec_REMUW (cpu : CPU) (inst : Nat) : Except Fault CPU := do
  let v ← rem_u64 (cpu.regs (rs1 inst)) (to_u64 (to_i64 (cpu.regs (rs2 inst))))
  pure (set_reg cpu (rd inst) v)

/-- The function `exec_CSRRW`. -/
def exec_CSRRW (cpu : CPU) (inst : Nat) : Except Fault CPU := do
  let v ← csr_read cpu (csr inst)
  let cpu := set_reg cpu (rd inst) v
  csr_write cpu (csr inst) (cpu.regs (rs1 inst))

/-- The function `exec_CSRRS`. -/
def exec_CSRRS (cpu : CPU) (inst : Nat) : Except Fault CPU := do
  let old ← csr_get cpu (csr inst)
  csr_write cpu (csr inst) (old ||| cpu.regs (rs1 inst))

/-- The function `exec_CSRRC`: `!` is the logical negation of C. -/
def exec_CSRRC (cpu : CPU) (inst : Nat) : Except Fault CPU := do
  let old ← csr_get cpu (csr inst)
  csr_write cpu (csr inst) (old &&& (if cpu.regs (rs1 inst) = 0 then 1 else 0))

/-- The function `exec_CSRRWI`. -/
def exec_CSRRWI (cpu : CPU) (inst : Nat) : Except Fault CPU :=
  csr_write cpu (csr inst) (rs1 inst)

/-- The function `exec_CSRRSI`. -/
def exec_CSRRSI (cpu : CPU) (inst : Nat) : Except Fault CPU := do
  let old ← csr_get cpu (csr inst)
  csr_write cpu (csr inst) (old ||| rs1 inst)

/-- The function `exec_CSRRCI`: `!` is the logical negation of C. -/
def exec_CSRRCI (cpu : CPU) (inst : Nat) : Except Fault CPU := do
  let old ← csr_get cpu (csr inst)
  csr_write cpu (csr inst) (old &&& (if rs1 inst = 0 then 1 else 0))

/-- The function `exec_LR_W`. -/
def exec_LR_W (cpu : CPU) (_inst : Nat) : Except Fault CPU := .ok cpu

/-- The function `exec_SC_W`. -/
def exec_SC_W (cpu : CPU) (_inst : Nat) : Except Fault CPU := .ok cpu

/-- The function `exec_AMOSWAP_W`. -/
def exec_AMOSWAP_W (cpu : CPU) (_inst : Nat) : Except Fault CPU := .ok cpu

/-- The function `exec_AMOADD_W`. -/
def exec_AMOADD_W (cpu : CPU) (inst : Nat) : Except Fault CPU := do
  let v ← cpu_load cpu (cpu.regs (rs1 inst)) 32
  let tmp := v % 2 ^ 32
  let res := (tmp + cpu.regs (rs2 inst) % 2 ^ 32) % 2 ^ 32
  let cpu := set_reg cpu (rd inst) tmp
  cpu_store cpu (cpu.regs (rs1 inst)) 32 res

/-- The function `exec_AMOXOR_W`. -/
def exec_AMOXOR_W (cpu : CPU) (inst : Nat) : Except Fault CPU := do
  let v ← cpu_load cpu (cpu.regs (rs1 inst)) 32
  let tmp := v % 2 ^ 32
  let res := tmp ^^^ (cpu.regs (rs2 inst) % 2 ^ 32)
  let cpu := set_reg cpu (rd inst) tmp
  cpu_store cpu (cpu.regs (rs1 inst)) 32 res

/-- The function `exec_AMOAND_W`. -/
def exec_AMOAND_W (cpu : CPU) (inst : Nat) : Except Fault CPU := do
  let v ← cpu_load cpu (cpu.regs (rs1 inst)) 32
  let tmp := v % 2 ^ 32
  let res := tmp &&& (cpu.regs (rs2 inst) % 2 ^ 32)
  let cpu := set_reg cpu (rd inst) tmp
  cpu_store cpu (cpu.regs (rs1 inst)) 32 res

/-- The function `exec_AMOOR_W`. -/
def exec_AMOOR_W (cpu : CPU) (inst : Nat) : Except Fault CPU := do
  let v ← cpu_load cpu (cpu.regs (rs1 inst)) 32
  let tmp := v % 2 ^ 32
  let res := tmp ||| (cpu.regs (rs2 inst) % 2 ^ 32)
  let cpu := set_reg cpu (rd inst) tmp
  cpu_store cpu (cpu.regs (rs1 inst)) 32 res

/-- The function `exec_AMOMIN_W`. -/
def exec_AMOMIN_W (cpu : CPU) (_inst : Nat) : Except Fault CPU := .ok cpu

/-- The function `exec_AMOMAX_W`. -/
def exec_AMOMAX_W (cpu : CPU) (_inst : Nat) : Except Fault CPU := .ok cpu

/-- The function `exec_AMOMINU_W`. -/
def exec_AMOMINU_W (cpu : CPU) (_inst : Nat) : Except Fault CPU := .ok cpu

/-- The function `exec_AMOMAXU_W`. -/
def exec_AMOMAXU_W (cpu : CPU) (_inst : Nat) : Except Fault CPU := .ok cpu

/-! ## Opcode table (`opcode.h`) -/

/-- The macro `LUI`. -/
def LUI : Nat := 0x37

/-- The macro `AUIPC`. -/
def AUIPC : Nat := 0x17

/-- The macro `JAL`. -/
def JAL : Nat := 0x6f

/-- The macro `JALR`. -/
def JALR : Nat := 0x67

/-- The macro `B_TYPE`. -/
def B_TYPE : Nat := 0x63

/-- The macro `BEQ`. -/
def BEQ : Nat := 0x0

/-- The macro `BNE`. -/
def BNE : Nat := 0x1

/-- The macro `BLT`. -/
def BLT : Nat := 0x4

/-- The macro `BGE`. -/
def BGE : Nat := 0x5

/-- The macro `BLTU`. -/
def BLTU : Nat := 0x6

/-- The macro `BGEU`. -/
def BGEU : Nat := 0x7

/-- The macro `LOAD`. -/
def LOAD : Nat := 0x03

/-- The macro `LB`. -/
def LB : Nat := 0x0

/-- The macro `LH`. -/
def LH : Nat := 0x1

/-- The macro `LW`. -/
def LW : Nat := 0x2

/-- The macro `LD`. -/
def LD : Nat := 0x3

/-- The macro `LBU`. -/
def LBU : Nat := 0x4

/-- The macro `LHU`. -/
def LHU : Nat := 0x5

/-- The macro `LWU`. -/
def LWU : Nat := 0x6

/-- The macro `S_TYPE`. -/
def S_TYPE : Nat := 0x23

/-- The macro `SB`. -/
def SB : Nat := 0x0

/-- The macro `SH`. -/
def SH : Nat := 0x1

/-- The macro `SW`. -/
def SW : Nat := 0x2

/-- The macro `SD`. -/
def SD : Nat := 0x3

/-- The macro `I_TYPE`. -/
def I_TYPE : Nat := 0x13

/-- The macro `ADDI`. -/
def ADDI : Nat := 0x0

/-- The macro `SLLI`. -/
def SLLI : Nat := 0x1

/-- The macro `SLTI`. -/
def SLTI : Nat := 0x2

/-- The macro `SLTIU`. -/
def SLTIU : Nat := 0x3

/-- The macro `XORI`. -/
def XORI : Nat := 0x4

/-- The macro `SRI`. -/
def SRI : Nat := 0x5

/-- The macro `SRLI`. -/
def SRLI : Nat := 0x00

/-- The macro `SRAI`. -/
def SRAI : Nat := 0x20

/-- The macro `ORI`. -/
def ORI : Nat := 0x6

/-- The macro `ANDI`. -/
def ANDI : Nat := 0x7

/-- The macro `R_TYPE`. -/
def R_TYPE : Nat := 0x33

/-- The macro `ADDSUB`. -/
def ADDSUB : Nat := 0x0

/-- The macro `ADD`. -/
def ADD : Nat := 0x00

/-- The macro `SUB`. -/
def SUB : Nat := 0x20

/-- The macro `SLL`. -/
def SLL : Nat := 0x1

/-- The macro `SLT`. -/
def SLT : Nat := 0x2

/-- The macro `SLTU`. -/
def SLTU : Nat := 0x3

/-- The macro `XOR`. -/
def XOR : Nat := 0x4

/-- The macro `SR`. -/
def SR : Nat := 0x5

/-- The macro `SRL`. -/
def SRL : Nat := 0x00

/-- The macro `SRA`. -/
def SRA : Nat := 0x20

/-- The macro `OR`. -/
def OR : Nat := 0x6

/-- The macro `AND`. -/
def AND : Nat := 0x7

/-- The macro `FENCE`. -/
def FENCE : Nat := 0x0f

/-- The macro `I_TYPE_64`. -/
def I_TYPE_64 : Nat := 0x1b

/-- The macro `ADDIW`. -/
def ADDIW : Nat := 0x0

/-- The macro `SLLIW`. -/
def SLLIW : Nat := 0x1

/-- The macro `SRIW`. -/
def SRIW : Nat := 0x5

/-- The macro `SRLIW`. -/
def SRLIW : Nat := 0x00

/-- The macro `SRAIW`. -/
def SRAIW : Nat := 0x20

/-- The macro `R_TYPE_64`. -/
def R_TYPE_64 : Nat := 0x3b

/-- The macro `ADDW`. -/
def ADDW : Nat := 0x00

/-- The macro `MULW`. -/
def MULW : Nat := 0x01

/-- The macro `SUBW`. -/
def SUBW : Nat := 0x20

/-- The macro `DIVW`. -/
def DIVW : Nat := 0x4

/-- The macro `SLLW`. -/
def SLLW : Nat := 0x1

/-- The macro `SRW`. -/
def SRW : Nat := 0x5

/-- The macro `SRLW`. -/
def SRLW : Nat := 0x00

/-- The macro `DIVUW`. -/
def DIVUW : Nat := 0x01

/-- The macro `SRAW`. -/
def SRAW : Nat := 0x20

/-- The macro `REMW`. -/
def REMW : Nat := 0x6

/-- The macro `REMUW`. -/
def REMUW : Nat := 0x7

/-- The macro `CSR`. -/
def CSR : Nat := 0x73

/-- The macro `ECALLBREAK`. -/
def ECALLBREAK : Nat := 0x00

/-- The macro `CSRRW`. -/
def CSRRW : Nat := 0x01

/-- The macro `CSRRS`. -/
def CSRRS : Nat := 0x02

/-- The macro `CSRRC`. -/
def CSRRC : Nat := 0x03

/-- The macro `CSRRWI`. -/
def CSRRWI : Nat := 0x05

/-- The macro `CSRRSI`. -/
def CSRRSI : Nat := 0x06

/-- The macro `CSRRCI`. -/
def CSRRCI : Nat := 0x07

/-- The macro `AMO_W`. -/
def AMO_W : Nat := 0x2f

/-- The macro `LR_W`. -/
def LR_W : Nat := 0x02

/-- The macro `SC_W`. -/
def SC_W : Nat := 0x03

/-- The macro `AMOSWAP_W`. -/
def AMOSWAP_W : Nat := 0x01

/-- The macro `AMOADD_W`. -/
def AMOADD_W : Nat := 0x00

/-- The macro `AMOXOR_W`. -/
def AMOXOR_W : Nat := 0x04

/-- The macro `AMOAND_W`. -/
def AMOAND_W : Nat := 0x0c

/-- The macro `AMOOR_W`. -/
def AMOOR_W : Nat := 0x08

/-- The macro `AMOMIN_W`. -/
def AMOMIN_W : Nat := 0x10

/-- The macro `AMOMAX_W`. -/
def AMOMAX_W : Nat := 0x14

/-- The macro `AMOMINU_W`. -/
def AMOMINU_W : Nat := 0x18

/-- The macro `AMOMAXU_W`. -/
def AMOMAXU_W : Nat := 0x1c

/-! ## Decode and dispatch (`cpu.c`)

`cpu_execute` returns the changed CPU together with the returned `int`:
`1` to continue, `0` to stop.  Each `case` of the outer `switch` is a function
of its own; `brk` is a handler followed by `break` and the final `return 1`. -/

/-- A handler call followed by `break;` out of the opcode switch and `return 1;`. -/
def brk (r : Except Fault CPU) : Except Fault (CPU × Nat) := do
  let cpu ← r
  pure (cpu, 1)

/-- The `case B_TYPE:` arm of `cpu_execute`. -/
def execute_B_TYPE (cpu : CPU) (inst funct3 : Nat) : Except Fault (CPU × Nat) :=
  if funct3 = BEQ then brk (exec_BEQ cpu inst)
  else if funct3 = BNE then brk (exec_BNE cpu inst)
  else if funct3 = BLT then brk (exec_BLT cpu inst)
  else if funct3 = BGE then brk (exec_BGE cpu inst)
  else if funct3 = BLTU then brk (exec_BLTU cpu inst)
  else if funct3 = BGEU then brk (exec_BGEU cpu inst)
  else brk (.ok cpu)

/-- The `case LOAD:` arm of `cpu_execute`. -/
def execute_LOAD (cpu : CPU) (inst funct3 : Nat) : Except Fault (CPU × Nat) :=
  if funct3 = LB then brk (exec_LB cpu inst)
  else if funct3 = LH then brk (exec_LH cpu inst)
  else if funct3 = LW then brk (exec_LW cpu inst)
  else if funct3 = LD then brk (exec_LD cpu inst)
  else if funct3 = LBU then brk (exec_LBU cpu inst)
  else if funct3 = LHU then brk (exec_LHU cpu inst)
  else if funct3 = LWU then brk (exec_LWU cpu inst)
  else brk (.ok cpu)

/-- The `case S_TYPE:` arm of `cpu_execute`. -/
def execute_S_TYPE (cpu : CPU) (inst funct3 : Nat) : Except Fault (CPU × Nat) :=
  if funct3 = SB then brk (exec_SB cpu inst)
  else if funct3 = SH then brk (exec_SH cpu inst)
  else if funct3 = SW then brk (exec_SW cpu inst)
  else if funct3 = SD then brk (exec_SD cpu inst)
  else brk (.ok cpu)

/-- The `case I_TYPE:` arm of `cpu_execute`. -/
def execute_I_TYPE (cpu : CPU) (inst funct3 funct7 : Nat) : Except Fault (CPU × Nat) :=
  if funct3 = ADDI then brk (exec_ADDI cpu inst)
  else if funct3 = SLLI then brk (exec_SLLI cpu inst)
  else if funct3 = SLTI then brk (exec_SLTI cpu inst)
  else if funct3 = SLTIU then brk (exec_SLTIU cpu inst)
  else if funct3 = XORI then brk (exec_XORI cpu inst)
  else if funct3 = SRI then
    if funct7 = SRLI then brk (exec_SRLI cpu inst)
    else if funct7 = SRAI then brk (exec_SRAI cpu inst)
    else brk (.ok cpu)
  else if funct3 = ORI then brk (exec_ORI cpu inst)
  else if funct3 = ANDI then brk (exec_ANDI cpu inst)
  else .ok (cpu, 0)

/-- The `case R_TYPE:` arm of `cpu_execute`.  In the source `case ADD:` has no
`break` and runs into `case SUB:`, both call `exec_ADD`; the inner switch of
`case SR:` is not followed by `break` and runs into `case OR:`. -/
def execute_R_TYPE (cpu : CPU) (inst funct3 funct7 : Nat) : Except Fault (CPU × Nat) :=
  if funct3 = ADDSUB then
    if funct7 = ADD then brk (do
      let cpu ← exec_ADD cpu inst
      exec_ADD cpu inst)
    else if funct7 = SUB then brk (exec_ADD cpu inst)
    else brk (.ok cpu)
  else if funct3 = SLL then brk (exec_SLL cpu inst)
  else if funct3 = SLT then brk (exec_SLT cpu inst)
  else if funct3 = SLTU then brk (exec_SLTU cpu inst)
  else if funct3 = XOR then brk (exec_XOR cpu inst)
  else if funct3 = SR then
    if funct7 = SRL then brk (do
      let cpu ← exec_SRL cpu inst
      exec_OR cpu inst)
    else if funct7 = SRA then brk (do
      let cpu ← exec_SRA cpu inst
      exec_OR cpu inst)
    else brk (exec_OR cpu inst)
  else if funct3 = OR then brk (exec_OR cpu inst)
  else if funct3 = AND then brk (exec_AND cpu inst)
  else .ok (cpu, 0)

/-- The `case I_TYPE_64:` arm of `cpu_execute`; `case SRAIW:` calls `exec_SRLIW`. -/
def execute_I_TYPE_64 (cpu : CPU) (inst funct3 funct7 : Nat) : Except Fault (CPU × Nat) :=
  if funct3 = ADDIW then brk (exec_ADDIW cpu inst)
  else if funct3 = SLLIW then brk (exec_SLLIW cpu inst)
  else if funct3 = SRIW then
    if funct7 = SRLIW then brk (exec_SRLIW cpu inst)
    else if funct7 = SRAIW then brk (exec_SRLIW cpu inst)
    else brk (.ok cpu)
  else brk (.ok cpu)

/-- The `case R_TYPE_64:` arm of `cpu_execute`. -/
def execute_R_TYPE_64 (cpu : CPU) (inst funct3 funct7 : Nat) : Except Fault (CPU × Nat) :=
  if funct3 = ADDSUB then
    if funct7 = ADDW then brk (exec_ADDW cpu inst)
    else if funct7 = SUBW then brk (exec_SUBW cpu inst)
    else if funct7 = MULW then brk (exec_MULW cpu inst)
    else brk (.ok cpu)
  else if funct3 = DIVW then brk (exec_DIVW cpu inst)
  else if funct3 = SLLW then brk (exec_SLLW cpu inst)
  else if funct3 = SRW then
    if funct7 = SRLW then brk (exec_SRLW cpu inst)
    else if funct7 = SRAW then brk (exec_SRAW cpu inst)
    else if funct7 = DIVUW then brk (exec_DIVUW cpu inst)
    else brk (.ok cpu)
  else if funct3 = REMW then brk (exec_REMW cpu inst)
  else if funct3 = REMUW then brk (exec_REMUW cpu inst)
  else brk (.ok cpu)

/-- The `case CSR:` arm of `cpu_execute`. -/
def execute_CSR (cpu : CPU) (inst funct3 : Nat) : Except Fault (CPU × Nat) :=
  if funct3 = ECALLBREAK then brk (exec_ECALLBREAK cpu inst)
  else if funct3 = CSRRW then brk (exec_CSRRW cpu inst)
  else if funct3 = CSRRS then brk (exec_CSRRS cpu inst)
  else if funct3 = CSRRC then brk (exec_CSRRC cpu inst)
  else if funct3 = CSRRWI then brk (exec_CSRRWI cpu inst)
  else if funct3 = CSRRSI then brk (exec_CSRRSI cpu inst)
  else if funct3 = CSRRCI then brk (exec_CSRRCI cpu inst)
  else .ok (cpu, 0)

/-- The `case AMO_W:` arm of `cpu_execute`, a switch on `funct7 >> 2`. -/
def execute_AMO_W (cpu : CPU) (inst funct7 : Nat) : Except Fault (CPU × Nat) :=
  let sel := funct7 >>> 2
  if sel = LR_W then brk (exec_LR_W cpu inst)
  else if sel = SC_W then brk (exec_SC_W cpu inst)
  else if sel = AMOSWAP_W then brk (exec_AMOSWAP_W cpu inst)
  else if sel = AMOADD_W then brk (exec_AMOADD_W cpu inst)
  else if sel = AMOXOR_W then brk (exec_AMOXOR_W cpu inst)
  else if sel = AMOAND_W then brk (exec_AMOAND_W cpu inst)
  else if sel = AMOOR_W then brk (exec_AMOOR_W cpu inst)
  else if sel = AMOMIN_W then brk (exec_AMOMIN_W cpu inst)
  else if sel = AMOMAX_W then brk (exec_AMOMAX_W cpu inst)
  else if sel = AMOMINU_W then brk (exec_AMOMINU_W cpu inst)
  else if sel = AMOMAXU_W then brk (exec_AMOMAXU_W cpu inst)
  else .ok (cpu, 0)

/-- The function `cpu_execute`. -/
def cpu_execute (cpu : CPU) (inst : Nat) : Except Fault (CPU × Nat) :=
  let opcode := inst &&& 0x7f
  let funct3 := (inst >>> 12) &&& 0x7
  let funct7 := (inst >>> 25) &&& 0x7f
  let cpu := set_reg cpu 0 0
  if opcode = LUI then brk (exec_LUI cpu inst)
  else if opcode = AUIPC then brk (exec_AUIPC cpu inst)
  else if opcode = JAL then brk (exec_JAL cpu inst)
  else if opcode = JALR then brk (exec_JALR cpu inst)
  else if opcode = B_TYPE then execute_B_TYPE cpu inst funct3
  else if opcode = LOAD then execute_LOAD cpu inst funct3
  else if opcode = S_TYPE then execute_S_TYPE cpu inst funct3
  else if opcode = I_TYPE then execute_I_TYPE cpu inst funct3 funct7
  else if opcode = R_TYPE then execute_R_TYPE cpu inst funct3 funct7
  else if opcode = FENCE then brk (exec_FENCE cpu inst)
  else if opcode = I_TYPE_64 then execute_I_TYPE_64 cpu inst funct3 funct7
  else if opcode = R_TYPE_64 then execute_R_TYPE_64 cpu inst funct3 funct7
  else if opcode = CSR then execute_CSR cpu inst funct3
  else if opcode = AMO_W then execute_AMO_W cpu inst funct7
  else if opcode = 0x00 then .ok (cpu, 0)
  else .ok (cpu, 0)

/-- The function `cpu_fetch`: the loaded value converted to `u32`. -/
def cpu_fetch (cpu : CPU) : Except Fault Nat := do
  let inst ← bus_load cpu.bus cpu.pc 32
  pure (inst % 2 ^ 32)

/-- The function `cpu_step_one`. -/
def cpu_step_one (cpu : CPU) : Except Fault (CPU × Nat) := do
  let inst ← cpu_fetch cpu
  let cpu := { cpu with pc := add64 cpu.pc 4 }
  cpu_execute cpu inst

/-! ## The stepping loop (`cpu.c`, `utils/macro.h`) -/

/-- The macro `MAX_CPU_STEP`. -/
def MAX_CPU_STEP : Int := 10

/-- The macro `MIN`. -/
def MIN (a b : Int) : Int := if a < b then a else b

/-- The body shared by the two loops of `cpu_step`, followed by the rest of the
loop `next`: a call of `cpu_step_one` that returns 0 makes `cpu_step` return 0,
and so does `pc == 0` after the call (`cpu_dump_regs` only prints). -/
def cpu_step_body (cpu : CPU) (next : CPU → Except Fault (Option (CPU × Nat))) :
    Except Fault (Option (CPU × Nat)) := do
  let (cpu, r) ← cpu_step_one cpu
  if r = 0 then pure (some (cpu, 0))
  else if cpu.pc = 0 then pure (some (cpu, 0))
  else next cpu

/-- The loop `while (1)` of `cpu_step`, run for at most `fuel` iterations; the
result is `none` when the loop is still running after them. -/
def cpu_step_while : Nat → CPU → Except Fault (Option (CPU × Nat))
  | 0, _ => .ok none
  | fuel + 1, cpu => cpu_step_body cpu (cpu_step_while fuel)

/-- The loop `for (i = 0; i < MIN(MAX_CPU_STEP, step); i++)` of `cpu_step` with
`n` iterations left, followed by the final `return 1`. -/
def cpu_step_for : Nat → CPU → Except Fault (Option (CPU × Nat))
  | 0, cpu => .ok (some (cpu, 1))
  | n + 1, cpu => cpu_step_body cpu (cpu_step_for n)

/-- The function `cpu_step`; `fuel` bounds the iterations of the loop
`while (1)` taken when `step < 0`. -/
def cpu_step (fuel : Nat) (cpu : CPU) (step : Int) : Except Fault (Option (CPU × Nat)) :=
  if step < 0 then cpu_step_while fuel cpu
  else cpu_step_for (MIN MAX_CPU_STEP step).toNat cpu

/-! ## Initialisation and loader (`dram.c`, `cpu.c`, `loader.c`, `celf.c`) -/

/-- The function `dram_init`.  The call `malloc(DRAM_SIZE)` is taken to
succeed: `p` is the address it returns and `m` holds the bytes of the block,
which `malloc` does not initialise. -/
def dram_init (p : Nat) (m : Nat → Nat) : DRAM :=
  { mem_addr := p, mem := m, alloc_size := 0, alloc_addr := p }

/-- The function `dram_alloc_data`; `data` holds the `size` bytes of the source
buffer.  Host addresses are 64-bit values, and `memcpy` writes the bytes of the
DRAM buffer from index `alloc_addr - mem_addr` on. -/
def dram_alloc_data (d : DRAM) (size : Nat) (data : List Nat) : Except Fault DRAM :=
  if add64 d.alloc_addr size > add64 d.mem_addr DRAM_SIZE then .ok d
  else
    let o := sub64 d.alloc_addr d.mem_addr
    if o + size ≤ DRAM_SIZE then
      .ok { d with
        mem := fun j => if o ≤ j ∧ j < o + size then data.getD (j - o) 0 else d.mem j
        alloc_size := add64 d.alloc_size size
        alloc_addr := add64 d.alloc_addr size }
    else .error .out_of_bounds

/-- The function `dram_release_data`. -/
def dram_release_data (d : DRAM) (size : Nat) : DRAM :=
  if size > d.alloc_size then d
  else { d with alloc_size := sub64 d.alloc_size size, alloc_addr := sub64 d.alloc_addr size }

/-- The function `cpu_init`, with the result `p`, `m` of the `malloc` made by
`dram_init`. -/
def cpu_init (cpu : CPU) (p : Nat) (m : Nat → Nat) : CPU :=
  let cpu := { cpu with bus := { cpu.bus with dram := dram_init p m } }
  let cpu := set_reg cpu 0 0x00
  let cpu := set_reg cpu 2 ((DRAM_BASE + DRAM_SIZE) % 2 ^ 32)
  { cpu with pc := DRAM_BASE }

/-- Read of a `uint64_t` field at byte offset `off` of a struct overlaid on the
DRAM buffer (the host is little-endian). -/
def field_u64 (d : DRAM) (off : Nat) : Except Fault Nat := do
  let b0 ← mem_get d off
  let b1 ← mem_get d (off + 1)
  let b2 ← mem_get d (off + 2)
  let b3 ← mem_get d (off + 3)
  let b4 ← mem_get d (off + 4)
  let b5 ← mem_get d (off + 5)
  let b6 ← mem_get d (off + 6)
  let b7 ← mem_get d (off + 7)
  pure (b0 + 2 ^ 8 * b1 + 2 ^ 16 * b2 + 2 ^ 24 * b3 + 2 ^ 32 * b4 + 2 ^ 40 * b5
    + 2 ^ 48 * b6 + 2 ^ 56 * b7)

/-- Read of a `uint16_t` field at byte offset `off` of a struct overlaid on the
DRAM buffer (the host is little-endian). -/
def field_u16 (d : DRAM) (off : Nat) : Except Fault Nat := do
  let b0 ← mem_get d off
  let b1 ← mem_get d (off + 1)
  pure (b0 + 2 ^ 8 * b1)

/-- The read that `printf("%s", s)` makes of the string at index `i` of the
DRAM buffer: the bytes from `i` up to the first zero byte.  `fuel` bounds the
number of bytes read; a read that reaches index `DRAM_SIZE` is outside the
buffer. -/
def string_read (d : DRAM) : Nat → Nat → Except Fault Unit
  | 0, _ => .error .out_of_bounds
  | fuel + 1, i => do
    let b ← mem_get d i
    if b = 0 then pure () else string_read d fuel (i + 1)

/-- The function `elf_arch` (`celf.c`): the `switch` has no `default:` and no
`return` follows it, so for any other value the function returns without a
value. -/
def elf_arch (arch : Int) : Except Fault String :=
  if arch = 0x00 then .ok "NA"
  else if arch = 0x02 then .ok "SPARC"
  else if arch = 0x03 then .ok "x86"
  else if arch = 0x08 then .ok "MIPS"
  else if arch = 0x14 then .ok "PowerPC"
  else if arch = 0x16 then .ok "S390"
  else if arch = 0x28 then .ok "ARM"
  else if arch = 0x2A then .ok "SuperH"
  else if arch = 0x32 then .ok "IA-64"
  else if arch = 0x3E then .ok "x86-64"
  else if arch = 0xB7 then .ok "AArch64"
  else if arch = 0xF3 then .ok "RISC-V"
  else .error .missing_return

/-- The function `load_elf` on a file that could be opened and read; `file`
holds its bytes.  `e_entry` is the field at offset 0x18 of the `Elf64_Ehdr`
overlaid on the start of the DRAM buffer (and so is the field `p_paddr` of the
`Elf64_Phdr` read into the unused `oldEntryPoint`).  After the update of `pc`
the function prints `elf_hdr->e_ident` with `%s`, which reads the buffer from
index 0 up to the first zero byte (the whole buffer, `DRAM_SIZE` bytes and one
more, when there is none), and the string returned by
`elf_arch(elf_hdr->e_machine)`, `e_machine` being the field at offset 0x12. -/
def load_elf (cpu : CPU) (file : List Nat) : Except Fault CPU := do
  let filelen := file.length % 2 ^ 64
  let d ← dram_alloc_data cpu.bus.dram filelen file
  let cpu := { cpu with bus := { cpu.bus with dram := d } }
  let _oldEntryPoint ← field_u64 cpu.bus.dram 0x18
  let e_entry ← field_u64 cpu.bus.dram 0x18
  let cpu := { cpu with pc := add64 cpu.pc e_entry }
  string_read cpu.bus.dram (DRAM_SIZE + 1) 0
  let e_machine ← field_u16 cpu.bus.dram 0x12
  let _arch ← elf_arch e_machine
  pure cpu

/-! ## Definitions used to state the properties -/

/-- Architectural read of register `i`: `x0` reads as zero, which is what the
handlers see after `cpu_execute` has executed `cpu->regs[0] = 0`. -/
def xreg (cpu : CPU) (i : Nat) : Nat := if i = 0 then 0 else cpu.regs i

/-- The CPU as `cpu_step_one` hands it to `cpu_execute`: `pc` advanced by 4. -/
def advance (cpu : CPU) : CPU := { cpu with pc := add64 cpu.pc 4 }

/-- The little-endian value of the `n` bytes at indices `o`, `o + 1`, ... of a
byte memory: byte `i` of the run supplies bits `8 i .. 8 i + 7`. -/
def le_value (mem : Nat → Nat) (o : Nat) : Nat → Nat
  | 0 => 0
  | n + 1 => mem o + 2 ^ 8 * le_value mem (o + 1) n

/-- The condition of a conditional branch with field `funct3` on the operand
values `a` (from `rs1`) and `b` (from `rs2`): equality for BEQ and BNE, the
signed order for BLT and BGE, the unsigned order for BLTU and BGEU. -/
def branch_taken (funct3 a b : Nat) : Prop :=
  (funct3 = BEQ ∧ a = b) ∨ (funct3 = BNE ∧ a ≠ b) ∨
  (funct3 = BLT ∧ to_i64 a < to_i64 b) ∨ (funct3 = BGE ∧ to_i64 a ≥ to_i64 b) ∨
  (funct3 = BLTU ∧ a < b) ∨ (funct3 = BGEU ∧ a ≥ b)

/-- A byte memory holding the list `l` from index 0 on and zero elsewhere. -/
def bytes_mem (l : List Nat) : Nat → Nat := fun i => l.getD i 0

/-- A DRAM with the bytes `l` at the start of the buffer and a watermark of 64 bytes. -/
def dram_of (l : List Nat) : DRAM :=
  { mem_addr := 0x10000, mem := bytes_mem l, alloc_size := 64, alloc_addr := 0x10000 + 64 }

/-- A register file holding the list `l` in `x0`, `x1`, ... and zero elsewhere. -/
def regs_of (l : List Nat) : Nat → Nat := fun i => l.getD i 0

/-- A CPU with the registers `rs`, the program counter `pc`, all CSRs zero and
the bytes `l` at the start of DRAM. -/
def cpu_of (rs : List Nat) (pc : Nat) (l : List Nat) : CPU :=
  { regs := regs_of rs, pc := pc, csr := fun _ => 0, bus := { dram := dram_of l } }

instance (funct3 a b : Nat) : Decidable (branch_taken funct3 a b) := by
  unfold branch_taken
  infer_instance

/-- A 64-bit value whose bits 63..32 all equal its bit 31. -/
def sign_extended_32 (v : Nat) : Prop :=
  v / 2 ^ 32 = if v / 2 ^ 31 % 2 = 1 then 2 ^ 32 - 1 else 0

instance (v : Nat) : Decidable (sign_extended_32 v) := by
  unfold sign_extended_32
  infer_instance

/-- The 12-bit value `x` sign-extended to 64 bits. -/
def sign_extend_12 (x : Nat) : Nat :=
  if x % 2 ^ 12 < 2 ^ 11 then x % 2 ^ 12 else x % 2 ^ 12 + (2 ^ 64 - 2 ^ 12)

/-- The CPU after `k` calls of `cpu_step_one`, whatever they returned. -/
def retired : Nat → CPU → Except Fault CPU
  | 0, cpu => .ok cpu
  | k + 1, cpu => do
    let (c, _) ← cpu_step_one cpu
    retired k c

/-- The CPU left by a call of `cpu_step_one` that did not halt: it returned a
non-zero code and left `pc` different from 0. -/
def not_halted (s : Except Fault (CPU × Nat)) : Option CPU :=
  match s with
  | .ok (c, r) => if r ≠ 0 ∧ c.pc ≠ 0 then some c else none
  | .error _ => none

/-- The CPU after `k` calls of `cpu_step_one` none of which halted; `none` when
one of them halted or did not return. -/
def continued : Nat → CPU → Option CPU
  | 0, cpu => some cpu
  | k + 1, cpu => (not_halted (cpu_step_one cpu)).bind (continued k)

/-- The `n`-bit value `x` sign-extended to 64 bits (`1 ≤ n ≤ 64`): bits
`63 .. n` are copies of bit `n - 1`. -/
def sign_extend (n x : Nat) : Nat :=
  if x % 2 ^ n < 2 ^ (n - 1) then x % 2 ^ n else x % 2 ^ n + (2 ^ 64 - 2 ^ n)

/-- The bit field `inst[hi:lo]` of a word, `lo ≤ hi`. -/
def bits (inst hi lo : Nat) : Nat := inst / 2 ^ lo % 2 ^ (hi + 1 - lo)

/-- The DRAM states reached from `dram_init`: the watermark is at most
`DRAM_SIZE`, `alloc_addr` points `alloc_size` bytes into the block, and the
block lies inside the 64-bit address space. -/
def dram_wf (d : DRAM) : Prop :=
  d.alloc_size ≤ DRAM_SIZE ∧ d.alloc_addr = d.mem_addr + d.alloc_size ∧
    d.mem_addr + DRAM_SIZE < 2 ^ 64

instance (d : DRAM) : Decidable (dram_wf d) := by
  unfold dram_wf
  infer_instance

theorem ok_bind {α β : Type} (a : α) (f : α → Except Fault β) :
    ((Except.ok a : Except Fault α) >>= f) = f a := rfl

theorem bind_ok {α β : Type} (x : Except Fault α) (f : α → Except Fault β) (b : β) :
    (x >>= f) = .ok b ↔ ∃ a, x = .ok a ∧ f a = .ok b := by
  cases x <;> simp [bind, Except.bind]

theorem brk_ok (r : Except Fault CPU) (c : CPU) (n : Nat) :
    brk r = .ok (c, n) ↔ r = .ok c ∧ n = 1 := by
  cases r <;> simp [brk, bind, Except.bind, pure, Except.pure, eq_comm]

theorem brk_ok_eq (c : CPU) : brk (.ok c) = .ok (c, 1) := rfl

@[simp] theorem set_reg_pc (cpu : CPU) (i v : Nat) : (set_reg cpu i v).pc = cpu.pc := rfl

theorem csr_write_pc (cpu c : CPU) (i v : Nat) (h : csr_write cpu i v = .ok c) :
    c.pc = cpu.pc := by
  unfold csr_write at h
  split at h
  · cases h; rfl
  · cases h

theorem cpu_store_pc (cpu c : CPU) (a s v : Nat) (h : cpu_store cpu a s v = .ok c) :
    c.pc = cpu.pc := by
  simp only [cpu_store, bind_ok, pure, Except.pure] at h
  obtain ⟨b, _, h⟩ := h
  cases h; rfl

theorem and_ff (x : Nat) : x &&& 0xff = x % 256 := Nat.and_pow_two_sub_one_eq_mod x 8

theorem and_3 (x : Nat) : x &&& 0x3 = x % 4 := Nat.and_pow_two_sub_one_eq_mod x 2

theorem to_u64_to_i64 (x : Nat) : to_u64 (to_i64 x) = x % 2 ^ 64 := by
  unfold to_u64 to_i64
  split <;> omega

theorem to_i64_inj (a b : Nat) (ha : a < 2 ^ 64) (hb : b < 2 ^ 64) :
    to_i64 a = to_i64 b ↔ a = b := by
  unfold to_i64
  split <;> split <;> omega

theorem sub64_add64_base (o : Nat) (h : o < 2 ^ 64) :
    sub64 (add64 DRAM_BASE o) DRAM_BASE = o := by
  unfold sub64 add64 DRAM_BASE
  omega

theorem add64_small (o k : Nat) (h : o + k < 2 ^ 64) : add64 o k = o + k := by
  unfold add64
  omega

/-- The target `pc + imm - 4` computed in `u64` from the advanced `pc`. -/
theorem branch_target (pc imm : Nat) :
    sub64 (add64 (add64 pc 4) (to_u64 (to_i64 imm))) 4 = (pc + imm) % 2 ^ 64 := by
  rw [to_u64_to_i64]
  unfold sub64 add64
  omega

/-- The target `(int64_t) pc + (int64_t) imm - 4` of `exec_BGEU`. -/
theorem branch_target_signed (pc imm : Nat) :
    to_u64 (to_i64 (add64 pc 4) + to_i64 imm - 4) = (pc + imm) % 2 ^ 64 := by
  unfold to_u64 to_i64 add64
  split <;> split <;> omega

theorem regs_of_lt (l : List Nat) (h : ∀ x ∈ l, x < 2 ^ 64) (i : Nat) :
    regs_of l i < 2 ^ 64 := by
  unfold regs_of
  induction l generalizing i with
  | nil => simp
  | cons a t ih =>
    cases i with
    | zero => simpa using h a (List.mem_cons_self a t)
    | succ n => simpa using ih (fun x hx => h x (List.mem_cons_of_mem a hx)) n

theorem xreg_lt (cpu : CPU) (h : ∀ i, cpu.regs i < 2 ^ 64) (i : Nat) :
    xreg cpu i < 2 ^ 64 := by
  unfold xreg
  split
  · norm_num
  · exact h i

/-- What `cpu_step_one` does once the fetch has returned `inst`. -/
theorem cpu_step_one_eq (cpu : CPU) (inst : Nat) (h : cpu_fetch cpu = .ok inst) :
    cpu_step_one cpu = cpu_execute (advance cpu) inst := by
  unfold cpu_step_one
  rw [h]
  rfl

/-! ## Handlers outside the control-flow group keep `pc` -/

theorem execute_LOAD_pc (cpu c : CPU) (inst funct3 r : Nat)
    (he : execute_LOAD cpu inst funct3 = .ok (c, r)) : c.pc = cpu.pc := by
  unfold execute_LOAD at he
  repeat' (rw [ite_eq_iff] at he; rcases he with ⟨-, he⟩ | ⟨-, he⟩)
  all_goals
    simp only [brk_ok, exec_LB, exec_LH, exec_LW, exec_LD, exec_LBU, exec_LHU, exec_LWU,
      bind_ok, pure, Except.pure, Except.ok.injEq] at he
    first
    | (obtain ⟨⟨_, _, he⟩, _⟩ := he; subst he; rfl)
    | (obtain ⟨he, _⟩ := he; subst he; rfl)

theorem execute_S_TYPE_pc (cpu c : CPU) (inst funct3 r : Nat)
    (he : execute_S_TYPE cpu inst funct3 = .ok (c, r)) : c.pc = cpu.pc := by
  unfold execute_S_TYPE at he
  repeat' (rw [ite_eq_iff] at he; rcases he with ⟨-, he⟩ | ⟨-, he⟩)
  all_goals
    simp only [brk_ok, exec_SB, exec_SH, exec_SW, exec_SD, Except.ok.injEq] at he
    first
    | exact cpu_store_pc _ _ _ _ _ he.1
    | (obtain ⟨he, _⟩ := he; subst he; rfl)

theorem execute_I_TYPE_pc (cpu c : CPU) (inst funct3 funct7 r : Nat)
    (he : execute_I_TYPE cpu inst funct3 funct7 = .ok (c, r)) : c.pc = cpu.pc := by
  unfold execute_I_TYPE at he
  repeat' (rw [ite_eq_iff] at he; rcases he with ⟨-, he⟩ | ⟨-, he⟩)
  all_goals
    simp only [brk_ok, exec_ADDI, exec_SLLI, exec_SLTI, exec_SLTIU, exec_XORI, exec_SRLI,
      exec_SRAI, exec_ORI, exec_ANDI, bind_ok, pure, Except.pure, Except.ok.injEq,
      Prod.mk.injEq] at he
    first
    | (obtain ⟨⟨_, _, he⟩, _⟩ := he; subst he; rfl)
    | (obtain ⟨he, _⟩ := he; subst he; rfl)

theorem execute_R_TYPE_pc (cpu c : CPU) (inst funct3 funct7 r : Nat)
    (he : execute_R_TYPE cpu inst funct3 funct7 = .ok (c, r)) : c.pc = cpu.pc := by
  unfold execute_R_TYPE at he
  repeat' (rw [ite_eq_iff] at he; rcases he with ⟨-, he⟩ | ⟨-, he⟩)
  all_goals
    simp only [brk_ok, exec_ADD, exec_SUB, exec_SLL, exec_SLT, exec_SLTU, exec_XOR, exec_SRL,
      exec_SRA, exec_OR, exec_AND, bind_ok, pure, Except.pure, Except.ok.injEq,
      Prod.mk.injEq, exists_eq_left, exists_eq_left'] at he
    first
    | (obtain ⟨⟨_, ⟨_, _, h1⟩, he⟩, _⟩ := he; subst he; subst h1; rfl)
    | (obtain ⟨⟨_, _, he⟩, _⟩ := he; subst he; rfl)
    | (obtain ⟨he, _⟩ := he; subst he; rfl)

theorem execute_I_TYPE_64_pc (cpu c : CPU) (inst funct3 funct7 r : Nat)
    (he : execute_I_TYPE_64 cpu inst funct3 funct7 = .ok (c, r)) : c.pc = cpu.pc := by
  unfold execute_I_TYPE_64 at he
  repeat' (rw [ite_eq_iff] at he; rcases he with ⟨-, he⟩ | ⟨-, he⟩)
  all_goals
    simp only [brk_ok, exec_ADDIW, exec_SLLIW, exec_SRLIW, bind_ok, pure, Except.pure,
      Except.ok.injEq] at he
    first
    | (obtain ⟨⟨_, _, he⟩, _⟩ := he; subst he; rfl)
    | (obtain ⟨he, _⟩ := he; subst he; rfl)

theorem execute_R_TYPE_64_pc (cpu c : CPU) (inst funct3 funct7 r : Nat)
    (he : execute_R_TYPE_64 cpu inst funct3 funct7 = .ok (c, r)) : c.pc = cpu.pc := by
  unfold execute_R_TYPE_64 at he
  repeat' (rw [ite_eq_iff] at he; rcases he with ⟨-, he⟩ | ⟨-, he⟩)
  all_goals
    simp only [brk_ok, exec_ADDW, exec_SUBW, exec_MULW, exec_DIVW, exec_SLLW, exec_SRLW,
      exec_SRAW, exec_DIVUW, exec_REMW, exec_REMUW, bind_ok, pure, Except.pure,
      Except.ok.injEq] at he
    first
    | (obtain ⟨⟨_, _, he⟩, _⟩ := he; subst he; rfl)
    | (obtain ⟨he, _⟩ := he; subst he; rfl)

theorem execute_CSR_pc (cpu c : CPU) (inst funct3 r : Nat)
    (he : execute_CSR cpu inst funct3 = .ok (c, r)) : c.pc = cpu.pc := by
  unfold execute_CSR at he
  repeat' (rw [ite_eq_iff] at he; rcases he with ⟨-, he⟩ | ⟨-, he⟩)
  all_goals
    simp only [brk_ok, exec_ECALLBREAK, exec_ECALL, exec_EBREAK, exec_CSRRW, exec_CSRRS,
      exec_CSRRC, exec_CSRRWI, exec_CSRRSI, exec_CSRRCI, bind_ok, pure, Except.pure,
      ite_self, Except.ok.injEq, exists_eq_left, exists_eq_left', Prod.mk.injEq] at he
    first
    | (obtain ⟨⟨_, _, he⟩, _⟩ := he
       first
       | exact (csr_write_pc _ _ _ _ he).trans (set_reg_pc _ _ _)
       | exact csr_write_pc _ _ _ _ he)
    | exact csr_write_pc _ _ _ _ he.1
    | (obtain ⟨he, _⟩ := he; subst he; rfl)

theorem execute_AMO_W_pc (cpu c : CPU) (inst funct7 r : Nat)
    (he : execute_AMO_W cpu inst funct7 = .ok (c, r)) : c.pc = cpu.pc := by
  unfold execute_AMO_W at he
  simp only [] at he
  generalize funct7 >>> 2 = sel at he
  repeat' (rw [ite_eq_iff] at he; rcases he with ⟨-, he⟩ | ⟨-, he⟩)
  all_goals
    simp only [brk_ok, exec_LR_W, exec_SC_W, exec_AMOSWAP_W, exec_AMOADD_W, exec_AMOXOR_W,
      exec_AMOAND_W, exec_AMOOR_W, exec_AMOMIN_W, exec_AMOMAX_W, exec_AMOMINU_W,
      exec_AMOMAXU_W, bind_ok, pure, Except.pure, Except.ok.injEq, Prod.mk.injEq] at he
    first
    | (obtain ⟨⟨_, _, he⟩, _⟩ := he
       exact (cpu_store_pc _ _ _ _ _ he).trans (set_reg_pc _ _ _))
    | (obtain ⟨he, _⟩ := he; subst he; rfl)


theorem execute_plain_pc (cpu c : CPU) (inst r : Nat)
    (hop : inst &&& 0x7f ≠ JAL ∧ inst &&& 0x7f ≠ JALR ∧ inst &&& 0x7f ≠ B_TYPE)
    (he : cpu_execute cpu inst = .ok (c, r)) : c.pc = cpu.pc := by
  unfold cpu_execute at he
  simp only [] at he
  generalize inst &&& 0x7f = opcode at he hop
  generalize inst >>> 12 &&& 0x7 = funct3 at he
  generalize inst >>> 25 &&& 0x7f = funct7 at he
  obtain ⟨h1, h2, h3⟩ := hop
  rw [ite_eq_iff] at he
  rcases he with ⟨hc, he⟩ | ⟨-, he⟩
  · simp only [brk_ok, exec_LUI, Except.ok.injEq] at he
    obtain ⟨he, _⟩ := he; subst he; rfl
  rw [ite_eq_iff] at he
  rcases he with ⟨hc, he⟩ | ⟨-, he⟩
  · simp only [brk_ok, exec_AUIPC, Except.ok.injEq] at he
    obtain ⟨he, _⟩ := he; subst he; rfl
  rw [ite_eq_iff] at he
  rcases he with ⟨hc, he⟩ | ⟨-, he⟩
  · exact absurd hc h1
  rw [ite_eq_iff] at he
  rcases he with ⟨hc, he⟩ | ⟨-, he⟩
  · exact absurd hc h2
  rw [ite_eq_iff] at he
  rcases he with ⟨hc, he⟩ | ⟨-, he⟩
  · exact absurd hc h3
  rw [ite_eq_iff] at he
  rcases he with ⟨hc, he⟩ | ⟨-, he⟩
  · exact (execute_LOAD_pc _ _ _ _ _ he).trans (set_reg_pc _ _ _)
  rw [ite_eq_iff] at he
  rcases he with ⟨hc, he⟩ | ⟨-, he⟩
  · exact (execute_S_TYPE_pc _ _ _ _ _ he).trans (set_reg_pc _ _ _)
  rw [ite_eq_iff] at he
  rcases he with ⟨hc, he⟩ | ⟨-, he⟩
  · exact (execute_I_TYPE_pc _ _ _ _ _ _ he).trans (set_reg_pc _ _ _)
  rw [ite_eq_iff] at he
  rcases he with ⟨hc, he⟩ | ⟨-, he⟩
  · exact (execute_R_TYPE_pc _ _ _ _ _ _ he).trans (set_reg_pc _ _ _)
  rw [ite_eq_iff] at he
  rcases he with ⟨hc, he⟩ | ⟨-, he⟩
  · simp only [brk_ok, exec_FENCE, Except.ok.injEq] at he
    obtain ⟨he, _⟩ := he; subst he; rfl
  rw [ite_eq_iff] at he
  rcases he with ⟨hc, he⟩ | ⟨-, he⟩
  · exact (execute_I_TYPE_64_pc _ _ _ _ _ _ he).trans (set_reg_pc _ _ _)
  rw [ite_eq_iff] at he
  rcases he with ⟨hc, he⟩ | ⟨-, he⟩
  · exact (execute_R_TYPE_64_pc _ _ _ _ _ _ he).trans (set_reg_pc _ _ _)
  rw [ite_eq_iff] at he
  rcases he with ⟨hc, he⟩ | ⟨-, he⟩
  · exact (execute_CSR_pc _ _ _ _ _ he).trans (set_reg_pc _ _ _)
  rw [ite_eq_iff] at he
  rcases he with ⟨hc, he⟩ | ⟨-, he⟩
  · exact (execute_AMO_W_pc _ _ _ _ _ he).trans (set_reg_pc _ _ _)
  simp only [ite_self, Except.ok.injEq, Prod.mk.injEq] at he
  obtain ⟨he, _⟩ := he; subst he; rfl

/-! ## Dispatch of the control-flow opcodes -/

theorem cpu_execute_JAL (cpu : CPU) (inst : Nat) (h : inst &&& 0x7f = JAL) :
    cpu_execute cpu inst = brk (exec_JAL (set_reg cpu 0 0) inst) := by
  unfold cpu_execute
  simp only []
  rw [h]
  rfl

theorem cpu_execute_JALR (cpu : CPU) (inst : Nat) (h : inst &&& 0x7f = JALR) :
    cpu_execute cpu inst = brk (exec_JALR (set_reg cpu 0 0) inst) := by
  unfold cpu_execute
  simp only []
  rw [h]
  rfl

theorem cpu_execute_B_TYPE (cpu : CPU) (inst : Nat) (h : inst &&& 0x7f = B_TYPE) :
    cpu_execute cpu inst = execute_B_TYPE (set_reg cpu 0 0) inst ((inst >>> 12) &&& 0x7) := by
  unfold cpu_execute
  simp only []
  rw [h]
  rfl

/-- The six conditional branches: the result of the `B_TYPE` arm when `pc` is
`p + 4`. -/
theorem execute_B_TYPE_branch (cpu : CPU) (inst funct3 p : Nat)
    (hf3 : funct3 = BEQ ∨ funct3 = BNE ∨ funct3 = BLT ∨ funct3 = BGE ∨ funct3 = BLTU ∨
      funct3 = BGEU)
    (ha : cpu.regs (rs1 inst) < 2 ^ 64) (hb : cpu.regs (rs2 inst) < 2 ^ 64)
    (hpc : cpu.pc = add64 p 4) :
    ∃ c, execute_B_TYPE cpu inst funct3 = .ok (c, 1) ∧
      (branch_taken funct3 (cpu.regs (rs1 inst)) (cpu.regs (rs2 inst)) →
        c.pc = (p + imm_B inst) % 2 ^ 64) ∧
      (¬ branch_taken funct3 (cpu.regs (rs1 inst)) (cpu.regs (rs2 inst)) → c.pc = cpu.pc) := by
  have hinj := to_i64_inj _ _ ha hb
  have ht := branch_target p (imm_B inst)
  have hts := branch_target_signed p (imm_B inst)
  rcases hf3 with rfl | rfl | rfl | rfl | rfl | rfl
  · have hbt : branch_taken BEQ (cpu.regs (rs1 inst)) (cpu.regs (rs2 inst)) ↔
        (to_i64 (cpu.regs (rs1 inst)) = to_i64 (cpu.regs (rs2 inst))) := by
      simp [branch_taken, BEQ, BNE, BLT, BGE, BLTU, BGEU, hinj]
    have hd : execute_B_TYPE cpu inst BEQ = brk (exec_BEQ cpu inst) := rfl
    rw [hbt, hd]
    unfold exec_BEQ
    simp only []
    by_cases hc : to_i64 (cpu.regs (rs1 inst)) = to_i64 (cpu.regs (rs2 inst))
    · rw [if_pos hc]
      exact ⟨_, rfl, fun _ => by simp only [hpc, ht], fun hn => absurd hc hn⟩
    · rw [if_neg hc]
      exact ⟨_, rfl, fun h => absurd h hc, fun _ => rfl⟩
  · have hbt : branch_taken BNE (cpu.regs (rs1 inst)) (cpu.regs (rs2 inst)) ↔
        (to_i64 (cpu.regs (rs1 inst)) ≠ to_i64 (cpu.regs (rs2 inst))) := by
      simp [branch_taken, BEQ, BNE, BLT, BGE, BLTU, BGEU, hinj]
    have hd : execute_B_TYPE cpu inst BNE = brk (exec_BNE cpu inst) := rfl
    rw [hbt, hd]
    unfold exec_BNE
    simp only []
    by_cases hc : to_i64 (cpu.regs (rs1 inst)) ≠ to_i64 (cpu.regs (rs2 inst))
    · rw [if_pos hc]
      exact ⟨_, rfl, fun _ => by simp only [hpc, ht], fun hn => absurd hc hn⟩
    · rw [if_neg hc]
      exact ⟨_, rfl, fun h => absurd h hc, fun _ => rfl⟩
  · have hbt : branch_taken BLT (cpu.regs (rs1 inst)) (cpu.regs (rs2 inst)) ↔
        (to_i64 (cpu.regs (rs1 inst)) < to_i64 (cpu.regs (rs2 inst))) := by
      simp [branch_taken, BEQ, BNE, BLT, BGE, BLTU, BGEU, hinj]
    have hd : execute_B_TYPE cpu inst BLT = brk (exec_BLT cpu inst) := rfl
    rw [hbt, hd]
    unfold exec_BLT
    simp only []
    by_cases hc : to_i64 (cpu.regs (rs1 inst)) < to_i64 (cpu.regs (rs2 inst))
    · rw [if_pos hc]
      exact ⟨_, rfl, fun _ => by simp only [hpc, ht], fun hn => absurd hc hn⟩
    · rw [if_neg hc]
      exact ⟨_, rfl, fun h => absurd h hc, fun _ => rfl⟩
  · have hbt : branch_taken BGE (cpu.regs (rs1 inst)) (cpu.regs (rs2 inst)) ↔
        (to_i64 (cpu.regs (rs1 inst)) ≥ to_i64 (cpu.regs (rs2 inst))) := by
      simp [branch_taken, BEQ, BNE, BLT, BGE, BLTU, BGEU, hinj]
    have hd : execute_B_TYPE cpu inst BGE = brk (exec_BGE cpu inst) := rfl
    rw [hbt, hd]
    unfold exec_BGE
    simp only []
    by_cases hc : to_i64 (cpu.regs (rs1 inst)) ≥ to_i64 (cpu.regs (rs2 inst))
    · rw [if_pos hc]
      exact ⟨_, rfl, fun _ => by simp only [hpc, ht], fun hn => absurd hc hn⟩
    · rw [if_neg hc]
      exact ⟨_, rfl, fun h => absurd h hc, fun _ => rfl⟩
  · have hbt : branch_taken BLTU (cpu.regs (rs1 inst)) (cpu.regs (rs2 inst)) ↔
        (cpu.regs (rs1 inst) < cpu.regs (rs2 inst)) := by
      simp [branch_taken, BEQ, BNE, BLT, BGE, BLTU, BGEU, hinj]
    have hd : execute_B_TYPE cpu inst BLTU = brk (exec_BLTU cpu inst) := rfl
    rw [hbt, hd]
    unfold exec_BLTU
    simp only []
    by_cases hc : cpu.regs (rs1 inst) < cpu.regs (rs2 inst)
    · rw [if_pos hc]
      exact ⟨_, rfl, fun _ => by simp only [hpc, ht], fun hn => absurd hc hn⟩
    · rw [if_neg hc]
      exact ⟨_, rfl, fun h => absurd h hc, fun _ => rfl⟩
  · have hbt : branch_taken BGEU (cpu.regs (rs1 inst)) (cpu.regs (rs2 inst)) ↔
        (cpu.regs (rs1 inst) ≥ cpu.regs (rs2 inst)) := by
      simp [branch_taken, BEQ, BNE, BLT, BGE, BLTU, BGEU, hinj]
    have hd : execute_B_TYPE cpu inst BGEU = brk (exec_BGEU cpu inst) := rfl
    rw [hbt, hd]
    unfold exec_BGEU
    simp only []
    by_cases hc : cpu.regs (rs1 inst) ≥ cpu.regs (rs2 inst)
    · rw [if_pos hc]
      exact ⟨_, rfl, fun _ => by simp only [hpc, hts], fun hn => absurd hc hn⟩
    · rw [if_neg hc]
      exact ⟨_, rfl, fun h => absurd h hc, fun _ => rfl⟩

/-! ## Control transfers -/

/-- Every return of the `B_TYPE` arm leaves `pc` as it was or at `p + imm_B`,
when `pc` was `p + 4`. -/
theorem execute_B_TYPE_pc (cpu c : CPU) (inst funct3 r p : Nat)
    (hpc : cpu.pc = add64 p 4)
    (he : execute_B_TYPE cpu inst funct3 = .ok (c, r)) :
    c.pc = cpu.pc ∨ c.pc = (p + imm_B inst) % 2 ^ 64 := by
  have ht := branch_target p (imm_B inst)
  have hts := branch_target_signed p (imm_B inst)
  unfold execute_B_TYPE at he
  repeat' (rw [ite_eq_iff] at he; rcases he with ⟨-, he⟩ | ⟨-, he⟩)
  all_goals
    simp only [brk_ok, exec_BEQ, exec_BNE, exec_BLT, exec_BGE, exec_BLTU, exec_BGEU] at he
    obtain ⟨he, -⟩ := he
    first
    | (cases he; exact Or.inl rfl)
    | (rw [ite_eq_iff] at he
       rcases he with ⟨-, he⟩ | ⟨-, he⟩
       · cases he
         right
         simp only [hpc, ht, hts]
       · cases he
         exact Or.inl rfl)

theorem exec_JAL_result (cpu : CPU) (inst p : Nat) (hpc : cpu.pc = add64 p 4) :
    exec_JAL cpu inst =
      if (p + imm_J inst) % 2 ^ 64 % 4 ≠ 0 then .error .exit_0
      else .ok { set_reg cpu (rd inst) cpu.pc with pc := (p + imm_J inst) % 2 ^ 64 } := by
  unfold exec_JAL ADDR_MISALIGNED
  simp only [set_reg_pc, hpc, branch_target, and_3]

theorem misaligned_masked (s : Nat) :
    ADDR_MISALIGNED (s &&& 0xfffffffe) = (s - s % 2) % 4 := by
  unfold ADDR_MISALIGNED
  have h1 : s &&& 0xfffffffe &&& 0x3 = s % 4 &&& 2 := by
    rw [Nat.and_assoc, ← and_3, Nat.and_assoc]
    rfl
  rw [h1]
  have h2 : s % 4 < 4 := Nat.mod_lt _ (by norm_num)
  have h3 : (s - s % 2) % 4 = s % 4 - s % 4 % 2 := by omega
  rw [h3]
  generalize s % 4 = m at h2
  interval_cases m <;> rfl


theorem exec_JALR_result (cpu : CPU) (inst : Nat) :
    exec_JALR cpu inst =
      if ((cpu.regs (rs1 inst) + imm_I inst) % 2 ^ 64
          - (cpu.regs (rs1 inst) + imm_I inst) % 2 ^ 64 % 2) % 4 ≠ 0 then .error .exit_0
      else .ok (set_reg
        { cpu with pc := add64 (cpu.regs (rs1 inst)) (to_u64 (to_i64 (imm_I inst)))
            &&& 0xfffffffe } (rd inst) cpu.pc) := by
  have hs : add64 (cpu.regs (rs1 inst)) (to_u64 (to_i64 (imm_I inst)))
      = (cpu.regs (rs1 inst) + imm_I inst) % 2 ^ 64 := by
    rw [to_u64_to_i64]
    unfold add64
    omega
  unfold exec_JALR
  simp only [set_reg_pc, misaligned_masked, hs]

/-- A returned execution that started with an aligned `pc - 4` ends with an
aligned `pc`, unless the word is a conditional branch whose offset is not a
multiple of 4. -/
theorem execute_aligned (cpu c : CPU) (inst r p : Nat)
    (hpc : cpu.pc = add64 p 4) (hp : p % 4 = 0)
    (hb : inst &&& 0x7f ≠ B_TYPE ∨ imm_B inst % 4 = 0)
    (he : cpu_execute cpu inst = .ok (c, r)) : c.pc % 4 = 0 := by
  have h4 : cpu.pc % 4 = 0 := by rw [hpc]; unfold add64; omega
  by_cases hj : inst &&& 0x7f = JAL
  · rw [cpu_execute_JAL _ _ hj, exec_JAL_result (set_reg cpu 0 0) inst p hpc] at he
    split at he
    · cases he
    · rename_i hal
      rw [brk_ok_eq] at he
      cases he
      exact not_not.mp hal
  by_cases hjr : inst &&& 0x7f = JALR
  · rw [cpu_execute_JALR _ _ hjr] at he
    unfold exec_JALR at he
    simp only [] at he
    split at he
    · cases he
    · rename_i hal
      rw [brk_ok_eq] at he
      cases he
      have := not_not.mp hal
      unfold ADDR_MISALIGNED at this
      rw [and_3] at this
      exact this
  by_cases hbt : inst &&& 0x7f = B_TYPE
  · rw [cpu_execute_B_TYPE _ _ hbt] at he
    have hi : imm_B inst % 4 = 0 := hb.resolve_left (not_not.mpr hbt)
    rcases execute_B_TYPE_pc (set_reg cpu 0 0) c inst _ r p hpc he with h | h
    · rw [h]; exact h4
    · rw [h]; omega
  · rw [execute_plain_pc cpu c inst r ⟨hj, hjr, hbt⟩ he]
    exact h4

/-! ## Immediates and dispatch of the arithmetic, store and CSR opcodes -/

theorem and_shiftLeft_mask (x m k : Nat) :
    x &&& (m <<< k) = ((x >>> k) &&& m) <<< k := by
  apply Nat.eq_of_testBit_eq
  intro i
  simp only [Nat.testBit_and, Nat.testBit_shiftLeft, Nat.testBit_shiftRight]
  by_cases h : k ≤ i
  · simp [h, Nat.add_sub_cancel' h]
  · simp [h]

theorem and_fff00000 (inst : Nat) :
    inst &&& 0xfff00000 = (inst / 2 ^ 20 % 2 ^ 12) * 2 ^ 20 := by
  have h := and_shiftLeft_mask inst 0xfff 20
  have hm : (0xfff : Nat) <<< 20 = 0xfff00000 := by decide
  rw [hm] at h
  rw [h, Nat.shiftLeft_eq, Nat.shiftRight_eq_div_pow]
  have := Nat.and_pow_two_sub_one_eq_mod (inst / 2 ^ 20) 12
  simp only [Nat.reducePow, Nat.reduceSub] at this ⊢
  rw [this]

/-- The shift `m >> n` of a signed value by a count written as an integer is
the floor division by `2 ^ n`. -/
theorem int_shiftRight_eq_div (m : Int) (n : Nat) :
    m >>> (n : Int) = m / ((2 ^ n : Nat) : Int) := by
  rw [← Int.shiftRight_eq_div_pow]
  cases m with
  | ofNat a => exact Int.shiftRight_coe_nat a n
  | negSucc a => exact Int.shiftRight_negSucc a n

/-- The macro `imm_I` is the sign extension of bits 31..20 of the word. -/
theorem imm_I_eq (inst : Nat) : imm_I inst = sign_extend_12 (inst / 2 ^ 20 % 2 ^ 12) := by
  unfold imm_I
  rw [and_fff00000]
  have hy : inst / 2 ^ 20 % 2 ^ 12 < 2 ^ 12 := Nat.mod_lt _ (by norm_num)
  generalize inst / 2 ^ 20 % 2 ^ 12 = y at hy
  have hs := int_shiftRight_eq_div (to_i32 (y * 2 ^ 20)) 20
  simp only [Nat.cast_ofNat] at hs
  rw [hs]
  unfold sign_extend_12 to_u64 to_i32
  split <;> split <;> omega

theorem cpu_execute_S_TYPE (cpu : CPU) (inst : Nat) (h : inst &&& 0x7f = S_TYPE) :
    cpu_execute cpu inst = execute_S_TYPE (set_reg cpu 0 0) inst ((inst >>> 12) &&& 0x7) := by
  unfold cpu_execute
  simp only []
  rw [h]
  rfl

theorem cpu_execute_I_TYPE (cpu : CPU) (inst : Nat) (h : inst &&& 0x7f = I_TYPE) :
    cpu_execute cpu inst =
      execute_I_TYPE (set_reg cpu 0 0) inst ((inst >>> 12) &&& 0x7) ((inst >>> 25) &&& 0x7f) := by
  unfold cpu_execute
  simp only []
  rw [h]
  rfl

theorem cpu_execute_CSR (cpu : CPU) (inst : Nat) (h : inst &&& 0x7f = CSR) :
    cpu_execute cpu inst = execute_CSR (set_reg cpu 0 0) inst ((inst >>> 12) &&& 0x7) := by
  unfold cpu_execute
  simp only []
  rw [h]
  rfl

theorem add64_to_u64_to_i64 (a b : Nat) : add64 a (to_u64 (to_i64 b)) = (a + b) % 2 ^ 64 := by
  rw [to_u64_to_i64]
  unfold add64
  omega

/-! ## The stepping loop -/

theorem cpu_step_body_stop (cpu c : CPU) (r : Nat)
    (next : CPU → Except Fault (Option (CPU × Nat)))
    (hs : cpu_step_one cpu = .ok (c, r)) (h : r = 0 ∨ c.pc = 0) :
    cpu_step_body cpu next = .ok (some (c, 0)) := by
  unfold cpu_step_body
  rw [hs, ok_bind]
  by_cases hr : r = 0
  · simp only [hr, if_true]; rfl
  · have hpc : c.pc = 0 := h.resolve_left hr
    simp only [hr, hpc, if_true, if_false]; rfl

theorem cpu_step_body_continue (cpu c : CPU) (r : Nat)
    (next : CPU → Except Fault (Option (CPU × Nat)))
    (hs : cpu_step_one cpu = .ok (c, r)) (hr : r ≠ 0) (hpc : c.pc ≠ 0) :
    cpu_step_body cpu next = next c := by
  unfold cpu_step_body
  rw [hs, ok_bind]
  simp only [hr, hpc, if_false]

theorem continued_succ (k : Nat) (cpu c2 : CPU) (h : continued (k + 1) cpu = some c2) :
    ∃ c1 r, cpu_step_one cpu = .ok (c1, r) ∧ r ≠ 0 ∧ c1.pc ≠ 0 ∧ continued k c1 = some c2 := by
  change (not_halted (cpu_step_one cpu)).bind (continued k) = some c2 at h
  generalize hs : cpu_step_one cpu = s at h
  cases s with
  | error e => cases h
  | ok p =>
    obtain ⟨c, r⟩ := p
    unfold not_halted at h
    simp only [] at h
    by_cases hc : r ≠ 0 ∧ c.pc ≠ 0
    · rw [if_pos hc] at h
      exact ⟨c, r, rfl, hc.1, hc.2, h⟩
    · rw [if_neg hc] at h
      cases h

theorem cpu_step_for_stop (k : Nat) : ∀ (n : Nat) (cpu c1 c : CPU) (r : Nat),
    continued k cpu = some c1 → cpu_step_one c1 = .ok (c, r) → (r = 0 ∨ c.pc = 0) → k < n →
    cpu_step_for n cpu = .ok (some (c, 0)) := by
  induction k with
  | zero =>
    intro n cpu c1 c r hk hs hstop hn
    cases hk
    obtain ⟨m, rfl⟩ : ∃ m, n = m + 1 := ⟨n - 1, by omega⟩
    exact cpu_step_body_stop _ _ _ _ hs hstop
  | succ k ih =>
    intro n cpu c1 c r hk hs hstop hn
    obtain ⟨m, rfl⟩ : ∃ m, n = m + 1 := ⟨n - 1, by omega⟩
    obtain ⟨c0, r0, hs0, hr0, hpc0, hk0⟩ := continued_succ k cpu c1 hk
    show cpu_step_body cpu (cpu_step_for m) = _
    rw [cpu_step_body_continue _ _ _ _ hs0 hr0 hpc0]
    exact ih m c0 c1 c r hk0 hs hstop (by omega)

theorem cpu_step_while_stop (k : Nat) : ∀ (fuel : Nat) (cpu c1 c : CPU) (r : Nat),
    continued k cpu = some c1 → cpu_step_one c1 = .ok (c, r) → (r = 0 ∨ c.pc = 0) →
    k < fuel → cpu_step_while fuel cpu = .ok (some (c, 0)) := by
  induction k with
  | zero =>
    intro n cpu c1 c r hk hs hstop hn
    cases hk
    obtain ⟨m, rfl⟩ : ∃ m, n = m + 1 := ⟨n - 1, by omega⟩
    exact cpu_step_body_stop _ _ _ _ hs hstop
  | succ k ih =>
    intro n cpu c1 c r hk hs hstop hn
    obtain ⟨m, rfl⟩ : ∃ m, n = m + 1 := ⟨n - 1, by omega⟩
    obtain ⟨c0, r0, hs0, hr0, hpc0, hk0⟩ := continued_succ k cpu c1 hk
    show cpu_step_body cpu (cpu_step_while m) = _
    rw [cpu_step_body_continue _ _ _ _ hs0 hr0 hpc0]
    exact ih m c0 c1 c r hk0 hs hstop (by omega)

theorem cpu_step_for_continued (n : Nat) : ∀ (cpu c : CPU),
    continued n cpu = some c → cpu_step_for n cpu = .ok (some (c, 1)) := by
  induction n with
  | zero =>
    intro cpu c h
    cases h
    rfl
  | succ n ih =>
    intro cpu c h
    obtain ⟨c0, r0, hs0, hr0, hpc0, hk0⟩ := continued_succ n cpu c h
    show cpu_step_body cpu (cpu_step_for n) = _
    rw [cpu_step_body_continue _ _ _ _ hs0 hr0 hpc0]
    exact ih c0 c hk0

theorem retired_succ (k : Nat) (cpu c1 c : CPU) (r : Nat)
    (hs : cpu_step_one cpu = .ok (c1, r)) (h : retired k c1 = .ok c) :
    retired (k + 1) cpu = .ok c := by
  show (cpu_step_one cpu >>= _) = _
  rw [hs, ok_bind]
  exact h

theorem cpu_step_for_retired (n : Nat) : ∀ (cpu c : CPU) (r : Nat),
    cpu_step_for n cpu = .ok (some (c, r)) → ∃ k, k ≤ n ∧ retired k cpu = .ok c := by
  induction n with
  | zero =>
    intro cpu c r h
    cases h
    exact ⟨0, le_refl 0, rfl⟩
  | succ n ih =>
    intro cpu c r h
    change cpu_step_body cpu (cpu_step_for n) = _ at h
    unfold cpu_step_body at h
    rw [bind_ok] at h
    obtain ⟨⟨c1, r1⟩, hs, h⟩ := h
    simp only [] at h
    by_cases hr : r1 = 0
    · rw [if_pos hr] at h
      cases h
      exact ⟨1, by omega, retired_succ 0 cpu c c r1 hs rfl⟩
    · rw [if_neg hr] at h
      by_cases hpc : c1.pc = 0
      · rw [if_pos hpc] at h
        cases h
        exact ⟨1, by omega, retired_succ 0 cpu c c r1 hs rfl⟩
      · rw [if_neg hpc] at h
        obtain ⟨k, hk, hk'⟩ := ih c1 c r h
        exact ⟨k + 1, by omega, retired_succ k cpu c1 c r1 hs hk'⟩

theorem cpu_step_for_ne_none (n : Nat) : ∀ (cpu : CPU), cpu_step_for n cpu ≠ .ok none := by
  induction n with
  | zero =>
    intro cpu h
    cases h
  | succ n ih =>
    intro cpu h
    change cpu_step_body cpu (cpu_step_for n) = _ at h
    unfold cpu_step_body at h
    rw [bind_ok] at h
    obtain ⟨⟨c1, r1⟩, -, h⟩ := h
    simp only [] at h
    by_cases hr : r1 = 0
    · rw [if_pos hr] at h
      cases h
    · rw [if_neg hr] at h
      by_cases hpc : c1.pc = 0
      · rw [if_pos hpc] at h
        cases h
      · rw [if_neg hpc] at h
        exact ih c1 h

theorem retired_continued (k : Nat) : ∀ (cpu c1 c : CPU) (r : Nat),
    continued k cpu = some c1 → cpu_step_one c1 = .ok (c, r) → retired (k + 1) cpu = .ok c := by
  induction k with
  | zero =>
    intro cpu c1 c r hk hs
    cases hk
    exact retired_succ 0 cpu c c r hs rfl
  | succ k ih =>
    intro cpu c1 c r hk hs
    obtain ⟨c0, r0, hs0, -, -, hk0⟩ := continued_succ k cpu c1 hk
    exact retired_succ (k + 1) cpu c0 c r0 hs0 (ih c0 c1 c r hk0 hs)

theorem retired_of_continued (n : Nat) : ∀ (cpu c : CPU),
    continued n cpu = some c → retired n cpu = .ok c := by
  induction n with
  | zero =>
    intro cpu c h
    cases h
    rfl
  | succ n ih =>
    intro cpu c h
    obtain ⟨c0, r0, hs0, -, -, hk0⟩ := continued_succ n cpu c h
    exact retired_succ n cpu c0 c r0 hs0 (ih c0 c hk0)

theorem MIN_MAX_CPU_STEP (step : Int) : MIN MAX_CPU_STEP step = min step 10 := by
  unfold MIN MAX_CPU_STEP
  split <;> omega

/-! ## Bit fields of the instruction word -/

theorem and_field (x k n m : Nat) (hm : m = (2 ^ n - 1) <<< k) :
    x &&& m = x / 2 ^ k % 2 ^ n * 2 ^ k := by
  subst hm
  rw [and_shiftLeft_mask, Nat.shiftLeft_eq, Nat.shiftRight_eq_div_pow,
    Nat.and_pow_two_sub_one_eq_mod]

theorem or_eq_add (a b i : Nat) (ha : a % 2 ^ i = 0) (hb : b < 2 ^ i) : a ||| b = a + b := by
  have h := Nat.mul_add_lt_is_or hb (a / 2 ^ i)
  have hq : 2 ^ i * (a / 2 ^ i) = a := by
    have := Nat.div_add_mod a (2 ^ i)
    omega
  rw [hq] at h
  exact h.symm

/-- The sign part of `imm_I` and `imm_S`: a word with only bits 31..20 (possibly)
set, converted to `int32_t` and shifted right by 20. -/
theorem sign_part_20 (y : Nat) (hy : y < 2 ^ 12) :
    to_u64 (to_i32 (y * 2 ^ 20) >>> 20) = if y < 2 ^ 11 then y else y + (2 ^ 64 - 2 ^ 12) := by
  have hs := int_shiftRight_eq_div (to_i32 (y * 2 ^ 20)) 20
  simp only [Nat.cast_ofNat] at hs
  rw [hs]
  unfold to_u64 to_i32
  split <;> split <;> omega

theorem sign_part_19 (b : Nat) (hb : b < 2) :
    to_u64 (to_i32 (b * 2 ^ 31) >>> 19) = if b = 0 then 0 else 2 ^ 64 - 2 ^ 12 := by
  have hs := int_shiftRight_eq_div (to_i32 (b * 2 ^ 31)) 19
  simp only [Nat.cast_ofNat] at hs
  rw [hs]
  unfold to_u64 to_i32
  split <;> split <;> omega

theorem sign_part_11 (b : Nat) (hb : b < 2) :
    to_u64 (to_i32 (b * 2 ^ 31) >>> 11) = if b = 0 then 0 else 2 ^ 64 - 2 ^ 20 := by
  have hs := int_shiftRight_eq_div (to_i32 (b * 2 ^ 31)) 11
  simp only [Nat.cast_ofNat] at hs
  rw [hs]
  unfold to_u64 to_i32
  split <;> split <;> omega

theorem imm_S_eq (inst : Nat) :
    imm_S inst = sign_extend 12 (bits inst 31 25 * 2 ^ 5 + bits inst 11 7) := by
  unfold imm_S
  rw [and_field inst 25 7 0xfe000000 (by decide), Nat.shiftRight_eq_div_pow,
    and_field (inst / 2 ^ 7) 0 5 0x1f (by decide)]
  have hy : inst / 2 ^ 25 % 2 ^ 7 < 2 ^ 7 := Nat.mod_lt _ (by norm_num)
  have hz : inst / 2 ^ 7 % 2 ^ 5 < 2 ^ 5 := Nat.mod_lt _ (by norm_num)
  have e : inst / 2 ^ 25 % 2 ^ 7 * 2 ^ 25 = (inst / 2 ^ 25 % 2 ^ 7 * 2 ^ 5) * 2 ^ 20 := by ring
  rw [e, sign_part_20 _ (by omega)]
  have hb1 : bits inst 31 25 = inst / 2 ^ 25 % 2 ^ 7 := rfl
  have hb2 : bits inst 11 7 = inst / 2 ^ 7 % 2 ^ 5 := rfl
  rw [hb1, hb2]
  generalize inst / 2 ^ 25 % 2 ^ 7 = y at hy
  have hz0 : inst / 2 ^ 7 / 2 ^ 0 % 2 ^ 5 * 2 ^ 0 = inst / 2 ^ 7 % 2 ^ 5 := by simp
  rw [hz0]
  generalize inst / 2 ^ 7 % 2 ^ 5 = z at hz
  rw [or_eq_add _ z 5 (by split <;> omega) hz]
  show _ = if (y * 2 ^ 5 + z) % 2 ^ 12 < 2 ^ 11 then _ else _
  split <;> split <;> omega

theorem imm_B_value (inst : Nat) :
    imm_B inst =
      (if bits inst 31 31 = 0 then 0 else 2 ^ 64 - 2 ^ 12)
        + (bits inst 7 7 * 2 ^ 11 + bits inst 30 25 * 2 ^ 5 + bits inst 11 8 * 2) := by
  unfold imm_B
  rw [and_field inst 31 1 0x80000000 (by decide), and_field inst 7 1 0x80 (by decide),
    Nat.shiftRight_eq_div_pow, Nat.shiftRight_eq_div_pow,
    and_field (inst / 2 ^ 20) 5 6 0x7e0 (by decide),
    and_field (inst / 2 ^ 7) 1 4 0x1e (by decide), Nat.shiftLeft_eq]
  have h31 : bits inst 31 31 = inst / 2 ^ 31 % 2 ^ 1 := rfl
  have h7 : bits inst 7 7 = inst / 2 ^ 7 % 2 ^ 1 := rfl
  have h30 : bits inst 30 25 = inst / 2 ^ 20 / 2 ^ 5 % 2 ^ 6 := by
    unfold bits
    rw [Nat.div_div_eq_div_mul]
    rfl
  have h11 : bits inst 11 8 = inst / 2 ^ 7 / 2 ^ 1 % 2 ^ 4 := by
    unfold bits
    rw [Nat.div_div_eq_div_mul]
    rfl
  rw [h31, h7, h30, h11]
  have b31 : inst / 2 ^ 31 % 2 ^ 1 < 2 := Nat.mod_lt _ (by norm_num)
  have b7 : inst / 2 ^ 7 % 2 ^ 1 < 2 := Nat.mod_lt _ (by norm_num)
  have b30 : inst / 2 ^ 20 / 2 ^ 5 % 2 ^ 6 < 2 ^ 6 := Nat.mod_lt _ (by norm_num)
  have b11 : inst / 2 ^ 7 / 2 ^ 1 % 2 ^ 4 < 2 ^ 4 := Nat.mod_lt _ (by norm_num)
  generalize inst / 2 ^ 31 % 2 ^ 1 = s at b31
  generalize inst / 2 ^ 7 % 2 ^ 1 = a at b7
  generalize inst / 2 ^ 20 / 2 ^ 5 % 2 ^ 6 = b at b30
  generalize inst / 2 ^ 7 / 2 ^ 1 % 2 ^ 4 = c at b11
  rw [sign_part_19 s b31]
  have e1 : a * 2 ^ 7 * 2 ^ 4 % 2 ^ 32 = a * 2 ^ 11 := by omega
  rw [e1, or_eq_add _ (a * 2 ^ 11) 12 (by split <;> omega) (by omega),
    or_eq_add _ (b * 2 ^ 5) 11 (by split <;> omega) (by omega),
    or_eq_add _ (c * 2 ^ 1) 5 (by split <;> omega) (by omega)]
  omega

theorem imm_J_value (inst : Nat) :
    imm_J inst =
      (if bits inst 31 31 = 0 then 0 else 2 ^ 64 - 2 ^ 20)
        + (bits inst 19 12 * 2 ^ 12 + bits inst 20 20 * 2 ^ 11 + bits inst 30 21 * 2) := by
  unfold imm_J
  rw [and_field inst 31 1 0x80000000 (by decide), and_field inst 12 8 0xff000 (by decide),
    Nat.shiftRight_eq_div_pow, Nat.shiftRight_eq_div_pow,
    and_field (inst / 2 ^ 9) 11 1 0x800 (by decide),
    and_field (inst / 2 ^ 20) 1 10 0x7fe (by decide)]
  have h31 : bits inst 31 31 = inst / 2 ^ 31 % 2 ^ 1 := rfl
  have h19 : bits inst 19 12 = inst / 2 ^ 12 % 2 ^ 8 := rfl
  have h20 : bits inst 20 20 = inst / 2 ^ 9 / 2 ^ 11 % 2 ^ 1 := by
    unfold bits
    rw [Nat.div_div_eq_div_mul]
    rfl
  have h30 : bits inst 30 21 = inst / 2 ^ 20 / 2 ^ 1 % 2 ^ 10 := by
    unfold bits
    rw [Nat.div_div_eq_div_mul]
    rfl
  rw [h31, h19, h20, h30]
  have b31 : inst / 2 ^ 31 % 2 ^ 1 < 2 := Nat.mod_lt _ (by norm_num)
  have b19 : inst / 2 ^ 12 % 2 ^ 8 < 2 ^ 8 := Nat.mod_lt _ (by norm_num)
  have b20 : inst / 2 ^ 9 / 2 ^ 11 % 2 ^ 1 < 2 := Nat.mod_lt _ (by norm_num)
  have b30 : inst / 2 ^ 20 / 2 ^ 1 % 2 ^ 10 < 2 ^ 10 := Nat.mod_lt _ (by norm_num)
  generalize inst / 2 ^ 31 % 2 ^ 1 = s at b31
  generalize inst / 2 ^ 12 % 2 ^ 8 = a at b19
  generalize inst / 2 ^ 9 / 2 ^ 11 % 2 ^ 1 = b at b20
  generalize inst / 2 ^ 20 / 2 ^ 1 % 2 ^ 10 = c at b30
  rw [sign_part_11 s b31,
    or_eq_add _ (a * 2 ^ 12) 20 (by split <;> omega) (by omega),
    or_eq_add _ (b * 2 ^ 11) 12 (by split <;> omega) (by omega),
    or_eq_add _ (c * 2 ^ 1) 11 (by split <;> omega) (by omega)]
  omega

theorem bits_lt (inst hi lo : Nat) : bits inst hi lo < 2 ^ (hi + 1 - lo) :=
  Nat.mod_lt _ (Nat.pow_pos (by norm_num))

theorem cpu_execute_LUI (cpu : CPU) (inst : Nat) (h : inst &&& 0x7f = LUI) :
    cpu_execute cpu inst = brk (exec_LUI (set_reg cpu 0 0) inst) := by
  unfold cpu_execute
  simp only []
  rw [h]
  rfl

theorem lui_value (inst : Nat) :
    to_u64 (to_i32 (inst &&& 0xfffff000)) = sign_extend 32 (bits inst 31 12 * 2 ^ 12) := by
  rw [and_field inst 12 20 0xfffff000 (by decide)]
  have hb : bits inst 31 12 = inst / 2 ^ 12 % 2 ^ 20 := rfl
  have hy : inst / 2 ^ 12 % 2 ^ 20 < 2 ^ 20 := Nat.mod_lt _ (by norm_num)
  rw [hb]
  generalize inst / 2 ^ 12 % 2 ^ 20 = y at hy
  show _ = if (y * 2 ^ 12) % 2 ^ 32 < 2 ^ 31 then _ else _
  unfold to_u64 to_i32
  split <;> omega

/-! ## Initialisation and loader -/

theorem field_u64_ok (d : DRAM) (off : Nat) (h : off + 7 < DRAM_SIZE) :
    field_u64 d off = .ok (le_value d.mem off 8) := by
  unfold field_u64 mem_get
  have h0 : off < DRAM_SIZE := by omega
  have h1 : off + 1 < DRAM_SIZE := by omega
  have h2 : off + 2 < DRAM_SIZE := by omega
  have h3 : off + 3 < DRAM_SIZE := by omega
  have h4 : off + 4 < DRAM_SIZE := by omega
  have h5 : off + 5 < DRAM_SIZE := by omega
  have h6 : off + 6 < DRAM_SIZE := by omega
  simp only [if_pos h0, if_pos h1, if_pos h2, if_pos h3, if_pos h4, if_pos h5, if_pos h6,
    if_pos h, ok_bind]
  simp only [le_value, pure, Except.pure, Nat.add_assoc]
  congr 1
  ring

theorem error_bind {α β : Type} (e : Fault) (f : α → Except Fault β) :
    ((Except.error e : Except Fault α) >>= f) = .error e := rfl

/-! ## The DRAM watermark -/

theorem dram_init_wf (p : Nat) (m : Nat → Nat) (hp : p + DRAM_SIZE < 2 ^ 64) :
    dram_wf (dram_init p m) :=
  ⟨Nat.zero_le _, rfl, hp⟩

/-- An allocation that fits: the bytes go to offsets `alloc_size ..
alloc_size + n - 1` and the watermark advances by `n`. -/
theorem dram_alloc_data_accept (d : DRAM) (n : Nat) (data : List Nat) (hwf : dram_wf d)
    (hn : d.alloc_size + n ≤ DRAM_SIZE) :
    dram_alloc_data d n data
      = .ok { d with
          mem := fun j =>
            if d.alloc_size ≤ j ∧ j < d.alloc_size + n then data.getD (j - d.alloc_size) 0
            else d.mem j
          alloc_size := d.alloc_size + n
          alloc_addr := d.alloc_addr + n } := by
  obtain ⟨h1, h2, h3⟩ := hwf
  have h1n : d.alloc_size ≤ 1048576 := h1
  have h3n : d.mem_addr + 1048576 < 2 ^ 64 := h3
  have hnn : d.alloc_size + n ≤ 1048576 := hn
  have c1 : ¬ add64 d.alloc_addr n > add64 d.mem_addr DRAM_SIZE := by
    unfold add64 DRAM_SIZE
    omega
  have c2 : sub64 d.alloc_addr d.mem_addr = d.alloc_size := by
    unfold sub64
    omega
  have e1 : add64 d.alloc_size n = d.alloc_size + n := by
    unfold add64
    omega
  have e2 : add64 d.alloc_addr n = d.alloc_addr + n := by
    unfold add64
    omega
  unfold dram_alloc_data
  simp only []
  rw [if_neg c1, c2, if_pos hn, e1, e2]

/-- An allocation that does not fit, when the address `alloc_addr + n` does not
wrap: nothing changes. -/
theorem dram_alloc_data_reject (d : DRAM) (n : Nat) (data : List Nat) (hwf : dram_wf d)
    (hn : DRAM_SIZE < d.alloc_size + n) (hw : d.alloc_addr + n < 2 ^ 64) :
    dram_alloc_data d n data = .ok d := by
  obtain ⟨h1, h2, h3⟩ := hwf
  have h1n : d.alloc_size ≤ 1048576 := h1
  have h3n : d.mem_addr + 1048576 < 2 ^ 64 := h3
  have hnn : 1048576 < d.alloc_size + n := hn
  have c1 : add64 d.alloc_addr n > add64 d.mem_addr DRAM_SIZE := by
    unfold add64 DRAM_SIZE
    omega
  unfold dram_alloc_data
  rw [if_pos c1]

theorem dram_alloc_data_wf (d : DRAM) (n : Nat) (data : List Nat) (hwf : dram_wf d)
    (hw : d.alloc_addr + n < 2 ^ 64) :
    ∃ d1, dram_alloc_data d n data = .ok d1 ∧ dram_wf d1 := by
  by_cases hn : d.alloc_size + n ≤ DRAM_SIZE
  · refine ⟨_, dram_alloc_data_accept d n data hwf hn, hn, ?_, hwf.2.2⟩
    show d.alloc_addr + n = d.mem_addr + (d.alloc_size + n)
    rw [hwf.2.1, Nat.add_assoc]
  · exact ⟨d, dram_alloc_data_reject d n data hwf (by omega) hw, hwf⟩

theorem dram_release_data_wf (d : DRAM) (n : Nat) (hwf : dram_wf d) :
    dram_wf (dram_release_data d n) ∧
    (dram_release_data d n).alloc_size = (if n > d.alloc_size then d.alloc_size
      else d.alloc_size - n) := by
  obtain ⟨h1, h2, h3⟩ := hwf
  have h1n : d.alloc_size ≤ 1048576 := h1
  have h3n : d.mem_addr + 1048576 < 2 ^ 64 := h3
  unfold dram_release_data
  by_cases hn : n > d.alloc_size
  · rw [if_pos hn, if_pos hn]
    exact ⟨⟨h1, h2, h3⟩, rfl⟩
  · rw [if_neg hn, if_neg hn]
    have e1 : sub64 d.alloc_size n = d.alloc_size - n := by
      unfold sub64
      omega
    have e2 : sub64 d.alloc_addr n = d.mem_addr + (d.alloc_size - n) := by
      unfold sub64
      omega
    refine ⟨⟨?_, ?_, h3⟩, e1⟩
    · show sub64 d.alloc_size n ≤ DRAM_SIZE
      rw [e1]
      unfold DRAM_SIZE
      omega
    · show sub64 d.alloc_addr n = d.mem_addr + sub64 d.alloc_size n
      rw [e1, e2]

theorem mem_set_watermark (d d1 : DRAM) (i b : Nat) (h : mem_set d i b = .ok d1) :
    d1.alloc_size = d.alloc_size ∧ d1.alloc_addr = d.alloc_addr ∧ d1.mem_addr = d.mem_addr := by
  unfold mem_set at h
  by_cases hi : i < DRAM_SIZE
  · rw [if_pos hi] at h
    cases h
    exact ⟨rfl, rfl, rfl⟩
  · rw [if_neg hi] at h
    cases h

/-- A store leaves the watermark and the two addresses of the DRAM as they are. -/
theorem dram_write_data_watermark (d d1 : DRAM) (offset size value : Nat)
    (h : dram_write_data d offset size value = .ok d1) :
    d1.alloc_size = d.alloc_size ∧ d1.alloc_addr = d.alloc_addr ∧ d1.mem_addr = d.mem_addr := by
  unfold dram_write_data at h
  simp only [] at h
  repeat' (rw [ite_eq_iff] at h; rcases h with ⟨-, h⟩ | ⟨-, h⟩)
  · cases h
    exact ⟨rfl, rfl, rfl⟩
  · exact mem_set_watermark _ _ _ _ h
  · unfold dram_store_16 at h
    rw [bind_ok] at h
    obtain ⟨a, ha, h⟩ := h
    have h1 := mem_set_watermark _ _ _ _ ha
    have h2 := mem_set_watermark _ _ _ _ h
    exact ⟨h2.1.trans h1.1, h2.2.1.trans h1.2.1, h2.2.2.trans h1.2.2⟩
  · unfold dram_store_32 at h
    rw [bind_ok] at h
    obtain ⟨a, ha, h⟩ := h
    rw [bind_ok] at h
    obtain ⟨a2, ha2, h⟩ := h
    rw [bind_ok] at h
    obtain ⟨a3, ha3, h⟩ := h
    have h1 := mem_set_watermark _ _ _ _ ha
    have h2 := mem_set_watermark _ _ _ _ ha2
    have h3 := mem_set_watermark _ _ _ _ ha3
    have h4 := mem_set_watermark _ _ _ _ h
    exact ⟨h4.1.trans (h3.1.trans (h2.1.trans h1.1)),
      h4.2.1.trans (h3.2.1.trans (h2.2.1.trans h1.2.1)),
      h4.2.2.trans (h3.2.2.trans (h2.2.2.trans h1.2.2))⟩
  · unfold dram_store_64 at h
    rw [bind_ok] at h
    obtain ⟨a, ha, h⟩ := h
    rw [bind_ok] at h
    obtain ⟨a2, ha2, h⟩ := h
    rw [bind_ok] at h
    obtain ⟨a3, ha3, h⟩ := h
    rw [bind_ok] at h
    obtain ⟨a4, ha4, h⟩ := h
    rw [bind_ok] at h
    obtain ⟨a5, ha5, h⟩ := h
    rw [bind_ok] at h
    obtain ⟨a6, ha6, h⟩ := h
    rw [bind_ok] at h
    obtain ⟨a7, ha7, h⟩ := h
    have h1 := mem_set_watermark _ _ _ _ ha
    have h2 := mem_set_watermark _ _ _ _ ha2
    have h3 := mem_set_watermark _ _ _ _ ha3
    have h4 := mem_set_watermark _ _ _ _ ha4
    have h5 := mem_set_watermark _ _ _ _ ha5
    have h6 := mem_set_watermark _ _ _ _ ha6
    have h7 := mem_set_watermark _ _ _ _ ha7
    have h8 := mem_set_watermark _ _ _ _ h
    refine ⟨?_, ?_, ?_⟩
    · rw [h8.1, h7.1, h6.1, h5.1, h4.1, h3.1, h2.1, h1.1]
    · rw [h8.2.1, h7.2.1, h6.2.1, h5.2.1, h4.2.1, h3.2.1, h2.2.1, h1.2.1]
    · rw [h8.2.2, h7.2.2, h6.2.2, h5.2.2, h4.2.2, h3.2.2, h2.2.2, h1.2.2]
  · cases h
    exact ⟨rfl, rfl, rfl⟩

theorem dram_write_data_wf (d d1 : DRAM) (offset size value : Nat) (hwf : dram_wf d)
    (h : dram_write_data d offset size value = .ok d1) : dram_wf d1 := by
  obtain ⟨h1, h2, h3⟩ := dram_write_data_watermark d d1 offset size value h
  unfold dram_wf
  rw [h1, h2, h3]
  exact hwf

/-! ## Register writes: only `regs[rd]` (and `regs[0]` at entry) -/

theorem csr_write_regs (cpu c : CPU) (i v : Nat) (h : csr_write cpu i v = .ok c) :
    c.regs = cpu.regs := by
  unfold csr_write at h
  split at h
  · cases h; rfl
  · cases h

theorem cpu_store_regs (cpu c : CPU) (a s v : Nat) (h : cpu_store cpu a s v = .ok c) :
    c.regs = cpu.regs := by
  simp only [cpu_store, bind_ok, pure, Except.pure] at h
  obtain ⟨b, _, h⟩ := h
  cases h; rfl

theorem execute_B_TYPE_regs (cpu c : CPU) (inst funct3 r : Nat)
    (he : execute_B_TYPE cpu inst funct3 = .ok (c, r)) : c.regs = cpu.regs := by
  unfold execute_B_TYPE at he
  repeat' (rw [ite_eq_iff] at he; rcases he with ⟨-, he⟩ | ⟨-, he⟩)
  all_goals
    simp only [brk_ok, exec_BEQ, exec_BNE, exec_BLT, exec_BGE, exec_BLTU, exec_BGEU] at he
    obtain ⟨he, -⟩ := he
    first
    | (cases he; rfl)
    | (rw [ite_eq_iff] at he
       rcases he with ⟨-, he⟩ | ⟨-, he⟩
       · cases he
         rfl
       · cases he
         rfl)

theorem execute_LOAD_regs (cpu c : CPU) (inst funct3 r : Nat)
    (he : execute_LOAD cpu inst funct3 = .ok (c, r)) :
    ∀ i, i ≠ rd inst → c.regs i = cpu.regs i := by
  unfold execute_LOAD at he
  repeat' (rw [ite_eq_iff] at he; rcases he with ⟨-, he⟩ | ⟨-, he⟩)
  all_goals
    simp only [brk_ok, exec_LB, exec_LH, exec_LW, exec_LD, exec_LBU, exec_LHU, exec_LWU,
      bind_ok, pure, Except.pure, Except.ok.injEq] at he
    first
    | (obtain ⟨⟨_, _, he⟩, _⟩ := he; subst he; intro i hi; simp only [set_reg, if_neg hi])
    | (obtain ⟨he, _⟩ := he; subst he; intro i hi; rfl)

theorem execute_S_TYPE_regs (cpu c : CPU) (inst funct3 r : Nat)
    (he : execute_S_TYPE cpu inst funct3 = .ok (c, r)) : c.regs = cpu.regs := by
  unfold execute_S_TYPE at he
  repeat' (rw [ite_eq_iff] at he; rcases he with ⟨-, he⟩ | ⟨-, he⟩)
  all_goals
    simp only [brk_ok, exec_SB, exec_SH, exec_SW, exec_SD, Except.ok.injEq] at he
    first
    | exact cpu_store_regs _ _ _ _ _ he.1
    | (obtain ⟨he, _⟩ := he; subst he; rfl)

theorem execute_I_TYPE_regs (cpu c : CPU) (inst funct3 funct7 r : Nat)
    (he : execute_I_TYPE cpu inst funct3 funct7 = .ok (c, r)) :
    ∀ i, i ≠ rd inst → c.regs i = cpu.regs i := by
  unfold execute_I_TYPE at he
  repeat' (rw [ite_eq_iff] at he; rcases he with ⟨-, he⟩ | ⟨-, he⟩)
  all_goals
    simp only [brk_ok, exec_ADDI, exec_SLLI, exec_SLTI, exec_SLTIU, exec_XORI, exec_SRLI,
      exec_SRAI, exec_ORI, exec_ANDI, bind_ok, pure, Except.pure, Except.ok.injEq,
      Prod.mk.injEq] at he
    first
    | (obtain ⟨⟨_, _, he⟩, _⟩ := he; subst he; intro i hi; simp only [set_reg, if_neg hi])
    | (obtain ⟨he, _⟩ := he; subst he; intro i hi; simp only [set_reg, if_neg hi])

theorem execute_R_TYPE_regs (cpu c : CPU) (inst funct3 funct7 r : Nat)
    (he : execute_R_TYPE cpu inst funct3 funct7 = .ok (c, r)) :
    ∀ i, i ≠ rd inst → c.regs i = cpu.regs i := by
  unfold execute_R_TYPE at he
  repeat' (rw [ite_eq_iff] at he; rcases he with ⟨-, he⟩ | ⟨-, he⟩)
  all_goals
    simp only [brk_ok, exec_ADD, exec_SUB, exec_SLL, exec_SLT, exec_SLTU, exec_XOR, exec_SRL,
      exec_SRA, exec_OR, exec_AND, bind_ok, pure, Except.pure, Except.ok.injEq,
      Prod.mk.injEq, exists_eq_left, exists_eq_left'] at he
    first
    | (obtain ⟨⟨_, ⟨_, _, h1⟩, he⟩, _⟩ := he; subst he; subst h1
       intro i hi; simp only [set_reg, if_neg hi])
    | (obtain ⟨⟨_, _, he⟩, _⟩ := he; subst he; intro i hi; simp only [set_reg, if_neg hi])
    | (obtain ⟨he, _⟩ := he; subst he; intro i hi; simp only [set_reg, if_neg hi])

theorem execute_I_TYPE_64_regs (cpu c : CPU) (inst funct3 funct7 r : Nat)
    (he : execute_I_TYPE_64 cpu inst funct3 funct7 = .ok (c, r)) :
    ∀ i, i ≠ rd inst → c.regs i = cpu.regs i := by
  unfold execute_I_TYPE_64 at he
  repeat' (rw [ite_eq_iff] at he; rcases he with ⟨-, he⟩ | ⟨-, he⟩)
  all_goals
    simp only [brk_ok, exec_ADDIW, exec_SLLIW, exec_SRLIW, bind_ok, pure, Except.pure,
      Except.ok.injEq] at he
    first
    | (obtain ⟨⟨_, _, he⟩, _⟩ := he; subst he; intro i hi; simp only [set_reg, if_neg hi])
    | (obtain ⟨he, _⟩ := he; subst he; intro i hi; simp only [set_reg, if_neg hi])

theorem execute_R_TYPE_64_regs (cpu c : CPU) (inst funct3 funct7 r : Nat)
    (he : execute_R_TYPE_64 cpu inst funct3 funct7 = .ok (c, r)) :
    ∀ i, i ≠ rd inst → c.regs i = cpu.regs i := by
  unfold execute_R_TYPE_64 at he
  repeat' (rw [ite_eq_iff] at he; rcases he with ⟨-, he⟩ | ⟨-, he⟩)
  all_goals
    simp only [brk_ok, exec_ADDW, exec_SUBW, exec_MULW, exec_DIVW, exec_SLLW, exec_SRLW,
      exec_SRAW, exec_DIVUW, exec_REMW, exec_REMUW, bind_ok, pure, Except.pure,
      Except.ok.injEq] at he
    first
    | (obtain ⟨⟨_, _, he⟩, _⟩ := he; subst he; intro i hi; simp only [set_reg, if_neg hi])
    | (obtain ⟨he, _⟩ := he; subst he; intro i hi; simp only [set_reg, if_neg hi])

theorem execute_CSR_regs (cpu c : CPU) (inst funct3 r : Nat)
    (he : execute_CSR cpu inst funct3 = .ok (c, r)) :
    ∀ i, i ≠ rd inst → c.regs i = cpu.regs i := by
  unfold execute_CSR at he
  repeat' (rw [ite_eq_iff] at he; rcases he with ⟨-, he⟩ | ⟨-, he⟩)
  all_goals
    simp only [brk_ok, exec_ECALLBREAK, exec_ECALL, exec_EBREAK, exec_CSRRW, exec_CSRRS,
      exec_CSRRC, exec_CSRRWI, exec_CSRRSI, exec_CSRRCI, bind_ok, pure, Except.pure,
      ite_self, Except.ok.injEq, exists_eq_left, exists_eq_left', Prod.mk.injEq] at he
    first
    | (obtain ⟨⟨_, _, he⟩, _⟩ := he
       have hr := csr_write_regs _ _ _ _ he
       intro i hi
       simp only [hr, set_reg, if_neg hi])
    | (have hr := csr_write_regs _ _ _ _ he.1
       intro i hi
       rw [hr])
    | (obtain ⟨he, _⟩ := he; subst he; intro i hi; rfl)

theorem execute_AMO_W_regs (cpu c : CPU) (inst funct7 r : Nat)
    (he : execute_AMO_W cpu inst funct7 = .ok (c, r)) :
    ∀ i, i ≠ rd inst → c.regs i = cpu.regs i := by
  unfold execute_AMO_W at he
  simp only [] at he
  generalize funct7 >>> 2 = sel at he
  repeat' (rw [ite_eq_iff] at he; rcases he with ⟨-, he⟩ | ⟨-, he⟩)
  all_goals
    simp only [brk_ok, exec_LR_W, exec_SC_W, exec_AMOSWAP_W, exec_AMOADD_W, exec_AMOXOR_W,
      exec_AMOAND_W, exec_AMOOR_W, exec_AMOMIN_W, exec_AMOMAX_W, exec_AMOMINU_W,
      exec_AMOMAXU_W, bind_ok, pure, Except.pure, Except.ok.injEq, Prod.mk.injEq] at he
    first
    | (obtain ⟨⟨_, _, he⟩, _⟩ := he
       have hr := cpu_store_regs _ _ _ _ _ he
       intro i hi
       rw [hr]
       simp only [set_reg, if_neg hi])
    | (obtain ⟨he, _⟩ := he; subst he; intro i hi; rfl)

theorem exec_JAL_regs (cpu c : CPU) (inst : Nat) (he : exec_JAL cpu inst = .ok c) :
    ∀ i, i ≠ rd inst → c.regs i = cpu.regs i := by
  unfold exec_JAL at he
  simp only [] at he
  rw [ite_eq_iff] at he
  rcases he with ⟨-, he⟩ | ⟨-, he⟩
  · cases he
  · cases he
    intro i hi
    simp only [set_reg, if_neg hi]

theorem exec_JALR_regs (cpu c : CPU) (inst : Nat) (he : exec_JALR cpu inst = .ok c) :
    ∀ i, i ≠ rd inst → c.regs i = cpu.regs i := by
  unfold exec_JALR at he
  simp only [] at he
  rw [ite_eq_iff] at he
  rcases he with ⟨-, he⟩ | ⟨-, he⟩
  · cases he
  · cases he
    intro i hi
    simp only [set_reg, if_neg hi]

/-- A call of `cpu_execute` that returns has written no register other than
`regs[0]` and `regs[rd]`. -/
theorem cpu_execute_regs (cpu c : CPU) (inst r : Nat)
    (he : cpu_execute cpu inst = .ok (c, r)) :
    ∀ i, i ≠ rd inst → i ≠ 0 → c.regs i = cpu.regs i := by
  have h0 : ∀ i, i ≠ 0 → (set_reg cpu 0 0).regs i = cpu.regs i := by
    intro i hi
    simp only [set_reg, if_neg hi]
  have hall : ∀ c1 : CPU, (∀ i, i ≠ rd inst → c1.regs i = (set_reg cpu 0 0).regs i) →
      ∀ i, i ≠ rd inst → i ≠ 0 → c1.regs i = cpu.regs i :=
    fun c1 h i hi hi0 => (h i hi).trans (h0 i hi0)
  have hsame : ∀ c1 : CPU, c1.regs = (set_reg cpu 0 0).regs →
      ∀ i, i ≠ rd inst → i ≠ 0 → c1.regs i = cpu.regs i :=
    fun c1 h i _ hi0 => (congrFun h i).trans (h0 i hi0)
  unfold cpu_execute at he
  simp only [] at he
  generalize inst &&& 0x7f = opcode at he
  generalize inst >>> 12 &&& 0x7 = funct3 at he
  generalize inst >>> 25 &&& 0x7f = funct7 at he
  rw [ite_eq_iff] at he
  rcases he with ⟨-, he⟩ | ⟨-, he⟩
  · simp only [brk_ok, exec_LUI, Except.ok.injEq] at he
    obtain ⟨he, _⟩ := he
    subst he
    exact hall _ (fun i hi => by simp only [set_reg, if_neg hi])
  rw [ite_eq_iff] at he
  rcases he with ⟨-, he⟩ | ⟨-, he⟩
  · simp only [brk_ok, exec_AUIPC, Except.ok.injEq] at he
    obtain ⟨he, _⟩ := he
    subst he
    exact hall _ (fun i hi => by simp only [set_reg, if_neg hi])
  rw [ite_eq_iff] at he
  rcases he with ⟨-, he⟩ | ⟨-, he⟩
  · rw [brk_ok] at he
    exact hall _ (exec_JAL_regs _ _ _ he.1)
  rw [ite_eq_iff] at he
  rcases he with ⟨-, he⟩ | ⟨-, he⟩
  · rw [brk_ok] at he
    exact hall _ (exec_JALR_regs _ _ _ he.1)
  rw [ite_eq_iff] at he
  rcases he with ⟨-, he⟩ | ⟨-, he⟩
  · exact hsame _ (execute_B_TYPE_regs _ _ _ _ _ he)
  rw [ite_eq_iff] at he
  rcases he with ⟨-, he⟩ | ⟨-, he⟩
  · exact hall _ (execute_LOAD_regs _ _ _ _ _ he)
  rw [ite_eq_iff] at he
  rcases he with ⟨-, he⟩ | ⟨-, he⟩
  · exact hsame _ (execute_S_TYPE_regs _ _ _ _ _ he)
  rw [ite_eq_iff] at he
  rcases he with ⟨-, he⟩ | ⟨-, he⟩
  · exact hall _ (execute_I_TYPE_regs _ _ _ _ _ _ he)
  rw [ite_eq_iff] at he
  rcases he with ⟨-, he⟩ | ⟨-, he⟩
  · exact hall _ (execute_R_TYPE_regs _ _ _ _ _ _ he)
  rw [ite_eq_iff] at he
  rcases he with ⟨-, he⟩ | ⟨-, he⟩
  · simp only [brk_ok, exec_FENCE, Except.ok.injEq] at he
    obtain ⟨he, _⟩ := he
    subst he
    exact hsame _ rfl
  rw [ite_eq_iff] at he
  rcases he with ⟨-, he⟩ | ⟨-, he⟩
  · exact hall _ (execute_I_TYPE_64_regs _ _ _ _ _ _ he)
  rw [ite_eq_iff] at he
  rcases he with ⟨-, he⟩ | ⟨-, he⟩
  · exact hall _ (execute_R_TYPE_64_regs _ _ _ _ _ _ he)
  rw [ite_eq_iff] at he
  rcases he with ⟨-, he⟩ | ⟨-, he⟩
  · exact hall _ (execute_CSR_regs _ _ _ _ _ he)
  rw [ite_eq_iff] at he
  rcases he with ⟨-, he⟩ | ⟨-, he⟩
  · exact hall _ (execute_AMO_W_regs _ _ _ _ _ he)
  simp only [ite_self, Except.ok.injEq, Prod.mk.injEq] at he
  obtain ⟨he, _⟩ := he
  subst he
  exact hsame _ rfl

/-! ## The loader -/

/-- A 32-byte ELF64 header with `e_machine = 1`, a value outside the cases of
`elf_arch`: the call for the `%s` argument returns without a value. -/
theorem load_elf_unknown_machine :
    load_elf (cpu_init (cpu_of [] 0 []) 0x10000 (fun _ => 0))
      [0x7f, 0x45, 0x4c, 0x46, 2, 1, 1, 0, 0, 0, 0, 0, 0, 0, 0, 0,
       2, 0, 1, 0, 1, 0, 0, 0, 0x78, 0x00, 0x01, 0, 0, 0, 0, 0] = .error .missing_return :=
  rfl

/-- A file without a zero byte in a buffer without a zero byte: the `%s` read of
`e_ident` leaves the buffer. -/
theorem load_elf_unterminated_ident :
    load_elf (cpu_init (cpu_of [] 0 []) 0x10000 (fun _ => 0xFF)) [0x7f, 0x45, 0x4c, 0x46]
      = .error .out_of_bounds := by
  have hd := dram_alloc_data_accept (dram_init 0x10000 (fun _ => 0xFF)) 4
    [0x7f, 0x45, 0x4c, 0x46] (dram_init_wf _ _ (by decide)) (by decide)
  have hscan : ∀ (d : DRAM), (∀ i, d.mem i ≠ 0) → ∀ (fuel i : Nat), i + fuel = DRAM_SIZE + 1 →
      string_read d fuel i = .error .out_of_bounds := by
    intro d hd fuel
    induction fuel with
    | zero =>
      intro i _
      rfl
    | succ f ih =>
      intro i hi
      show (mem_get d i >>= fun b => if b = 0 then pure () else string_read d f (i + 1)) = _
      unfold mem_get
      by_cases hlt : i < DRAM_SIZE
      · rw [if_pos hlt, ok_bind, if_neg (hd i)]
        exact ih (i + 1) (by omega)
      · rw [if_neg hlt, error_bind]
  have hl : ([0x7f, 0x45, 0x4c, 0x46] : List Nat).length % 2 ^ 64 = 4 := by decide
  unfold load_elf
  simp only []
  have hb : (cpu_init (cpu_of [] 0 []) 0x10000 (fun _ => 0xFF)).bus.dram
      = dram_init 0x10000 (fun _ => 0xFF) := rfl
  rw [hb, hl, hd, ok_bind]
  rw [field_u64_ok _ 0x18 (by decide), ok_bind, ok_bind]
  simp only []
  rw [hscan _ _ (DRAM_SIZE + 1) 0 (by omega), error_bind]
  intro i
  show (if (dram_init 0x10000 (fun _ => 0xFF)).alloc_size ≤ i ∧
      i < (dram_init 0x10000 (fun _ => 0xFF)).alloc_size + 4
    then ([0x7f, 0x45, 0x4c, 0x46] : List Nat).getD
      (i - (dram_init 0x10000 (fun _ => 0xFF)).alloc_size) 0 else 0xFF) ≠ 0
  by_cases hi : (dram_init 0x10000 (fun _ => 0xFF)).alloc_size ≤ i ∧
      i < (dram_init 0x10000 (fun _ => 0xFF)).alloc_size + 4
  · rw [if_pos hi]
    have h4 : i < 4 := by
      have := hi.2
      simpa [dram_init] using this
    have e0 : i - (dram_init 0x10000 (fun _ => 0xFF)).alloc_size = i := by
      simp [dram_init]
    rw [e0]
    interval_cases i <;> decide
  · rw [if_neg hi]
    decide

/-! ## The claims -/

/-- Claim C1 (regs[0] is 0 once an instruction has retired) evaluated on the
code: `cpu_execute` of `addi x0, x0, 7` (0x00700013) returns 1 with
`regs[0] = 7`, and `cpu_step_one` on DRAM bytes 0x37, 0x10, which fetches a LUI
word with `rd = 0`, returns 1 with `regs[0] = 0x10101000`. -/
theorem c1_x0_written_at_retirement :
    (∃ c, cpu_execute (cpu_of [] (DRAM_BASE + 4) []) 0x00700013 = .ok (c, 1) ∧
      c.regs 0 = 7) ∧
    (∃ c, cpu_step_one (cpu_of [] DRAM_BASE [0x37, 0x10]) = .ok (c, 1) ∧
      c.regs 0 = 0x10101000) :=
  ⟨⟨_, rfl, rfl⟩, ⟨_, rfl, rfl⟩⟩

/-- Claim C2 (a load after a store of the same width and address returns the
stored value) evaluated on the code: after an accepted 32-bit store of
0xDEADBEEF the 32-bit load returns 0xBEBEBEEF, and after an accepted 64-bit
store of 0x0123456789ABCDEF the 64-bit load returns 0xCDCDCDCDCDCDCDEF. -/
theorem c2_round_trip_32_64 :
    (∃ b, bus_store ⟨dram_of []⟩ DRAM_BASE 32 0xDEADBEEF = .ok b ∧
      bus_load b DRAM_BASE 32 = .ok 0xBEBEBEEF) ∧
    (∃ b, bus_store ⟨dram_of []⟩ DRAM_BASE 64 0x0123456789ABCDEF = .ok b ∧
      bus_load b DRAM_BASE 64 = .ok 0xCDCDCDCDCDCDCDEF) :=
  ⟨⟨_, rfl, rfl⟩, ⟨_, rfl, rfl⟩⟩

/-- Claim C3 (a load returns the little-endian combination of the bytes at the
offset, `cpu_fetch` the little-endian word at `pc`) evaluated on the code: the
bytes 0x93, 0x00, 0x70, 0x00 form the little-endian word 0x00700093, and both
the 32-bit load and `cpu_fetch` return 0x93; the bytes 1 .. 8 form
0x0807060504030201 and the 64-bit load returns 0x0202020202020201. -/
theorem c3_load_32_64_not_little_endian :
    le_value (bytes_mem [0x93, 0x00, 0x70, 0x00]) 0 4 = 0x00700093 ∧
    bus_load ⟨dram_of [0x93, 0x00, 0x70, 0x00]⟩ DRAM_BASE 32 = .ok 0x93 ∧
    cpu_fetch (cpu_of [] DRAM_BASE [0x93, 0x00, 0x70, 0x00]) = .ok 0x93 ∧
    le_value (bytes_mem [1, 2, 3, 4, 5, 6, 7, 8]) 0 8 = 0x0807060504030201 ∧
    bus_load ⟨dram_of [1, 2, 3, 4, 5, 6, 7, 8]⟩ DRAM_BASE 64 = .ok 0x0202020202020201 :=
  ⟨by decide, rfl, rfl, by decide, rfl⟩

/-- Claim C4: a store of width `w` (8, 16, 32 or 64 bits) of the value `v` at a
buffer offset `offset` whose `w / 8` bytes lie inside the DRAM buffer, accepted
by the range check of `dram_write_data`, returns a DRAM whose byte `offset + i`
holds bits `8 i .. 8 i + 7` of `v` for every `i < w / 8`, whose other bytes are
unchanged and whose watermark `alloc_size` (with `alloc_addr` and `mem_addr`)
is unchanged; a store rejected by the range check, at any offset, returns the
DRAM unchanged. -/
theorem c4_store_frame (d : DRAM) (offset w v : Nat)
    (hw : w = 8 ∨ w = 16 ∨ w = 32 ∨ w = 64) :
    (offset + w / 8 ≤ DRAM_SIZE → (offset + w) % 2 ^ 64 ≤ d.alloc_size →
      ∃ d', dram_write_data d offset w v = .ok d' ∧
        (∀ i, i < w / 8 → d'.mem (offset + i) = v / 2 ^ (8 * i) % 256) ∧
        (∀ j, (∀ i, i < w / 8 → j ≠ offset + i) → d'.mem j = d.mem j) ∧
        d'.alloc_size = d.alloc_size ∧ d'.alloc_addr = d.alloc_addr ∧
        d'.mem_addr = d.mem_addr) ∧
    (d.alloc_size < (offset + w) % 2 ^ 64 → dram_write_data d offset w v = .ok d) := by
  constructor
  · intro hbuf hacc
    have hlt : offset < 2 ^ 64 := by unfold DRAM_SIZE at hbuf; omega
    have h0 := sub64_add64_base offset hlt
    have hacc' : ¬ (offset + w) % 2 ^ 64 > d.alloc_size := by omega
    rcases hw with rfl | rfl | rfl | rfl
    · have b0 : offset < DRAM_SIZE := by omega
      simp only [dram_write_data, if_neg hacc', dram_store_8, h0, mem_set, if_pos b0,
        ok_bind]
      refine ⟨_, rfl, ?_, ?_, rfl, rfl, rfl⟩
      · intro i hi
        interval_cases i
        simp [and_ff]
      · intro j hj
        have q0 : j ≠ offset := by simpa using hj 0 (by norm_num)
        simp [q0]
    · have b0 : offset < DRAM_SIZE := by omega
      have b1 : offset + 1 < DRAM_SIZE := by omega
      have e1 := add64_small offset 1 (by unfold DRAM_SIZE at hbuf; omega)
      simp only [dram_write_data, if_neg hacc', dram_store_16, h0, e1, mem_set, if_pos b0, if_pos b1,
        ok_bind]
      refine ⟨_, rfl, ?_, ?_, rfl, rfl, rfl⟩
      · intro i hi
        interval_cases i <;> simp [and_ff, Nat.shiftRight_eq_div_pow]
      · intro j hj
        have q0 : j ≠ offset := by simpa using hj 0 (by norm_num)
        have q1 : j ≠ offset + 1 := hj 1 (by norm_num)
        simp [q0, q1]
    · have b0 : offset < DRAM_SIZE := by omega
      have b1 : offset + 1 < DRAM_SIZE := by omega
      have e1 := add64_small offset 1 (by unfold DRAM_SIZE at hbuf; omega)
      have b2 : offset + 2 < DRAM_SIZE := by omega
      have e2 := add64_small offset 2 (by unfold DRAM_SIZE at hbuf; omega)
      have b3 : offset + 3 < DRAM_SIZE := by omega
      have e3 := add64_small offset 3 (by unfold DRAM_SIZE at hbuf; omega)
      simp only [dram_write_data, if_neg hacc', dram_store_32, h0, e1, e2, e3, mem_set, if_pos b0, if_pos b1, if_pos b2, if_pos b3,
        ok_bind]
      refine ⟨_, rfl, ?_, ?_, rfl, rfl, rfl⟩
      · intro i hi
        interval_cases i <;> simp [and_ff, Nat.shiftRight_eq_div_pow]
      · intro j hj
        have q0 : j ≠ offset := by simpa using hj 0 (by norm_num)
        have q1 : j ≠ offset + 1 := hj 1 (by norm_num)
        have q2 : j ≠ offset + 2 := hj 2 (by norm_num)
        have q3 : j ≠ offset + 3 := hj 3 (by norm_num)
        simp [q0, q1, q2, q3]
    · have b0 : offset < DRAM_SIZE := by omega
      have b1 : offset + 1 < DRAM_SIZE := by omega
      have e1 := add64_small offset 1 (by unfold DRAM_SIZE at hbuf; omega)
      have b2 : offset + 2 < DRAM_SIZE := by omega
      have e2 := add64_small offset 2 (by unfold DRAM_SIZE at hbuf; omega)
      have b3 : offset + 3 < DRAM_SIZE := by omega
      have e3 := add64_small offset 3 (by unfold DRAM_SIZE at hbuf; omega)
      have b4 : offset + 4 < DRAM_SIZE := by omega
      have e4 := add64_small offset 4 (by unfold DRAM_SIZE at hbuf; omega)
      have b5 : offset + 5 < DRAM_SIZE := by omega
      have e5 := add64_small offset 5 (by unfold DRAM_SIZE at hbuf; omega)
      have b6 : offset + 6 < DRAM_SIZE := by omega
      have e6 := add64_small offset 6 (by unfold DRAM_SIZE at hbuf; omega)
      have b7 : offset + 7 < DRAM_SIZE := by omega
      have e7 := add64_small offset 7 (by unfold DRAM_SIZE at hbuf; omega)
      simp only [dram_write_data, if_neg hacc', dram_store_64, h0, e1, e2, e3, e4, e5, e6, e7, mem_set, if_pos b0, if_pos b1, if_pos b2, if_pos b3, if_pos b4, if_pos b5, if_pos b6, if_pos b7,
        ok_bind]
      refine ⟨_, rfl, ?_, ?_, rfl, rfl, rfl⟩
      · intro i hi
        interval_cases i <;> simp [and_ff, Nat.shiftRight_eq_div_pow]
      · intro j hj
        have q0 : j ≠ offset := by simpa using hj 0 (by norm_num)
        have q1 : j ≠ offset + 1 := hj 1 (by norm_num)
        have q2 : j ≠ offset + 2 := hj 2 (by norm_num)
        have q3 : j ≠ offset + 3 := hj 3 (by norm_num)
        have q4 : j ≠ offset + 4 := hj 4 (by norm_num)
        have q5 : j ≠ offset + 5 := hj 5 (by norm_num)
        have q6 : j ≠ offset + 6 := hj 6 (by norm_num)
        have q7 : j ≠ offset + 7 := hj 7 (by norm_num)
        simp [q0, q1, q2, q3, q4, q5, q6, q7]
  · intro hrej
    unfold dram_write_data
    rw [if_pos hrej]

/-- Witness of C4: a 32-bit store at offset 4 of a DRAM with 64 allocated bytes
is accepted, and one at offset 60 is rejected. -/
theorem c4_store_frame_witness :
    (∃ d', dram_write_data (dram_of []) 4 32 0xDEADBEEF = .ok d' ∧
      (∀ i, i < 32 / 8 → d'.mem (4 + i) = 0xDEADBEEF / 2 ^ (8 * i) % 256) ∧
      (∀ j, (∀ i, i < 32 / 8 → j ≠ 4 + i) → d'.mem j = (dram_of []).mem j) ∧
      d'.alloc_size = (dram_of []).alloc_size ∧ d'.alloc_addr = (dram_of []).alloc_addr ∧
      d'.mem_addr = (dram_of []).mem_addr) ∧
    dram_write_data (dram_of []) 60 32 0xDEADBEEF = .ok (dram_of []) :=
  ⟨(c4_store_frame (dram_of []) 4 32 0xDEADBEEF (by decide)).1 (by decide) (by decide),
   (c4_store_frame (dram_of []) 60 32 0xDEADBEEF (by decide)).2 (by decide)⟩

set_option maxRecDepth 8000 in
/-- Claim C5 (SW then LW gives the sign-extended, SW then LWU the
zero-extended low 32 bits of the stored register) evaluated on the code: with
`x1 = 0xDEADBEEF` and `x2 = DRAM_BASE`, `sw x1, 0(x2)` (0x00112023) followed by
`lw x3, 0(x2)` (0x00012183) leaves `x3 = 0xFFFFFFFFBEBEBEEF`, and followed by
`lwu x3, 0(x2)` (0x00016183) leaves `x3 = 0xBEBEBEEF`. -/
theorem c5_sw_then_lw_lwu :
    (∃ c1 c2, cpu_execute (cpu_of [0, 0xDEADBEEF, DRAM_BASE] (DRAM_BASE + 4) []) 0x00112023
        = .ok (c1, 1) ∧
      cpu_execute c1 0x00012183 = .ok (c2, 1) ∧ c2.regs 3 = 0xFFFFFFFFBEBEBEEF) ∧
    (∃ c1 c2, cpu_execute (cpu_of [0, 0xDEADBEEF, DRAM_BASE] (DRAM_BASE + 4) []) 0x00112023
        = .ok (c1, 1) ∧
      cpu_execute c1 0x00016183 = .ok (c2, 1) ∧ c2.regs 3 = 0xBEBEBEEF) :=
  ⟨⟨_, _, rfl, rfl, rfl⟩, ⟨_, _, rfl, rfl, rfl⟩⟩

/-- Claim C6: for an instruction word whose opcode is not JAL, JALR or B_TYPE,
every return of `cpu_execute` leaves `pc` as it found it (no handler outside
the control-flow group writes `pc`), so a `cpu_step_one` that fetched the word
and returned leaves `pc` at the `pc` before the fetch plus 4 modulo `2^64`. -/
theorem c6_pc_advance (cpu : CPU) (inst : Nat)
    (hop : inst &&& 0x7f ≠ JAL ∧ inst &&& 0x7f ≠ JALR ∧ inst &&& 0x7f ≠ B_TYPE) :
    (∀ c r, cpu_execute cpu inst = .ok (c, r) → c.pc = cpu.pc) ∧
    (∀ c r, cpu_fetch cpu = .ok inst → cpu_step_one cpu = .ok (c, r) →
      c.pc = (cpu.pc + 4) % 2 ^ 64) := by
  refine ⟨fun c r he => execute_plain_pc cpu c inst r hop he, fun c r hf he => ?_⟩
  rw [cpu_step_one_eq cpu inst hf] at he
  exact execute_plain_pc (advance cpu) c inst r hop he

/-- Witness of C6: a step that fetches a LUI word at `DRAM_BASE`. -/
theorem c6_pc_advance_witness :
    ∃ c, cpu_step_one (cpu_of [] DRAM_BASE [0x37, 0x10]) = .ok (c, 1) ∧
      c.pc = (DRAM_BASE + 4) % 2 ^ 64 :=
  ⟨_, rfl, (c6_pc_advance (cpu_of [] DRAM_BASE [0x37, 0x10]) 0x10101037
    (by decide)).2 _ 1 rfl rfl⟩

/-- Claim C7: for a B_TYPE word whose `funct3` selects BEQ, BNE, BLT, BGE, BLTU
or BGEU, executed after `pc` was advanced from `p` (as `cpu_step_one` does once
it has fetched the word), the step returns 1; it ends with `pc = p + imm_B`
modulo `2^64` when the branch condition holds on the register operands (equal,
not equal, signed less, signed greater or equal, unsigned less, unsigned
greater or equal; `x0` reads as 0) and with `pc = p + 4` otherwise. -/
theorem c7_branch_pc (cpu : CPU) (inst : Nat)
    (hop : inst &&& 0x7f = B_TYPE)
    (hf3 : (inst >>> 12) &&& 0x7 = BEQ ∨ (inst >>> 12) &&& 0x7 = BNE ∨
      (inst >>> 12) &&& 0x7 = BLT ∨ (inst >>> 12) &&& 0x7 = BGE ∨
      (inst >>> 12) &&& 0x7 = BLTU ∨ (inst >>> 12) &&& 0x7 = BGEU)
    (hregs : ∀ i, cpu.regs i < 2 ^ 64) :
    ∃ c, cpu_execute (advance cpu) inst = .ok (c, 1) ∧
      (cpu_fetch cpu = .ok inst → cpu_step_one cpu = .ok (c, 1)) ∧
      (branch_taken ((inst >>> 12) &&& 0x7) (xreg cpu (rs1 inst)) (xreg cpu (rs2 inst)) →
        c.pc = (cpu.pc + imm_B inst) % 2 ^ 64) ∧
      (¬ branch_taken ((inst >>> 12) &&& 0x7) (xreg cpu (rs1 inst)) (xreg cpu (rs2 inst)) →
        c.pc = (cpu.pc + 4) % 2 ^ 64) := by
  obtain ⟨c, h1, h2, h3⟩ := execute_B_TYPE_branch (set_reg (advance cpu) 0 0) inst
    ((inst >>> 12) &&& 0x7) cpu.pc hf3 (xreg_lt cpu hregs _) (xreg_lt cpu hregs _) rfl
  have he : cpu_execute (advance cpu) inst = .ok (c, 1) := by
    rw [cpu_execute_B_TYPE _ _ hop]
    exact h1
  exact ⟨c, he, fun hf => by rw [cpu_step_one_eq cpu inst hf]; exact he, h2,
    fun hn => h3 hn⟩

/-- Witness of C7: `beq x1, x2, +8` (0x00208463) with `x1 = x2 = 5` and
`pc = DRAM_BASE` ends at `DRAM_BASE + 8`. -/
theorem c7_branch_pc_witness :
    ∃ c, cpu_execute (advance (cpu_of [0, 5, 5] DRAM_BASE [])) 0x00208463 = .ok (c, 1) ∧
      c.pc = DRAM_BASE + 8 := by
  obtain ⟨c, h1, -, h3, -⟩ := c7_branch_pc (cpu_of [0, 5, 5] DRAM_BASE []) 0x00208463
    (by decide) (by decide) (regs_of_lt [0, 5, 5] (by decide))
  exact ⟨c, h1, h3 (by decide)⟩

/-- Claim C8: a JAL word executed after `pc` was advanced from `p` (as
`cpu_step_one` does once it has fetched the word), whose target `p + imm_J` is
4-byte aligned, returns 1 with `pc = p + imm_J` modulo `2^64` and with `p + 4`
in `regs[rd]`. -/
theorem c8_jal_link (cpu : CPU) (inst : Nat)
    (hop : inst &&& 0x7f = JAL)
    (halign : (cpu.pc + imm_J inst) % 2 ^ 64 % 4 = 0) :
    ∃ c, cpu_execute (advance cpu) inst = .ok (c, 1) ∧
      (cpu_fetch cpu = .ok inst → cpu_step_one cpu = .ok (c, 1)) ∧
      c.pc = (cpu.pc + imm_J inst) % 2 ^ 64 ∧
      c.regs (rd inst) = (cpu.pc + 4) % 2 ^ 64 := by
  have hr := exec_JAL_result (set_reg (advance cpu) 0 0) inst cpu.pc rfl
  rw [if_neg (not_not.mpr halign)] at hr
  have he : cpu_execute (advance cpu) inst = .ok
      ({ set_reg (set_reg (advance cpu) 0 0) (rd inst) (set_reg (advance cpu) 0 0).pc with
        pc := (cpu.pc + imm_J inst) % 2 ^ 64 }, 1) := by
    rw [cpu_execute_JAL _ _ hop, hr]
    rfl
  refine ⟨_, he, fun hf => by rw [cpu_step_one_eq cpu inst hf]; exact he, rfl, ?_⟩
  simp [set_reg, advance, add64]

/-- Witness of C8: `jal x1, +16` (0x010000ef) with `pc = DRAM_BASE` gives
`x1 = DRAM_BASE + 4` and `pc = DRAM_BASE + 16`. -/
theorem c8_jal_link_witness :
    ∃ c, cpu_execute (advance (cpu_of [] DRAM_BASE [])) 0x010000ef = .ok (c, 1) ∧
      c.pc = DRAM_BASE + 16 ∧ c.regs 1 = DRAM_BASE + 4 := by
  obtain ⟨c, h1, -, h3, h4⟩ := c8_jal_link (cpu_of [] DRAM_BASE []) 0x010000ef
    (by decide) (by decide)
  exact ⟨c, h1, h3, h4⟩

/-- Claim C9 (JALR sets `pc` to `regs[rs1] + imm_I` with only bit 0 cleared)
evaluated on the code: with `x5 = 0x180000000`, `jalr x1, 0(x5)` (0x000280e7)
executed with `pc = DRAM_BASE + 4` returns 1 with `pc = 0x80000000`, while the
sum `regs[rs1] + imm_I` is 0x180000000; `x1` receives `DRAM_BASE + 4`. -/
theorem c9_jalr_keeps_low_32_bits :
    ∃ c, cpu_execute (cpu_of [0, 0, 0, 0, 0, 0x180000000] (DRAM_BASE + 4) []) 0x000280e7
        = .ok (c, 1) ∧
      c.pc = 0x80000000 ∧ c.regs 1 = DRAM_BASE + 4 ∧
      (0x180000000 + imm_I 0x000280e7) % 2 ^ 64 = 0x180000000 :=
  ⟨_, rfl, rfl, rfl, by decide⟩

/-- Counterexample to C10: with the bytes 0x63, 0x01 at `DRAM_BASE`, the step at
the aligned `pc = DRAM_BASE` executes a taken BEQ with offset 2, returns 1 and
leaves `pc = DRAM_BASE + 2`. -/
theorem c10_taken_branch_misaligned :
    ∃ c, cpu_step_one (cpu_of [] DRAM_BASE [0x63, 0x01]) = .ok (c, 1) ∧
      (cpu_of [] DRAM_BASE [0x63, 0x01]).pc % 4 = 0 ∧ c.pc = DRAM_BASE + 2 ∧
      c.pc % 4 = 2 :=
  ⟨_, rfl, rfl, rfl, rfl⟩

/-- Claim C10, amended: a JAL whose target `p + imm_J` and a JALR whose target
`(regs[rs1] + imm_I)` with bit 0 cleared has a non-zero value in its low two
bits never return: the handler calls `exit(0)`; and a step from a 4-byte
aligned `pc` that returns leaves `pc` 4-byte aligned whenever the word is not a
conditional branch or its offset `imm_B` is a multiple of 4. -/
theorem c10_jump_alignment (cpu : CPU) (inst : Nat) :
    (inst &&& 0x7f = JAL → (cpu.pc + imm_J inst) % 2 ^ 64 % 4 ≠ 0 →
      cpu_execute (advance cpu) inst = .error .exit_0) ∧
    (inst &&& 0x7f = JALR →
      ((xreg cpu (rs1 inst) + imm_I inst) % 2 ^ 64
        - (xreg cpu (rs1 inst) + imm_I inst) % 2 ^ 64 % 2) % 4 ≠ 0 →
      cpu_execute (advance cpu) inst = .error .exit_0) ∧
    (∀ c r, cpu.pc % 4 = 0 → (inst &&& 0x7f ≠ B_TYPE ∨ imm_B inst % 4 = 0) →
      cpu_fetch cpu = .ok inst → cpu_step_one cpu = .ok (c, r) → c.pc % 4 = 0) := by
  refine ⟨fun hj hm => ?_, fun hj hm => ?_, fun c r hp hb hf he => ?_⟩
  · rw [cpu_execute_JAL _ _ hj, exec_JAL_result _ inst cpu.pc rfl, if_pos hm]
    rfl
  · rw [cpu_execute_JALR _ _ hj, exec_JALR_result]
    have hx : (set_reg (advance cpu) 0 0).regs (rs1 inst) = xreg cpu (rs1 inst) := rfl
    rw [hx, if_pos hm]
    rfl
  · rw [cpu_step_one_eq cpu inst hf] at he
    exact execute_aligned (advance cpu) c inst r cpu.pc rfl hp hb he

/-- Witness of C10 as amended: `jal x0, +2` (0x0020006f) at `DRAM_BASE` exits,
`jalr x0, 2(x0)` (0x00200067) exits, and the step fetching a LUI word at
`DRAM_BASE` leaves `pc` aligned. -/
theorem c10_jump_alignment_witness :
    cpu_execute (advance (cpu_of [] DRAM_BASE [])) 0x0020006f = .error .exit_0 ∧
    cpu_execute (advance (cpu_of [] DRAM_BASE [])) 0x00200067 = .error .exit_0 ∧
    (∃ c, cpu_step_one (cpu_of [] DRAM_BASE [0x37, 0x10]) = .ok (c, 1) ∧ c.pc % 4 = 0) :=
  ⟨(c10_jump_alignment (cpu_of [] DRAM_BASE []) 0x0020006f).1 (by decide) (by decide),
   (c10_jump_alignment (cpu_of [] DRAM_BASE []) 0x00200067).2.1 (by decide) (by decide),
   _, rfl, (c10_jump_alignment (cpu_of [] DRAM_BASE [0x37, 0x10]) 0x10101037).2.2 _ 1
     (by decide) (Or.inl (by decide)) rfl rfl⟩

/-- Claim C11 (the value a W-form instruction writes to `rd` has bits 63..32 all
equal to its bit 31) evaluated on `addiw x1, x2, 1` (0x0011009b) with
`x2 = 0x7fffffff`, on `divuw x1, x2, x3` (0x023150bb) with `x2 = 2 ^ 32`,
`x3 = 1`, and on `remuw x1, x2, x3` (0x023170bb) with `x2 = 2 ^ 32`,
`x3 = 2 ^ 33`: `rd` receives 0x80000000, 0x100000000 and 0x100000000, none of
which is the sign extension of its low 32 bits. -/
theorem c11_w_forms_not_sign_extended :
    (∃ c, cpu_execute (cpu_of [0, 0, 0x7fffffff] (DRAM_BASE + 4) []) 0x0011009b = .ok (c, 1) ∧
      c.regs 1 = 0x80000000 ∧ ¬ sign_extended_32 (c.regs 1)) ∧
    (∃ c, cpu_execute (cpu_of [0, 0, 0x100000000, 1] (DRAM_BASE + 4) []) 0x023150bb
        = .ok (c, 1) ∧
      c.regs 1 = 0x100000000 ∧ ¬ sign_extended_32 (c.regs 1)) ∧
    (∃ c, cpu_execute (cpu_of [0, 0, 0x100000000, 0x200000000] (DRAM_BASE + 4) []) 0x023170bb
        = .ok (c, 1) ∧
      c.regs 1 = 0x100000000 ∧ ¬ sign_extended_32 (c.regs 1)) :=
  ⟨⟨_, rfl, rfl, by decide⟩, ⟨_, rfl, rfl, by decide⟩, ⟨_, rfl, rfl, by decide⟩⟩

/-- Counterexample to C12: with the CSR 0x300 holding 0x100000005 and `x2 = 9`,
`csrrw x1, 0x300, x2` (0x300110f3) leaves `x1 = 5`, the low 32 bits of the CSR,
not its full 64-bit value; the CSR receives 9. -/
theorem c12_csrrw_truncates :
    ∃ c, cpu_execute
        { cpu_of [0, 0, 9] (DRAM_BASE + 4) [] with
          csr := fun i => if i = 0x300 then 0x100000005 else 0 } 0x300110f3 = .ok (c, 1) ∧
      c.regs 1 = 5 ∧ c.regs 1 ≠ 0x100000005 ∧ c.csr 0x300 = 9 :=
  ⟨_, rfl, rfl, by decide, rfl⟩

/-- Claim C12, amended: for a CSRRW word whose CSR index is below the size 4069 of
the CSR array and whose `rd` is neither 0 nor `rs1`, `cpu_execute` returns 1,
`rd` holds the low 32 bits, zero-extended, of the value the CSR had before the
instruction, the CSR holds the value `regs[rs1]` had before the instruction
(0 for `rs1 = 0`), and `regs[0]` is 0. -/
theorem c12_csrrw_low_32_bits (cpu : CPU) (inst : Nat)
    (hop : inst &&& 0x7f = CSR) (hf3 : (inst >>> 12) &&& 0x7 = CSRRW)
    (hidx : csr inst < CSR_COUNT) (hrd : rd inst ≠ 0) (hne : rd inst ≠ rs1 inst) :
    ∃ c, cpu_execute cpu inst = .ok (c, 1) ∧
      c.regs (rd inst) = cpu.csr (csr inst) % 2 ^ 32 ∧
      c.csr (csr inst) = xreg cpu (rs1 inst) ∧ c.regs 0 = 0 := by
  have hd : cpu_execute cpu inst = brk (exec_CSRRW (set_reg cpu 0 0) inst) := by
    rw [cpu_execute_CSR _ _ hop, hf3]
    rfl
  rw [hd]
  unfold exec_CSRRW csr_read csr_get csr_write
  simp only [if_pos hidx, ok_bind, pure, Except.pure]
  refine ⟨_, rfl, ?_, ?_, ?_⟩
  · simp only [set_reg, if_true]
  · simp only [set_reg, if_neg (Ne.symm hne), if_true]
    rfl
  · simp only [set_reg, if_neg (Ne.symm hrd), if_true]

/-- Witness of C12 as amended: `csrrw x1, 0x300, x2` (0x300110f3) with the CSR 0x300
holding 0x12345678 and `x2 = 9`. -/
theorem c12_csrrw_low_32_bits_witness :
    ∃ c, cpu_execute
        { cpu_of [0, 0, 9] (DRAM_BASE + 4) [] with
          csr := fun i => if i = 0x300 then 0x12345678 else 0 } 0x300110f3 = .ok (c, 1) ∧
      c.regs 1 = 0x12345678 ∧ c.csr 0x300 = 9 := by
  obtain ⟨c, h1, h2, h3, -⟩ := c12_csrrw_low_32_bits
    { cpu_of [0, 0, 9] (DRAM_BASE + 4) [] with
      csr := fun i => if i = 0x300 then 0x12345678 else 0 } 0x300110f3
    (by decide) (by decide) (by decide) (by decide) (by decide)
  exact ⟨c, h1, h2, h3⟩

/-- Counterexample to C13: on a DRAM with 64 allocated bytes, the 8-bit store at
`DRAM_BASE + 100` has `offset + w / 8 ≤ DRAM_SIZE` and is nevertheless
rejected: the byte at offset 100 keeps its value 0. -/
theorem c13_store_inside_dram_rejected :
    mmu_get_offset 0 (DRAM_BASE + 100) + 8 / 8 ≤ DRAM_SIZE ∧
    ∃ b, bus_store ⟨dram_of []⟩ (DRAM_BASE + 100) 8 0xAB = .ok b ∧ b.dram.mem 100 = 0 :=
  ⟨by decide, _, rfl, rfl⟩

/-- Claim C13, amended: with `offset = addr - DRAM_BASE` and a width `w` of 8, 16,
32 or 64 bits, loads and stores are checked against the same limit
`alloc_size`.  When `offset + w / 8 > alloc_size` (and `offset + w` does not
exceed 64 bits) the access is rejected: `bus_load` returns no value and
`bus_store` leaves the bus unchanged.  When `offset + w ≤ alloc_size`, with
`alloc_size` within the DRAM buffer, the access is performed: `bus_load`
returns a value and `bus_store` writes the low byte of `v` at `offset`. -/
theorem c13_range_checks (bus : BUS) (addr w v : Nat)
    (hw : w = 8 ∨ w = 16 ∨ w = 32 ∨ w = 64) :
    (bus.dram.alloc_size < mmu_get_offset bus.dram.mem_addr addr + w / 8 →
      mmu_get_offset bus.dram.mem_addr addr + w < 2 ^ 64 →
      bus_load bus addr w = .error .missing_return ∧ bus_store bus addr w v = .ok bus) ∧
    (mmu_get_offset bus.dram.mem_addr addr + w ≤ bus.dram.alloc_size →
      bus.dram.alloc_size ≤ DRAM_SIZE →
      (∃ x, bus_load bus addr w = .ok x) ∧
      (∃ b, bus_store bus addr w v = .ok b ∧
        b.dram.mem (mmu_get_offset bus.dram.mem_addr addr) = v % 256)) := by
  have hlt : mmu_get_offset bus.dram.mem_addr addr < 2 ^ 64 := by
    unfold mmu_get_offset sub64
    omega
  constructor
  · intro hout hnw
    have hrej : (mmu_get_offset bus.dram.mem_addr addr + w) % 2 ^ 64 > bus.dram.alloc_size := by
      rcases hw with rfl | rfl | rfl | rfl <;> omega
    constructor
    · unfold bus_load dram_load_data
      rw [if_pos hrej]
    · unfold bus_store dram_write_data
      rw [if_pos hrej]
      rfl
  · intro hin hinv
    have h0 := sub64_add64_base _ hlt
    have hacc : ¬ (mmu_get_offset bus.dram.mem_addr addr + w) % 2 ^ 64 > bus.dram.alloc_size := by
      rcases hw with rfl | rfl | rfl | rfl <;> omega
    have hinv' : bus.dram.alloc_size ≤ 1048576 := hinv
    rcases hw with rfl | rfl | rfl | rfl
    · have b0 : mmu_get_offset bus.dram.mem_addr addr < DRAM_SIZE := by unfold DRAM_SIZE; omega
      constructor
      · simp only [bus_load, dram_load_data, if_neg hacc, dram_load_8, h0, mem_get, if_pos b0,
          ok_bind]
        exact ⟨_, rfl⟩
      · simp only [bus_store, dram_write_data, if_neg hacc, dram_store_8, h0, mem_set, if_pos b0,
          ok_bind]
        refine ⟨_, rfl, ?_⟩
        simp [and_ff]
    · have b0 : mmu_get_offset bus.dram.mem_addr addr < DRAM_SIZE := by unfold DRAM_SIZE; omega
      have b1 : mmu_get_offset bus.dram.mem_addr addr + 1 < DRAM_SIZE := by
        unfold DRAM_SIZE; omega
      have e1 := add64_small (mmu_get_offset bus.dram.mem_addr addr) 1 (by omega)
      constructor
      · simp only [bus_load, dram_load_data, if_neg hacc, dram_load_16, h0, e1, mem_get, if_pos b0, if_pos b1,
          ok_bind]
        exact ⟨_, rfl⟩
      · simp only [bus_store, dram_write_data, if_neg hacc, dram_store_16, h0, e1, mem_set, if_pos b0, if_pos b1,
          ok_bind]
        refine ⟨_, rfl, ?_⟩
        simp [and_ff]
    · have b0 : mmu_get_offset bus.dram.mem_addr addr < DRAM_SIZE := by unfold DRAM_SIZE; omega
      have b1 : mmu_get_offset bus.dram.mem_addr addr + 1 < DRAM_SIZE := by
        unfold DRAM_SIZE; omega
      have e1 := add64_small (mmu_get_offset bus.dram.mem_addr addr) 1 (by omega)
      have b2 : mmu_get_offset bus.dram.mem_addr addr + 2 < DRAM_SIZE := by
        unfold DRAM_SIZE; omega
      have e2 := add64_small (mmu_get_offset bus.dram.mem_addr addr) 2 (by omega)
      have b3 : mmu_get_offset bus.dram.mem_addr addr + 3 < DRAM_SIZE := by
        unfold DRAM_SIZE; omega
      have e3 := add64_small (mmu_get_offset bus.dram.mem_addr addr) 3 (by omega)
      constructor
      · simp only [bus_load, dram_load_data, if_neg hacc, dram_load_32, h0, e1, mem_get, if_pos b0, if_pos b1,
          ok_bind]
        exact ⟨_, rfl⟩
      · simp only [bus_store, dram_write_data, if_neg hacc, dram_store_32, h0, e1, e2, e3, mem_set, if_pos b0, if_pos b1, if_pos b2, if_pos b3,
          ok_bind]
        refine ⟨_, rfl, ?_⟩
        simp [and_ff]
    · have b0 : mmu_get_offset bus.dram.mem_addr addr < DRAM_SIZE := by unfold DRAM_SIZE; omega
      have b1 : mmu_get_offset bus.dram.mem_addr addr + 1 < DRAM_SIZE := by
        unfold DRAM_SIZE; omega
      have e1 := add64_small (mmu_get_offset bus.dram.mem_addr addr) 1 (by omega)
      have b2 : mmu_get_offset bus.dram.mem_addr addr + 2 < DRAM_SIZE := by
        unfold DRAM_SIZE; omega
      have e2 := add64_small (mmu_get_offset bus.dram.mem_addr addr) 2 (by omega)
      have b3 : mmu_get_offset bus.dram.mem_addr addr + 3 < DRAM_SIZE := by
        unfold DRAM_SIZE; omega
      have e3 := add64_small (mmu_get_offset bus.dram.mem_addr addr) 3 (by omega)
      have b4 : mmu_get_offset bus.dram.mem_addr addr + 4 < DRAM_SIZE := by
        unfold DRAM_SIZE; omega
      have e4 := add64_small (mmu_get_offset bus.dram.mem_addr addr) 4 (by omega)
      have b5 : mmu_get_offset bus.dram.mem_addr addr + 5 < DRAM_SIZE := by
        unfold DRAM_SIZE; omega
      have e5 := add64_small (mmu_get_offset bus.dram.mem_addr addr) 5 (by omega)
      have b6 : mmu_get_offset bus.dram.mem_addr addr + 6 < DRAM_SIZE := by
        unfold DRAM_SIZE; omega
      have e6 := add64_small (mmu_get_offset bus.dram.mem_addr addr) 6 (by omega)
      have b7 : mmu_get_offset bus.dram.mem_addr addr + 7 < DRAM_SIZE := by
        unfold DRAM_SIZE; omega
      have e7 := add64_small (mmu_get_offset bus.dram.mem_addr addr) 7 (by omega)
      constructor
      · simp only [bus_load, dram_load_data, if_neg hacc, dram_load_64, h0, e1, mem_get, if_pos b0, if_pos b1,
          ok_bind]
        exact ⟨_, rfl⟩
      · simp only [bus_store, dram_write_data, if_neg hacc, dram_store_64, h0, e1, e2, e3, e4, e5, e6, e7, mem_set, if_pos b0, if_pos b1, if_pos b2, if_pos b3, if_pos b4, if_pos b5, if_pos b6, if_pos b7,
          ok_bind]
        refine ⟨_, rfl, ?_⟩
        simp [and_ff]

/-- Witness of C13 as amended: on a DRAM with 64 allocated bytes the 64-bit
accesses at offset 60 are rejected and the 32-bit accesses at offset 0 are
performed. -/
theorem c13_range_checks_witness :
    (bus_load ⟨dram_of [1, 2, 3, 4]⟩ (DRAM_BASE + 60) 64 = .error .missing_return ∧
      bus_store ⟨dram_of [1, 2, 3, 4]⟩ (DRAM_BASE + 60) 64 0xAB = .ok ⟨dram_of [1, 2, 3, 4]⟩) ∧
    ((∃ x, bus_load ⟨dram_of [1, 2, 3, 4]⟩ DRAM_BASE 32 = .ok x) ∧
      (∃ b, bus_store ⟨dram_of [1, 2, 3, 4]⟩ DRAM_BASE 32 0xAABBCCDD = .ok b ∧
        b.dram.mem 0 = 0xDD)) :=
  ⟨(c13_range_checks ⟨dram_of [1, 2, 3, 4]⟩ (DRAM_BASE + 60) 64 0xAB (by decide)).1
      (by decide) (by decide),
   (c13_range_checks ⟨dram_of [1, 2, 3, 4]⟩ DRAM_BASE 32 0xAABBCCDD (by decide)).2
      (by decide) (by decide)⟩

set_option maxRecDepth 8000 in
/-- Counterexample to C14: `sd x1, 0(x2)` (0x00113023) with
`x2 = DRAM_BASE + DRAM_SIZE` computes an offset outside DRAM, and
`cpu_execute` returns 1, not the stop code 0. -/
theorem c14_store_outside_dram_continues :
    DRAM_SIZE ≤ mmu_get_offset 0 (DRAM_BASE + DRAM_SIZE) ∧
    ∃ c, cpu_execute (cpu_of [0, 0xAB, DRAM_BASE + DRAM_SIZE] (DRAM_BASE + 4) []) 0x00113023
      = .ok (c, 1) :=
  ⟨by decide, _, rfl⟩

/-- Claim C14, amended: when a store instruction SB, SH, SW or SD of width `w`
bits computes an effective address `regs[rs1] + imm_S` whose offset fails the
range check of `dram_write_data` (`offset + w > alloc_size` in 64-bit
arithmetic), the store is skipped and `cpu_execute` returns 1, "continue",
with registers (apart from `regs[0] = 0`), `pc`, CSRs and DRAM unchanged. -/
theorem c14_rejected_store (cpu : CPU) (inst w : Nat)
    (hop : inst &&& 0x7f = S_TYPE)
    (hf3 : ((inst >>> 12) &&& 0x7 = SB ∧ w = 8) ∨ ((inst >>> 12) &&& 0x7 = SH ∧ w = 16) ∨
      ((inst >>> 12) &&& 0x7 = SW ∧ w = 32) ∨ ((inst >>> 12) &&& 0x7 = SD ∧ w = 64))
    (hrej : cpu.bus.dram.alloc_size <
      (mmu_get_offset cpu.bus.dram.mem_addr (add64 (xreg cpu (rs1 inst)) (imm_S inst)) + w)
        % 2 ^ 64) :
    cpu_execute cpu inst = .ok (set_reg cpu 0 0, 1) := by
  have ha : add64 ((set_reg cpu 0 0).regs (rs1 inst)) (to_u64 (to_i64 (imm_S inst)))
      = add64 (xreg cpu (rs1 inst)) (imm_S inst) := by
    rw [add64_to_u64_to_i64]
    rfl
  have hst : ∀ v, cpu_store (set_reg cpu 0 0) (add64 (xreg cpu (rs1 inst)) (imm_S inst)) w v
      = .ok (set_reg cpu 0 0) := by
    intro v
    unfold cpu_store bus_store dram_write_data
    have hb : (set_reg cpu 0 0).bus = cpu.bus := rfl
    rw [hb, if_pos hrej]
    rfl
  rw [cpu_execute_S_TYPE _ _ hop]
  rcases hf3 with ⟨h, rfl⟩ | ⟨h, rfl⟩ | ⟨h, rfl⟩ | ⟨h, rfl⟩
  · rw [h]
    show brk (exec_SB (set_reg cpu 0 0) inst) = _
    unfold exec_SB
    simp only [ha, hst]
    rfl
  · rw [h]
    show brk (exec_SH (set_reg cpu 0 0) inst) = _
    unfold exec_SH
    simp only [ha, hst]
    rfl
  · rw [h]
    show brk (exec_SW (set_reg cpu 0 0) inst) = _
    unfold exec_SW
    simp only [ha, hst]
    rfl
  · rw [h]
    show brk (exec_SD (set_reg cpu 0 0) inst) = _
    unfold exec_SD
    simp only [ha, hst]
    rfl

set_option maxRecDepth 8000 in
/-- Witness of C14 as amended: `sd x1, 0(x2)` (0x00113023) with
`x2 = DRAM_BASE + DRAM_SIZE`. -/
theorem c14_rejected_store_witness :
    cpu_execute (cpu_of [0, 0xAB, DRAM_BASE + DRAM_SIZE] (DRAM_BASE + 4) []) 0x00113023
      = .ok (set_reg (cpu_of [0, 0xAB, DRAM_BASE + DRAM_SIZE] (DRAM_BASE + 4) []) 0 0, 1) :=
  c14_rejected_store (cpu_of [0, 0xAB, DRAM_BASE + DRAM_SIZE] (DRAM_BASE + 4) []) 0x00113023 64
    (by decide) (Or.inr (Or.inr (Or.inr ⟨by decide, rfl⟩))) (by decide)

/-- Claim C15 (a word whose opcode, funct3 and funct7 select no implemented
instruction makes `cpu_execute` return the stop code 0) evaluated on the
claim's examples: B_TYPE with funct3 = 2 (0x00002063), LOAD with funct3 = 7
(0x00007003) and R_TYPE with funct3 = 0, funct7 = 1 (0x02000033) return 1;
0xFFFFFFFF returns 0. -/
theorem c15_unknown_funct_continues :
    (∃ c, cpu_execute (cpu_of [] (DRAM_BASE + 4) []) 0x00002063 = .ok (c, 1)) ∧
    (∃ c, cpu_execute (cpu_of [] (DRAM_BASE + 4) []) 0x00007003 = .ok (c, 1)) ∧
    (∃ c, cpu_execute (cpu_of [] (DRAM_BASE + 4) []) 0x02000033 = .ok (c, 1)) ∧
    (∃ c, cpu_execute (cpu_of [] (DRAM_BASE + 4) []) 0xFFFFFFFF = .ok (c, 0)) :=
  ⟨⟨_, rfl⟩, ⟨_, rfl⟩, ⟨_, rfl⟩, ⟨_, rfl⟩⟩

/-- Counterexample to C16: `cpu_execute` of ECALL (0x00000073) and of EBREAK
(0x00100073) returns 1, not the stop code 0. -/
theorem c16_ecall_continues :
    (∃ c, cpu_execute (cpu_of [] (DRAM_BASE + 4) []) 0x00000073 = .ok (c, 1)) ∧
    (∃ c, cpu_execute (cpu_of [] (DRAM_BASE + 4) []) 0x00100073 = .ok (c, 1)) :=
  ⟨⟨_, rfl⟩, ⟨_, rfl⟩⟩

/-- Claim C16, amended: ECALL (0x00000073) and EBREAK (0x00100073) are accepted and
do nothing: `cpu_execute` returns 1, "continue", with only `regs[0]` set to 0,
and a `cpu_step` of one instruction that fetches either word returns 1 with
`pc` advanced by 4 (when the new `pc` is not 0). -/
theorem c16_ecall_ebreak_continue (cpu : CPU) (fuel : Nat) :
    cpu_execute cpu 0x00000073 = .ok (set_reg cpu 0 0, 1) ∧
    cpu_execute cpu 0x00100073 = .ok (set_reg cpu 0 0, 1) ∧
    ((cpu_fetch cpu = .ok 0x00000073 ∨ cpu_fetch cpu = .ok 0x00100073) → add64 cpu.pc 4 ≠ 0 →
      cpu_step fuel cpu 1 = .ok (some (set_reg (advance cpu) 0 0, 1))) := by
  refine ⟨rfl, rfl, fun hf hpc => ?_⟩
  have hs : cpu_step_one cpu = .ok (set_reg (advance cpu) 0 0, 1) := by
    rcases hf with hf | hf
    · rw [cpu_step_one_eq cpu _ hf]
      rfl
    · rw [cpu_step_one_eq cpu _ hf]
      rfl
  show cpu_step_body cpu (cpu_step_for 0) = _
  rw [cpu_step_body_continue cpu _ 1 _ hs (by decide) hpc]
  rfl

/-- Witness of C16 as amended: one step from `DRAM_BASE` where the fetch returns
the ECALL word 0x00000073. -/
theorem c16_ecall_ebreak_continue_witness :
    cpu_step 0 (cpu_of [] DRAM_BASE [0x73]) 1
      = .ok (some (set_reg (advance (cpu_of [] DRAM_BASE [0x73])) 0 0, 1)) :=
  (c16_ecall_ebreak_continue (cpu_of [] DRAM_BASE [0x73]) 0).2.2 (Or.inl rfl) (by decide)

/-- Claim C17: let the first `k` instructions from `cpu` continue (each returns a
non-zero code and leaves `pc ≠ 0`), reaching `c1`, and let the next
instruction, taking `c1` to `c`, return 0 or leave `pc = 0`.  Then `cpu_step`
in run mode (`step < 0`, for every fuel above `k`) and in counted mode (when
`k` is below `MIN(MAX_CPU_STEP, step)`) returns 0 in the state `c`, which is
the state after exactly `k + 1` instructions: no later instruction is retired.
Moreover `cpu_execute` of the word 0x00000000 returns 0 with the registers
`x1..x31`, the CSRs and the bus unchanged. -/
theorem c17_step_stops_at_first_halt (cpu c1 c : CPU) (r k fuel : Nat) (step : Int)
    (hk : continued k cpu = some c1) (hs : cpu_step_one c1 = .ok (c, r))
    (hstop : r = 0 ∨ c.pc = 0) :
    (step < 0 → k < fuel → cpu_step fuel cpu step = .ok (some (c, 0))) ∧
    (0 ≤ step → (k : Int) < MIN MAX_CPU_STEP step →
      cpu_step fuel cpu step = .ok (some (c, 0))) ∧
    retired (k + 1) cpu = .ok c ∧
    (∀ cpu0 : CPU, ∃ c0, cpu_execute cpu0 0x00000000 = .ok (c0, 0) ∧
      (∀ i, i ≠ 0 → c0.regs i = cpu0.regs i) ∧ c0.csr = cpu0.csr ∧ c0.bus = cpu0.bus) := by
  refine ⟨fun hneg hf => ?_, fun hpos hlt => ?_, retired_continued k cpu c1 c r hk hs,
    fun cpu0 => ⟨set_reg cpu0 0 0, rfl, fun i hi => ?_, rfl, rfl⟩⟩
  · unfold cpu_step
    rw [if_pos hneg]
    exact cpu_step_while_stop k fuel cpu c1 c r hk hs hstop hf
  · unfold cpu_step
    rw [if_neg (by omega)]
    exact cpu_step_for_stop k _ cpu c1 c r hk hs hstop (by omega)
  · show (if i = 0 then 0 else cpu0.regs i) = cpu0.regs i
    rw [if_neg hi]

/-- Witness of C17: from `DRAM_BASE` with the bytes 0x13, 0x01 the first fetch
returns `addi x2, x2, 16` (0x01010113) and the second the word 0; run mode
and a counted `cpu_step` of 5 both return 0 with `x2 = 16` and
`pc = DRAM_BASE + 8`. -/
theorem c17_step_stops_at_first_halt_witness :
    (∃ c, cpu_step 2 (cpu_of [] DRAM_BASE [0x13, 0x01]) (-1) = .ok (some (c, 0)) ∧
      c.regs 2 = 16 ∧ c.pc = DRAM_BASE + 8) ∧
    (∃ c, cpu_step 0 (cpu_of [] DRAM_BASE [0x13, 0x01]) 5 = .ok (some (c, 0)) ∧
      c.regs 2 = 16 ∧ c.pc = DRAM_BASE + 8) :=
  ⟨⟨_, (c17_step_stops_at_first_halt (cpu_of [] DRAM_BASE [0x13, 0x01]) _ _ 0 1 2 (-1)
      rfl rfl (Or.inl rfl)).1 (by decide) (by decide), rfl, rfl⟩,
   ⟨_, (c17_step_stops_at_first_halt (cpu_of [] DRAM_BASE [0x13, 0x01]) _ _ 0 1 0 5
      rfl rfl (Or.inl rfl)).2.1 (by decide) (by decide), rfl, rfl⟩⟩

/-- Claim C18: for `N ≥ 0`, a result of `cpu_step(cpu, N)` is the state after `k`
instructions for some `k ≤ min(N, 10)`, and the call never runs out of loop
iterations; when `min(N, 10)` instructions from `cpu` continue (each returns a
non-zero code and leaves `pc ≠ 0`) the call returns 1 in the state after
exactly `min(N, 10)` instructions; `cpu_step(cpu, 0)` returns 1 and leaves the
state unchanged. -/
theorem c18_step_count_capped (cpu : CPU) (fuel : Nat) (N : Int) (hN : 0 ≤ N) :
    (∀ c r, cpu_step fuel cpu N = .ok (some (c, r)) →
      ∃ k : Nat, (k : Int) ≤ min N 10 ∧ retired k cpu = .ok c) ∧
    (∀ c, continued (min N 10).toNat cpu = some c →
      cpu_step fuel cpu N = .ok (some (c, 1)) ∧ retired (min N 10).toNat cpu = .ok c) ∧
    (N = 0 → cpu_step fuel cpu N = .ok (some (cpu, 1))) ∧
    cpu_step fuel cpu N ≠ .ok none := by
  have hstep : cpu_step fuel cpu N = cpu_step_for (min N 10).toNat cpu := by
    unfold cpu_step
    rw [if_neg (by omega), MIN_MAX_CPU_STEP]
  refine ⟨fun c r h => ?_, fun c h => ⟨?_, ?_⟩, fun h0 => ?_, ?_⟩
  · rw [hstep] at h
    obtain ⟨k, hk, hr⟩ := cpu_step_for_retired _ cpu c r h
    exact ⟨k, by omega, hr⟩
  · rw [hstep]
    exact cpu_step_for_continued _ cpu c h
  · exact retired_of_continued _ cpu c h
  · rw [hstep, h0]
    rfl
  · rw [hstep]
    exact cpu_step_for_ne_none _ cpu

/-- Witness of C18: from `DRAM_BASE` with the bytes 0x13, 0x01 (the fetch returns
`addi x2, x2, 16`), `cpu_step` of 1 retires one instruction and returns 1, and
`cpu_step` of 0 returns 1 in the unchanged state. -/
theorem c18_step_count_capped_witness :
    (∃ c, cpu_step 0 (cpu_of [] DRAM_BASE [0x13, 0x01]) 1 = .ok (some (c, 1)) ∧
      retired 1 (cpu_of [] DRAM_BASE [0x13, 0x01]) = .ok c ∧ c.regs 2 = 16) ∧
    cpu_step 0 (cpu_of [] DRAM_BASE [0x13, 0x01]) 0
      = .ok (some (cpu_of [] DRAM_BASE [0x13, 0x01], 1)) :=
  have h := c18_step_count_capped (cpu_of [] DRAM_BASE [0x13, 0x01]) 0
  ⟨⟨_, ((h 1 (by decide)).2.1 _ rfl).1, ((h 1 (by decide)).2.1 _ rfl).2, rfl⟩,
   (h 0 (by decide)).2.2.1 rfl⟩

/-- Claim C19: for an ADDI word (opcode I_TYPE, funct3 = 0) with `rd ≠ 0`,
`cpu_execute` returns 1, "continue", with
`regs[rd] = (regs[rs1] + sign_extend(inst[31:20])) mod 2 ^ 64` (`x0` reading
as 0), every other register among `x1..x31` unchanged, `regs[0] = 0`, and
`pc`, CSRs and DRAM unchanged. -/
theorem c19_addi (cpu : CPU) (inst : Nat)
    (hop : inst &&& 0x7f = I_TYPE) (hf3 : (inst >>> 12) &&& 0x7 = ADDI) (hrd : rd inst ≠ 0) :
    ∃ c, cpu_execute cpu inst = .ok (c, 1) ∧
      c.regs (rd inst)
        = (xreg cpu (rs1 inst) + sign_extend_12 (inst / 2 ^ 20 % 2 ^ 12)) % 2 ^ 64 ∧
      (∀ i, i ≠ rd inst → i ≠ 0 → c.regs i = cpu.regs i) ∧ c.regs 0 = 0 ∧
      c.pc = cpu.pc ∧ c.csr = cpu.csr ∧ c.bus = cpu.bus := by
  have hd : cpu_execute cpu inst = brk (exec_ADDI (set_reg cpu 0 0) inst) := by
    rw [cpu_execute_I_TYPE _ _ hop, hf3]
    rfl
  refine ⟨_, hd, ?_, ?_, ?_, rfl, rfl, rfl⟩
  · simp only [set_reg, if_true]
    rw [add64_to_u64_to_i64, imm_I_eq]
    rfl
  · intro i hi h0
    simp only [set_reg, if_neg hi, if_neg h0]
  · simp only [set_reg, if_neg (Ne.symm hrd), if_true]

/-- Witness of C19: `addi x1, x0, 7` (0x00700093) gives `x1 = 7`. -/
theorem c19_addi_witness :
    ∃ c, cpu_execute (cpu_of [] (DRAM_BASE + 4) []) 0x00700093 = .ok (c, 1) ∧ c.regs 1 = 7 := by
  obtain ⟨c, h1, h2, -⟩ := c19_addi (cpu_of [] (DRAM_BASE + 4) []) 0x00700093
    (by decide) (by decide) (by decide)
  exact ⟨c, h1, h2⟩

/-- Claim C20 (ADD leaves `regs[rd] = old regs[rs1] + old regs[rs2]`, also for
`rd = rs1` or `rd = rs2`) evaluated on `add x1, x1, x2` (0x002080b3) with
`x1 = 7`, `x2 = 1`, which leaves `x1 = 9` instead of 8, and on
`add x1, x1, x1` (0x001080b3) with `x1 = 7`, which leaves `x1 = 28` instead of
14; the example `add x2, x1, x1` (0x00108133) with `x1 = 7` gives `x2 = 14`. -/
theorem c20_add_runs_twice :
    (∃ c, cpu_execute (cpu_of [0, 7, 1] (DRAM_BASE + 4) []) 0x002080b3 = .ok (c, 1) ∧
      c.regs 1 = 9) ∧
    (∃ c, cpu_execute (cpu_of [0, 7] (DRAM_BASE + 4) []) 0x001080b3 = .ok (c, 1) ∧
      c.regs 1 = 28) ∧
    (∃ c, cpu_execute (cpu_of [0, 7] (DRAM_BASE + 4) []) 0x00108133 = .ok (c, 1) ∧
      c.regs 2 = 14) :=
  ⟨⟨_, rfl, rfl⟩, ⟨_, rfl, rfl⟩, ⟨_, rfl, rfl⟩⟩

/-- Claim C21 (SUB leaves `regs[rd] = old regs[rs1] - old regs[rs2]` modulo
`2 ^ 64`) evaluated on `sub x3, x1, x2` (0x402081b3) with `x1 = 10`, `x2 = 3`:
`x3` receives the sum 13, not the difference 7. -/
theorem c21_sub_adds :
    ∃ c, cpu_execute (cpu_of [0, 10, 3] (DRAM_BASE + 4) []) 0x402081b3 = .ok (c, 1) ∧
      c.regs 3 = 13 ∧ c.regs 3 ≠ sub64 10 3 :=
  ⟨_, rfl, rfl, by decide⟩

/-- Claim C22 (SLTI and SLT compare as signed 64-bit integers) evaluated on
`slti x1, x2, 0` (0x00012093) with `x2 = 2 ^ 64 - 1`, which leaves `x1 = 0`
although -1 is below 0; on `slti x1, x2, -1` (0xfff12093) with `x2 = 1`, which
leaves `x1 = 1` although 1 is not below -1; and on `slt x1, x2, x3`
(0x003120b3) with `x2 = 2 ^ 64 - 1`, `x3 = 0`, which leaves `x1 = 0`. -/
theorem c22_slti_slt_unsigned :
    (∃ c, cpu_execute (cpu_of [0, 5, 0xFFFFFFFFFFFFFFFF] (DRAM_BASE + 4) []) 0x00012093
        = .ok (c, 1) ∧ c.regs 1 = 0 ∧ to_i64 0xFFFFFFFFFFFFFFFF < to_i64 (imm_I 0x00012093)) ∧
    (∃ c, cpu_execute (cpu_of [0, 5, 1] (DRAM_BASE + 4) []) 0xfff12093
        = .ok (c, 1) ∧ c.regs 1 = 1 ∧ ¬ to_i64 1 < to_i64 (imm_I 0xfff12093)) ∧
    (∃ c, cpu_execute (cpu_of [0, 5, 0xFFFFFFFFFFFFFFFF, 0] (DRAM_BASE + 4) []) 0x003120b3
        = .ok (c, 1) ∧ c.regs 1 = 0 ∧ to_i64 0xFFFFFFFFFFFFFFFF < to_i64 0) :=
  ⟨⟨_, rfl, rfl, by decide⟩, ⟨_, rfl, rfl, by decide⟩, ⟨_, rfl, rfl, by decide⟩⟩

/-- Claim C23: for every instruction word, `imm_I` is the 12-bit field
`inst[31:20]` sign-extended to 64 bits, and `imm_S` is the 12-bit value made of
`inst[31:25]` (high 7 bits) and `inst[11:7]` (low 5 bits) sign-extended to 64
bits. -/
theorem c23_imm_I_imm_S (inst : Nat) :
    imm_I inst = sign_extend 12 (bits inst 31 20) ∧
    imm_S inst = sign_extend 12 (bits inst 31 25 * 2 ^ 5 + bits inst 11 7) :=
  ⟨imm_I_eq inst, imm_S_eq inst⟩

/-- Claim C24: for every instruction word, `imm_B` is the 13-bit value
`{inst[31], inst[7], inst[30:25], inst[11:8], 0}` sign-extended to 64 bits and
`imm_J` is the 21-bit value `{inst[31], inst[19:12], inst[20], inst[30:21], 0}`
sign-extended to 64 bits; both are even, and read as signed 64-bit values
`imm_B` lies in `[-4096, 4094]` and `imm_J` in `[-2^20, 2^20 - 2]`. -/
theorem c24_imm_B_imm_J (inst : Nat) :
    imm_B inst = sign_extend 13
      (bits inst 31 31 * 2 ^ 12 + bits inst 7 7 * 2 ^ 11 + bits inst 30 25 * 2 ^ 5
        + bits inst 11 8 * 2) ∧
    imm_J inst = sign_extend 21
      (bits inst 31 31 * 2 ^ 20 + bits inst 19 12 * 2 ^ 12 + bits inst 20 20 * 2 ^ 11
        + bits inst 30 21 * 2) ∧
    imm_B inst % 2 = 0 ∧ imm_J inst % 2 = 0 ∧
    -4096 ≤ to_i64 (imm_B inst) ∧ to_i64 (imm_B inst) ≤ 4094 ∧
    -2 ^ 20 ≤ to_i64 (imm_J inst) ∧ to_i64 (imm_J inst) ≤ 2 ^ 20 - 2 := by
  have hB := imm_B_value inst
  have hJ := imm_J_value inst
  have b31 : bits inst 31 31 < 2 := bits_lt inst 31 31
  have b7 : bits inst 7 7 < 2 := bits_lt inst 7 7
  have b30 : bits inst 30 25 < 2 ^ 6 := bits_lt inst 30 25
  have b11 : bits inst 11 8 < 2 ^ 4 := bits_lt inst 11 8
  have b19 : bits inst 19 12 < 2 ^ 8 := bits_lt inst 19 12
  have b20 : bits inst 20 20 < 2 := bits_lt inst 20 20
  have b21 : bits inst 30 21 < 2 ^ 10 := bits_lt inst 30 21
  generalize bits inst 31 31 = s at hB hJ b31
  generalize bits inst 7 7 = a at hB b7
  generalize bits inst 30 25 = b at hB b30
  generalize bits inst 11 8 = c at hB b11
  generalize bits inst 19 12 = d at hJ b19
  generalize bits inst 20 20 = e at hJ b20
  generalize bits inst 30 21 = f at hJ b21
  generalize imm_B inst = B at hB
  generalize imm_J inst = J at hJ
  have s13 : sign_extend 13 (s * 2 ^ 12 + a * 2 ^ 11 + b * 2 ^ 5 + c * 2)
      = if (s * 2 ^ 12 + a * 2 ^ 11 + b * 2 ^ 5 + c * 2) % 2 ^ 13 < 2 ^ 12 then
          (s * 2 ^ 12 + a * 2 ^ 11 + b * 2 ^ 5 + c * 2) % 2 ^ 13
        else (s * 2 ^ 12 + a * 2 ^ 11 + b * 2 ^ 5 + c * 2) % 2 ^ 13 + (2 ^ 64 - 2 ^ 13) := rfl
  have s21 : sign_extend 21 (s * 2 ^ 20 + d * 2 ^ 12 + e * 2 ^ 11 + f * 2)
      = if (s * 2 ^ 20 + d * 2 ^ 12 + e * 2 ^ 11 + f * 2) % 2 ^ 21 < 2 ^ 20 then
          (s * 2 ^ 20 + d * 2 ^ 12 + e * 2 ^ 11 + f * 2) % 2 ^ 21
        else (s * 2 ^ 20 + d * 2 ^ 12 + e * 2 ^ 11 + f * 2) % 2 ^ 21 + (2 ^ 64 - 2 ^ 21) := rfl
  rw [s13, s21]
  unfold to_i64
  refine ⟨?_, ?_, ?_, ?_, ?_, ?_, ?_, ?_⟩ <;>
    (split at hB <;> split at hJ <;> (try split) <;> omega)

/-- Claim C25 (AUIPC fetched at `p` gives `rd = p + imm_U` with the low 12 bits of
`imm_U` zero) evaluated on `auipc x1, 0` (0x00000097): `imm_U` is 0x91, and
both `cpu_execute` after the increment of `pc` and the step fetching the word
at `DRAM_BASE` leave `x1 = DRAM_BASE + 0x91`, not `DRAM_BASE`. -/
theorem c25_auipc_low_bits :
    imm_U 0x00000097 = 0x91 ∧
    (∃ c, cpu_execute (advance (cpu_of [] DRAM_BASE [])) 0x00000097 = .ok (c, 1) ∧
      c.regs 1 = DRAM_BASE + 0x91) ∧
    (∃ c, cpu_step_one (cpu_of [] DRAM_BASE [0x97]) = .ok (c, 1) ∧
      c.regs 1 = DRAM_BASE + 0x91) :=
  ⟨by decide, ⟨_, rfl, rfl⟩, ⟨_, rfl, rfl⟩⟩

/-- Claim C26: for a LUI word with `rd ≠ 0`, `cpu_execute` returns 1 with `rd`
holding the 32-bit value `inst & 0xFFFFF000` (the field `inst[31:12]` shifted
left by 12) sign-extended to 64 bits: its low 12 bits are zero, its bit 31 is
`inst[31]` and its bits 63..32 equal its bit 31.  Every other register among
`x1..x31` is unchanged, `regs[0]` is 0, and `pc`, CSRs and DRAM are unchanged. -/
theorem c26_lui (cpu : CPU) (inst : Nat) (hop : inst &&& 0x7f = LUI) (hrd : rd inst ≠ 0) :
    ∃ c, cpu_execute cpu inst = .ok (c, 1) ∧
      c.regs (rd inst) = sign_extend 32 (bits inst 31 12 * 2 ^ 12) ∧
      c.regs (rd inst) % 2 ^ 12 = 0 ∧ c.regs (rd inst) / 2 ^ 31 % 2 = bits inst 31 31 ∧
      sign_extended_32 (c.regs (rd inst)) ∧
      (∀ i, i ≠ rd inst → i ≠ 0 → c.regs i = cpu.regs i) ∧ c.regs 0 = 0 ∧
      c.pc = cpu.pc ∧ c.csr = cpu.csr ∧ c.bus = cpu.bus := by
  have hv : (set_reg (set_reg cpu 0 0) (rd inst) (to_u64 (to_i32 (inst &&& 0xfffff000)))).regs
      (rd inst) = sign_extend 32 (bits inst 31 12 * 2 ^ 12) := by
    simp only [set_reg, if_true]
    exact lui_value inst
  have hs : sign_extend 32 (bits inst 31 12 * 2 ^ 12)
      = if (bits inst 31 12 * 2 ^ 12) % 2 ^ 32 < 2 ^ 31 then (bits inst 31 12 * 2 ^ 12) % 2 ^ 32
        else (bits inst 31 12 * 2 ^ 12) % 2 ^ 32 + (2 ^ 64 - 2 ^ 32) := rfl
  have hy : bits inst 31 12 < 2 ^ 20 := bits_lt inst 31 12
  have h31 : bits inst 31 31 = bits inst 31 12 / 2 ^ 19 := by
    unfold bits
    omega
  refine ⟨_, cpu_execute_LUI cpu inst hop, hv, ?_, ?_, ?_, ?_, ?_, rfl, rfl, rfl⟩
  · rw [hv, hs]
    split <;> omega
  · rw [hv, hs, h31]
    split <;> omega
  · unfold sign_extended_32
    rw [hv, hs]
    split <;> split <;> omega
  · intro i hi h0
    simp only [set_reg, if_neg hi, if_neg h0]
  · simp only [set_reg, if_neg (Ne.symm hrd), if_true]

/-- Witness of C26: `lui x5, 0x80000` (0x800002b7) gives `x5 = 0xFFFFFFFF80000000`. -/
theorem c26_lui_witness :
    ∃ c, cpu_execute (cpu_of [] (DRAM_BASE + 4) []) 0x800002b7 = .ok (c, 1) ∧
      c.regs 5 = 0xFFFFFFFF80000000 := by
  obtain ⟨c, h1, h2, -⟩ := c26_lui (cpu_of [] (DRAM_BASE + 4) []) 0x800002b7
    (by decide) (by decide)
  exact ⟨c, h1, h2⟩

/-- Claim C27 (every 12-bit CSR index addresses an existing entry of the CSR
array) evaluated on `csrrw x1, 0xfff, x2` (0xfff110f3) and
`csrrw x1, 0xfe5, x2` (0xfe5110f3): the decoded indices 4095 and 4069 are not
below the 4069 elements of the array, and the access is outside it. -/
theorem c27_csr_index_outside :
    csr 0xfff110f3 = 4095 ∧ ¬ csr 0xfff110f3 < CSR_COUNT ∧
    cpu_execute (cpu_of [0, 0, 9] (DRAM_BASE + 4) []) 0xfff110f3 = .error .out_of_bounds ∧
    cpu_execute (cpu_of [0, 0, 9] (DRAM_BASE + 4) []) 0xfe5110f3 = .error .out_of_bounds :=
  ⟨by decide, by decide, rfl, rfl⟩

/-- Claim C28 (CSRRS sets and CSRRC clears the bits of `s` in the CSR, and `rd`
receives the old CSR value) evaluated with the CSR 0x300 holding 7, `x1 = 0xAA`
and `x2 = 2`: `csrrs x1, 0x300, x2` (0x300120f3) leaves the CSR at 7 and `x1`
at 0xAA; `csrrc x1, 0x300, x2` (0x300130f3) leaves the CSR at 0, not 5, and
`x1` at 0xAA; `csrrci x1, 0x300, 2` (0x300170f3) does the same. -/
theorem c28_csrrs_csrrc :
    (∃ c, cpu_execute
        { cpu_of [0, 0xAA, 2] (DRAM_BASE + 4) [] with
          csr := fun i => if i = 0x300 then 7 else 0 } 0x300120f3 = .ok (c, 1) ∧
      c.csr 0x300 = 7 ∧ c.regs 1 = 0xAA) ∧
    (∃ c, cpu_execute
        { cpu_of [0, 0xAA, 2] (DRAM_BASE + 4) [] with
          csr := fun i => if i = 0x300 then 7 else 0 } 0x300130f3 = .ok (c, 1) ∧
      c.csr 0x300 = 0 ∧ c.regs 1 = 0xAA) ∧
    (∃ c, cpu_execute
        { cpu_of [0, 0xAA, 2] (DRAM_BASE + 4) [] with
          csr := fun i => if i = 0x300 then 7 else 0 } 0x300170f3 = .ok (c, 1) ∧
      c.csr 0x300 = 0 ∧ c.regs 1 = 0xAA) :=
  ⟨⟨_, rfl, rfl, rfl⟩, ⟨_, rfl, rfl, rfl⟩, ⟨_, rfl, rfl, rfl⟩⟩

set_option maxRecDepth 8000 in
/-- Claim C29 (an AMO on a 32-bit word puts the old word, sign-extended, in `rd`)
evaluated on `amoadd.w x3, x2, (x1)` (0x0020a1af) with `x1 = DRAM_BASE`,
`x2 = 1`: with the bytes 0xFF, 0xFF, 0xFF, 0xFF at the address, the word becomes
0 and `x3` receives 0x00000000FFFFFFFF, which is not sign-extended; with the
bytes 0x78, 0x56, 0x34, 0x12, `x3` receives 0x56565678 and the word becomes
0x56565679. -/
theorem c29_amo_zero_extends :
    (∃ c, cpu_execute (cpu_of [0, DRAM_BASE, 1] (DRAM_BASE + 4) [0xFF, 0xFF, 0xFF, 0xFF])
        0x0020a1af = .ok (c, 1) ∧
      c.regs 3 = 0xFFFFFFFF ∧ ¬ sign_extended_32 (c.regs 3) ∧
      le_value c.bus.dram.mem 0 4 = 0) ∧
    (∃ c, cpu_execute (cpu_of [0, DRAM_BASE, 1] (DRAM_BASE + 4) [0x78, 0x56, 0x34, 0x12])
        0x0020a1af = .ok (c, 1) ∧
      c.regs 3 = 0x56565678 ∧ le_value c.bus.dram.mem 0 4 = 0x56565679) :=
  ⟨⟨_, rfl, rfl, by decide, rfl⟩, ⟨_, rfl, rfl, rfl⟩⟩

/-- Claim C32 (every DRAM operation keeps `alloc_size ≤ DRAM_SIZE`, and an alloc
that would exceed `DRAM_SIZE` leaves bytes and watermark unchanged, for any
size) evaluated on the DRAM left by `dram_init` with the block at 0x10000 and
an alloc of 0xFFFFFFFFFFFF0000 bytes: the sum `alloc_addr + size` wraps to 0,
the range check accepts the request although it exceeds `DRAM_SIZE`, and the
copy runs outside the buffer. -/
theorem c32_alloc_size_wraps (m : Nat → Nat) (data : List Nat) :
    (dram_init 0x10000 m).alloc_size ≤ DRAM_SIZE ∧
    DRAM_SIZE < (dram_init 0x10000 m).alloc_size + 0xFFFFFFFFFFFF0000 ∧
    dram_alloc_data (dram_init 0x10000 m) 0xFFFFFFFFFFFF0000 data = .error .out_of_bounds := by
  have c1 : ¬ add64 0x10000 0xFFFFFFFFFFFF0000 > add64 0x10000 DRAM_SIZE := by
    unfold add64 DRAM_SIZE
    norm_num
  have c2 : sub64 0x10000 0x10000 = 0 := by
    unfold sub64
    norm_num
  have c3 : ¬ 0 + 0xFFFFFFFFFFFF0000 ≤ DRAM_SIZE := by
    unfold DRAM_SIZE
    norm_num
  refine ⟨Nat.zero_le _, ?_, ?_⟩
  · show 1024 * 1024 * 1 < 0 + 0xFFFFFFFFFFFF0000
    norm_num
  · unfold dram_alloc_data dram_init
    simp only []
    rw [if_neg c1, c2, if_neg c3]

/-- Counterexample to C33: after `cpu_init` on a CPU whose registers `x0 .. x3`
held 7, `x2` is `DRAM_BASE + DRAM_SIZE = 0x80100000`, not 0 (and `x1`, `x3`
still hold 7). -/
theorem c33_stack_pointer_set :
    (cpu_init (cpu_of [7, 7, 7, 7] 0 []) 0x10000 (fun _ => 0)).regs 2 = 0x80100000 ∧
    (cpu_init (cpu_of [7, 7, 7, 7] 0 []) 0x10000 (fun _ => 0)).regs 1 = 7 ∧
    (cpu_init (cpu_of [7, 7, 7, 7] 0 []) 0x10000 (fun _ => 0)).regs 3 = 7 :=
  ⟨rfl, rfl, rfl⟩

/-- Claim C33, amended: for every prior content of the CPU structure, `cpu_init`
sets `regs[0]` to 0, the stack pointer `regs[2]` to `DRAM_BASE + DRAM_SIZE`,
`pc` to `DRAM_BASE`, and the DRAM watermark to 0. -/
theorem c33_cpu_init (cpu : CPU) (p : Nat) (m : Nat → Nat) :
    (cpu_init cpu p m).regs 0 = 0 ∧
    (cpu_init cpu p m).regs 2 = DRAM_BASE + DRAM_SIZE ∧
    (cpu_init cpu p m).pc = DRAM_BASE ∧
    (cpu_init cpu p m).bus.dram.alloc_size = 0 :=
  ⟨rfl, rfl, rfl, rfl⟩

/-- Claim C34 (SRL shifts `regs[rs1]` right logically and SRA arithmetically by
`regs[rs2][5:0]`) evaluated on `srl x3, x1, x2` (0x0020d1b3) with `x1 = 16`,
`x2 = 2`, which leaves `x3 = 18 = x1 | x2`, not 4; on `sra x3, x1, x2`
(0x4020d1b3) with `x1 = 2 ^ 63`, `x2 = 1`, which leaves `x3 = 2 ^ 63 + 1`, not
`0xC000000000000000`; and on `srl x3, x1, x2` with `x2 = 64`, where the shift
count is the whole register and the shift is undefined. -/
theorem c34_srl_sra_then_or :
    (∃ c, cpu_execute (cpu_of [0, 16, 2] (DRAM_BASE + 4) []) 0x0020d1b3 = .ok (c, 1) ∧
      c.regs 3 = 18) ∧
    (∃ c, cpu_execute (cpu_of [0, 0x8000000000000000, 1] (DRAM_BASE + 4) []) 0x4020d1b3
        = .ok (c, 1) ∧ c.regs 3 = 0x8000000000000001) ∧
    cpu_execute (cpu_of [0, 16, 64] (DRAM_BASE + 4) []) 0x0020d1b3 = .error .shift_count :=
  ⟨⟨_, rfl, rfl⟩, ⟨_, rfl, rfl⟩, rfl⟩

/-- Claim C35 (SLLI, SRLI, SRAI shift by the 6-bit amount `inst[25:20]`)
evaluated on `slli x1, x2, 32` (0x02011093) with `x2 = 1`, which leaves
`x1 = 1`, not `2 ^ 32`; on `srli x1, x2, 32` (0x02015093) with `x2 = 2 ^ 32`,
`x1 = 5`, which leaves `x1 = 5`, not 1; and on `srai x1, x2, 1` (0x40115093)
with `x2 = 4`, where the shift count is 1025 and the shift is undefined. -/
theorem c35_shift_immediates :
    (∃ c, cpu_execute (cpu_of [0, 5, 1] (DRAM_BASE + 4) []) 0x02011093 = .ok (c, 1) ∧
      c.regs 1 = 1) ∧
    (∃ c, cpu_execute (cpu_of [0, 5, 0x100000000] (DRAM_BASE + 4) []) 0x02015093 = .ok (c, 1) ∧
      c.regs 1 = 5) ∧
    cpu_execute (cpu_of [0, 5, 4] (DRAM_BASE + 4) []) 0x40115093 = .error .shift_count :=
  ⟨⟨_, rfl, rfl⟩, ⟨_, rfl, rfl⟩, rfl⟩

/-- Claim C36 (SRLIW and SRAIW work on the low 32 bits of `regs[rs1]` only)
evaluated on `srliw x1, x2, 1` (0x0011509b) with `x2 = 2 ^ 32`, which leaves
`x1 = 0xFFFFFFFF80000000`, not 0; and on `sraiw x1, x2, 1` (0x4011509b) with
`x2 = 0x80000000`, which leaves `x1 = 0x40000000`, not `0xFFFFFFFFC0000000`. -/
theorem c36_srliw_sraiw_high_bits :
    (∃ c, cpu_execute (cpu_of [0, 5, 0x100000000] (DRAM_BASE + 4) []) 0x0011509b = .ok (c, 1) ∧
      c.regs 1 = 0xFFFFFFFF80000000) ∧
    (∃ c, cpu_execute (cpu_of [0, 5, 0x80000000] (DRAM_BASE + 4) []) 0x4011509b = .ok (c, 1) ∧
      c.regs 1 = 0x40000000) :=
  ⟨⟨_, rfl, rfl⟩, ⟨_, rfl, rfl⟩⟩

/-- Claim C37 (an access accepted by the range check touches no byte outside the
DRAM buffer, also for `addr < DRAM_BASE`) evaluated on a DRAM with 64 allocated
bytes: for the 8-bit access at `DRAM_BASE - 8` the offset is `2 ^ 64 - 8`, the
check `offset + 8 > alloc_size` is false after the sum has wrapped to 0, and
the load and the store index the buffer at `2 ^ 64 - 8`; the same happens for
the 64-bit load at `DRAM_BASE - 64`. -/
theorem c37_accepted_access_outside :
    (dram_of []).alloc_size ≤ DRAM_SIZE ∧
    ¬ (mmu_get_offset (dram_of []).mem_addr (DRAM_BASE - 8) + 8) % 2 ^ 64
        > (dram_of []).alloc_size ∧
    DRAM_SIZE ≤ mmu_get_offset (dram_of []).mem_addr (DRAM_BASE - 8) ∧
    bus_load ⟨dram_of []⟩ (DRAM_BASE - 8) 8 = .error .out_of_bounds ∧
    bus_store ⟨dram_of []⟩ (DRAM_BASE - 8) 8 0xAB = .error .out_of_bounds ∧
    bus_load ⟨dram_of []⟩ (DRAM_BASE - 64) 64 = .error .out_of_bounds :=
  ⟨by decide, by decide, by decide, rfl, rfl, rfl⟩

/-- Claim C38: for every instruction word the decoded indices `rd`, `rs1`, `rs2`
are below 32; and a call of `cpu_execute` that returns has written no register
other than `regs[0]` and `regs[rd]`, hence none at an index of 32 or more. -/
theorem c38_register_indices (inst : Nat) :
    rd inst < 32 ∧ rs1 inst < 32 ∧ rs2 inst < 32 ∧
    (∀ (cpu c : CPU) (r i : Nat), cpu_execute cpu inst = .ok (c, r) →
      i ≠ rd inst → i ≠ 0 → c.regs i = cpu.regs i) ∧
    (∀ (cpu c : CPU) (r i : Nat), cpu_execute cpu inst = .ok (c, r) →
      32 ≤ i → c.regs i = cpu.regs i) := by
  have h : ∀ x : Nat, x &&& 0x1f < 32 := fun x => by
    have := Nat.and_pow_two_sub_one_eq_mod x 5
    simp only [Nat.reducePow, Nat.reduceSub] at this
    rw [this]
    omega
  have hrd : rd inst < 32 := h _
  refine ⟨hrd, h _, h _, fun cpu c r i he hi h0 => cpu_execute_regs cpu c inst r he i hi h0,
    fun cpu c r i he hi => cpu_execute_regs cpu c inst r he i (by omega) (by omega)⟩

/-- Witness of C38: `addi x1, x0, 7` (0x00700093) decodes `rd = 1` and leaves the
value at index 40 of the register function as it was. -/
theorem c38_register_indices_witness :
    rd 0x00700093 < 32 ∧
    ∃ c, cpu_execute (cpu_of [] (DRAM_BASE + 4) []) 0x00700093 = .ok (c, 1) ∧
      c.regs 40 = (cpu_of [] (DRAM_BASE + 4) []).regs 40 :=
  ⟨(c38_register_indices 0x00700093).1, _, rfl,
    (c38_register_indices 0x00700093).2.2.2.2 (cpu_of [] (DRAM_BASE + 4) []) _ 1 40 rfl
      (by decide)⟩

/-- Claim C39 (DIVW, DIVUW, REMW, REMUW never evaluate a division or remainder by
zero) evaluated with `rs2 = x0` on `divw x1, x2, x0` (0x020140bb),
`divuw x1, x2, x0` (0x020150bb), `remw x1, x2, x0` (0x020160bb) and
`remuw x1, x2, x0` (0x020170bb), and on `divw x1, x2, x3` (0x023140bb) with
`x3 = 0`: each handler divides by zero. -/
theorem c39_division_by_zero :
    cpu_execute (cpu_of [0, 5, 12] (DRAM_BASE + 4) []) 0x020140bb = .error .division_by_zero ∧
    cpu_execute (cpu_of [0, 5, 12] (DRAM_BASE + 4) []) 0x020150bb = .error .division_by_zero ∧
    cpu_execute (cpu_of [0, 5, 12] (DRAM_BASE + 4) []) 0x020160bb = .error .division_by_zero ∧
    cpu_execute (cpu_of [0, 5, 12] (DRAM_BASE + 4) []) 0x020170bb = .error .division_by_zero ∧
    cpu_execute (cpu_of [0, 5, 12, 0] (DRAM_BASE + 4) []) 0x023140bb
      = .error .division_by_zero :=
  ⟨rfl, rfl, rfl, rfl, rfl⟩

/-- Claim C40: for every instruction word and any two CPU states that differ only
in `regs[0]`, `cpu_execute` gives the same outcome: the same return code and
the same registers, `pc`, CSRs and DRAM, or the same fault; so does
`cpu_step_one`. -/
theorem c40_x0_not_observed (cpu1 cpu2 : CPU) (inst : Nat)
    (hregs : ∀ i, i ≠ 0 → cpu1.regs i = cpu2.regs i) (hpc : cpu1.pc = cpu2.pc)
    (hcsr : cpu1.csr = cpu2.csr) (hbus : cpu1.bus = cpu2.bus) :
    cpu_execute cpu1 inst = cpu_execute cpu2 inst ∧ cpu_step_one cpu1 = cpu_step_one cpu2 := by
  have h0 : ∀ c1 c2 : CPU, (∀ i, i ≠ 0 → c1.regs i = c2.regs i) → c1.pc = c2.pc →
      c1.csr = c2.csr → c1.bus = c2.bus → set_reg c1 0 0 = set_reg c2 0 0 := by
    intro c1 c2 h1 h2 h3 h4
    unfold set_reg
    rw [h2, h3, h4]
    congr 1
    funext j
    by_cases hj : j = 0
    · rw [if_pos hj, if_pos hj]
    · rw [if_neg hj, if_neg hj, h1 j hj]
  have he : ∀ c1 c2 : CPU, ∀ w : Nat, set_reg c1 0 0 = set_reg c2 0 0 →
      cpu_execute c1 w = cpu_execute c2 w := by
    intro c1 c2 w h
    unfold cpu_execute
    simp only []
    rw [h]
  refine ⟨he _ _ _ (h0 _ _ hregs hpc hcsr hbus), ?_⟩
  have hf : cpu_fetch cpu1 = cpu_fetch cpu2 := by
    unfold cpu_fetch
    rw [hbus, hpc]
  generalize hs : cpu_fetch cpu2 = s at hf
  cases s with
  | error e =>
    unfold cpu_step_one
    rw [hf, hs, error_bind, error_bind]
  | ok w =>
    rw [cpu_step_one_eq cpu1 w hf, cpu_step_one_eq cpu2 w hs]
    refine he _ _ _ (h0 _ _ hregs ?_ hcsr hbus)
    show add64 cpu1.pc 4 = add64 cpu2.pc 4
    rw [hpc]

/-- Witness of C40: `add x2, x1, x0` (0x00008133) with `x1 = 5`, run with
`regs[0] = 0xDEAD` and with `regs[0] = 0`. -/
theorem c40_x0_not_observed_witness :
    cpu_execute (cpu_of [0xDEAD, 5] (DRAM_BASE + 4) []) 0x00008133
      = cpu_execute (cpu_of [0, 5] (DRAM_BASE + 4) []) 0x00008133 :=
  (c40_x0_not_observed (cpu_of [0xDEAD, 5] (DRAM_BASE + 4) []) (cpu_of [0, 5] (DRAM_BASE + 4) [])
    0x00008133 (by
      intro i hi
      show regs_of [0xDEAD, 5] i = regs_of [0, 5] i
      unfold regs_of
      cases i with
      | zero => exact absurd rfl hi
      | succ k => rfl) rfl rfl rfl).1

end Cemu
